import Mathlib

/-!
# qt-cpp-data-visualization: nearest point, averaging, distance ratios,
loading and the threshold filter

A shallow embedding of the analytical core of `MainWindow`
(`src/src/graphFunctions.cpp`, `src/src/csvFunctions.cpp`,
`src/src/mainwindow.h`).

Modelling conventions.

* A finite `double` is an exact rational (`ℚ`); rounding is not modelled.
  The only non-finite values the embedded code can create come from a
  division by zero, so the result of a division that the source does not
  guard is a `Dbl` (a rational, or NaN, or an infinity).
* `int` indices are unbounded integers: the index arithmetic of the source
  stays far below `2^31` for every container that fits into memory.
* A `QVector` is a `List`. An access `v[i]` outside `0 .. size-1` is
  undefined behaviour in C++; a function that may perform one returns an
  `Option`, and `none` means that such an access happened.
* The window is an explicit state (`MainWindow`); a slot is a function on it,
  and what the user, the dialogs and the database supply is an argument.
-/

namespace QtDataVis

/-! ## Data model -/

/-- One point of a `QCPGraphDataContainer`: `key` is the frequency, `value`
the sample. -/
structure QCPGraphData where
  key : ℚ
  value : ℚ
deriving DecidableEq, Repr

/-- The value of a `double` expression whose evaluation may divide by zero. -/
inductive Dbl where
  | val (q : ℚ)
  | nan
  | posInf
  | negInf
deriving DecidableEq, Repr

/-- IEEE division `a / b` of two finite doubles, the divisor being `+0.0` or
a non-zero number: `0/0` is NaN, `a/0` is an infinity with the sign of `a`. -/
def Dbl.div (a b : ℚ) : Dbl :=
  if b = 0 then
    if a = 0 then Dbl.nan else if 0 < a then Dbl.posInf else Dbl.negInf
  else Dbl.val (a / b)

/-- The comparison `a <= b` of doubles where `a` may be non-finite and `b` is
finite: false for NaN and `+inf`, true for `-inf`. -/
def Dbl.le (a : Dbl) (b : ℚ) : Bool :=
  match a with
  | Dbl.val q => decide (q ≤ b)
  | Dbl.nan => false
  | Dbl.posInf => false
  | Dbl.negInf => true

/-- Fields of `struct CSVInfo` (the Ls collection) that the computations
read or write. -/
structure CSVInfo where
  fileName : String
  lsValues : List ℚ
  rsValues : List ℚ
  frequenciesRs : List ℚ
  frequenciesLs : List ℚ
  visible : Bool
deriving DecidableEq, Repr

/-- Fields of `struct CSVInfo2` (the Rs collection) that the computations
read or write. -/
structure CSVInfo2 where
  fileName : String
  lsValues : List ℚ
  rsValues : List ℚ
  frequenciesRs : List ℚ
  frequenciesLs : List ℚ
  visible : Bool
deriving DecidableEq, Repr

/-! ## findNearestDataPoint (graphFunctions.cpp:184-226) -/

/-- The key read by `data->at(index)->key`; `none` when `index` does not
address an element. -/
def keyAt (data : List QCPGraphData) (index : Int) : Option ℚ :=
  if 0 ≤ index then (data.get? index.toNat).map QCPGraphData.key else none

/-- The code after the `while` loop of `findNearestDataPoint`: the search
collapsed with `upperIndex < lowerIndex` and no exact match. -/
def nearestAfterLoop (data : List QCPGraphData) (xValue : ℚ)
    (lowerIndex upperIndex : Int) : Option Int :=
  if upperIndex < 0 then some 0
  else if lowerIndex ≥ (data.length : Int) then some ((data.length : Int) - 1)
  else
    match keyAt data upperIndex, keyAt data lowerIndex with
    | some lowerX, some upperX =>
      some (if |xValue - lowerX| < |xValue - upperX| then upperIndex else lowerIndex)
    | _, _ => none

/-- The `while (lowerIndex <= upperIndex)` loop of `findNearestDataPoint`
followed by the code after it. Each unit of fuel pays for one test of the
loop condition; `none` when the fuel runs out or an element read is out of
range. -/
def nearestLoop (data : List QCPGraphData) (xValue : ℚ) :
    Nat → Int → Int → Option Int
  | 0, _, _ => none
  | fuel + 1, lowerIndex, upperIndex =>
    if lowerIndex ≤ upperIndex then
      let middleIndex := Int.tdiv (lowerIndex + upperIndex) 2
      match keyAt data middleIndex with
      | none => none
      | some middleX =>
        if xValue < middleX then
          nearestLoop data xValue fuel lowerIndex (middleIndex - 1)
        else if xValue > middleX then
          nearestLoop data xValue fuel (middleIndex + 1) upperIndex
        else some middleIndex
    else nearestAfterLoop data xValue lowerIndex upperIndex

/-- `MainWindow::findNearestDataPoint`. The argument is `none` for a null
`QSharedPointer`. The loop gets `size + 1` units of fuel, which is always
enough (see `findNearestDataPoint_total`). -/
def findNearestDataPoint (data : Option (List QCPGraphData)) (xValue : ℚ) :
    Option Int :=
  match data with
  | none => some (-1)
  | some d =>
    if d.length = 0 then some (-1)
    else nearestLoop d xValue (d.length + 1) 0 ((d.length : Int) - 1)

/-! ## Kind-independent view of a series

The Ls and the Rs branch of `calculateAverageValues` and of
`calculateDistanceRatios` are the same code up to the collection and the
fields read: `loadedCSVLS`, `frequenciesLs`, `lsValues` in one,
`loadedCSVRS`, `frequenciesRs`, `rsValues` in the other. `Series` holds the
three fields a branch reads, and each branch is the shared code run on the
view of its collection. -/

/-- The fields one branch reads of an entry of its collection. -/
structure Series where
  visible : Bool
  frequencies : List ℚ
  values : List ℚ
deriving DecidableEq, Repr

/-- The view of an Ls entry: `visible`, `frequenciesLs`, `lsValues`. -/
def lsSeries (fileInfo : CSVInfo) : Series :=
  ⟨fileInfo.visible, fileInfo.frequenciesLs, fileInfo.lsValues⟩

/-- The view of an Rs entry: `visible`, `frequenciesRs`, `rsValues`. -/
def rsSeries (fileInfo2RS : CSVInfo2) : Series :=
  ⟨fileInfo2RS.visible, fileInfo2RS.frequenciesRs, fileInfo2RS.rsValues⟩

/-- The collection a branch works on, as views. -/
def seriesOfKind (loadedCSVLS : List CSVInfo) (loadedCSVRS : List CSVInfo2)
    (useLsData : Bool) : List Series :=
  if useLsData then loadedCSVLS.map lsSeries else loadedCSVRS.map rsSeries

/-! ## calculateAverageValues (graphFunctions.cpp:896-1028) -/

/-- The inner loop `for (i = 0; i < data.size(); ++i) averageValues[i] += data[i];`.
`none` when `data` is longer than `averageValues`, so that `averageValues[i]`
is out of range. -/
def addValues : List ℚ → List ℚ → Option (List ℚ)
  | averageValues, [] => some averageValues
  | [], _ :: _ => none
  | a :: averageValues, d :: data =>
    (addValues averageValues data).map (fun rest => (a + d) :: rest)

/-- The loop over the collection: every entry for which `included` holds is
added into `averageValues` and counted in `numFiles`. -/
def sumSeries (included : Series → Bool) :
    List Series → List ℚ → Nat → Option (List ℚ × Nat)
  | [], averageValues, numFiles => some (averageValues, numFiles)
  | fileInfo :: rest, averageValues, numFiles =>
    if included fileInfo then
      match addValues averageValues fileInfo.values with
      | none => none
      | some sums => sumSeries included rest sums (numFiles + 1)
    else sumSeries included rest averageValues numFiles

/-- One branch of `calculateAverageValues` on the view of its collection:
zeros sized by the first entry's frequency count, the sum over the visible
entries (`onlyVisibleGraphs`) or over all of them, and the division by
`numFiles` under the guard `numFiles > 0`. -/
def averageOfSeries (loaded : List Series) (onlyVisibleGraphs : Bool) :
    Option (List ℚ) :=
  match loaded with
  | [] => some []
  | first :: _ =>
    let zeros : List ℚ := List.replicate first.frequencies.length 0
    let summed :=
      if onlyVisibleGraphs then sumSeries (fun fileInfo => fileInfo.visible) loaded zeros 0
      else sumSeries (fun _ => true) loaded zeros 0
    match summed with
    | none => none
    | some (averageValues, numFiles) =>
      if numFiles > 0 then some (averageValues.map (fun v => v / (numFiles : ℚ)))
      else some averageValues

/-- `MainWindow::calculateAverageValues(useLsData, onlyVisibleGraphs)`; `none`
when an accumulator access is out of range. -/
def calculateAverageValues (loadedCSVLS : List CSVInfo) (loadedCSVRS : List CSVInfo2)
    (useLsData onlyVisibleGraphs : Bool) : Option (List ℚ) :=
  if useLsData then averageOfSeries (loadedCSVLS.map lsSeries) onlyVisibleGraphs
  else averageOfSeries (loadedCSVRS.map rsSeries) onlyVisibleGraphs

/-! ## Visibility toggles (graphFunctions.cpp:1097-1110, 305-330) -/

/-- The assignment `if (i < loadedCSVLS.size()) loadedCSVLS[i].visible = b;`. -/
def setVisibleLS : List CSVInfo → Nat → Bool → List CSVInfo
  | [], _, _ => []
  | fileInfo :: rest, 0, b => { fileInfo with visible := b } :: rest
  | fileInfo :: rest, i + 1, b => fileInfo :: setVisibleLS rest i b

/-- The assignment `if (i < loadedCSVRS.size()) loadedCSVRS[i].visible = b;`. -/
def setVisibleRS : List CSVInfo2 → Nat → Bool → List CSVInfo2
  | [], _, _ => []
  | fileInfo :: rest, 0, b => { fileInfo with visible := b } :: rest
  | fileInfo :: rest, i + 1, b => fileInfo :: setVisibleRS rest i b

/-! ## calculateDistanceRatios (graphFunctions.cpp:337-547) -/

/-- The inner loop over `j < data.size()`: under `if (fileInfo.visible)` it
adds `std::abs(data[j] - averageValues[j])` to `sumDifference` and counts the
point. The pair is `(sumDifference, visibleDataPoints)`; `none` when
`averageValues[j]` is out of range. -/
def sumDifferences (visible : Bool) : List ℚ → List ℚ → Option (ℚ × Nat)
  | [], _ => some (0, 0)
  | d :: data, averageValues =>
    if visible then
      match averageValues with
      | [] => none
      | a :: rest =>
        (sumDifferences visible data rest).map
          (fun r => (|d - a| + r.1, r.2 + 1))
    else sumDifferences visible data averageValues.tail

/-- The value of `averageDifference` for one entry:
`(visibleDataPoints > 0) ? sumDifference / visibleDataPoints : 0.0`. -/
def averageDifference (fileInfo : Series) (averageValues : List ℚ) : Option ℚ :=
  (sumDifferences fileInfo.visible fileInfo.values averageValues).map
    (fun r => if r.2 > 0 then r.1 / (r.2 : ℚ) else 0)

/-- The first pass: `maxDistanceRatio` after the loop over the collection,
invisible entries being skipped. -/
def maxDistanceRatioLoop (averageValues : List ℚ) :
    List Series → ℚ → Option ℚ
  | [], maxDistanceRatio => some maxDistanceRatio
  | fileInfo :: rest, maxDistanceRatio =>
    if !fileInfo.visible then maxDistanceRatioLoop averageValues rest maxDistanceRatio
    else
      match averageDifference fileInfo averageValues with
      | none => none
      | some ratioArray =>
        if ratioArray > maxDistanceRatio then
          maxDistanceRatioLoop averageValues rest ratioArray
        else maxDistanceRatioLoop averageValues rest maxDistanceRatio

/-- The sentinel `101.10` pushed for an invisible entry. -/
def sentinelRatio : Dbl := Dbl.val (1011 / 10)

/-- The second pass: the values pushed to `distanceRatios`, in collection
order: the sentinel for an invisible entry, the unguarded quotient
`averageDifference / maxDistanceRatio` for a visible one. -/
def distanceRatiosLoop (averageValues : List ℚ) (maxDistanceRatio : ℚ) :
    List Series → Option (List Dbl)
  | [] => some []
  | fileInfo :: rest =>
    if !fileInfo.visible then
      (distanceRatiosLoop averageValues maxDistanceRatio rest).map
        (fun rs => sentinelRatio :: rs)
    else
      match averageDifference fileInfo averageValues with
      | none => none
      | some avgDiff =>
        (distanceRatiosLoop averageValues maxDistanceRatio rest).map
          (fun rs => Dbl.div avgDiff maxDistanceRatio :: rs)

/-- One branch of `calculateDistanceRatios` on the view of its collection.
When the average is empty the source calls `addAverageGraph`, which reads
entry 0 of the collection: out of range for an empty collection. -/
def distanceRatiosOfSeries (loaded : List Series) : Option (List Dbl) :=
  match averageOfSeries loaded true with
  | none => none
  | some averageValues =>
    if averageValues.isEmpty && loaded.isEmpty then none
    else
      match maxDistanceRatioLoop averageValues loaded 0 with
      | none => none
      | some maxDistanceRatio => distanceRatiosLoop averageValues maxDistanceRatio loaded

/-- `MainWindow::calculateDistanceRatios()`: the new content of
`distanceRatios`, `useLsData` being the state of the Ls radio button; `none`
when an access is out of range. -/
def calculateDistanceRatios (loadedCSVLS : List CSVInfo) (loadedCSVRS : List CSVInfo2)
    (useLsData : Bool) : Option (List Dbl) :=
  if useLsData then distanceRatiosOfSeries (loadedCSVLS.map lsSeries)
  else distanceRatiosOfSeries (loadedCSVRS.map rsSeries)

/-! ## Window state (mainwindow.h)

The members of `MainWindow` that the loading, averaging, ranking and filter
slots read or write. `graphs` is the graph list of `ui->Plot`, in index
order. The two radio buttons are exclusive and one of them is checked, so
`radioButton_Ls` stands for both: `radioButton_Rs->isChecked()` is its
negation. -/

/-- The `struct RecordedPoint` of mainwindow.h. -/
structure RecordedPoint where
  x : ℚ
  y : ℚ
  graphName : String
  distanceRatio : ℚ
  totalDistanceToAverage : ℚ
deriving DecidableEq, Repr

/-- A graph of the plot: its name, its visibility and its data container. -/
structure QCPGraph where
  name : String
  visible : Bool
  data : List QCPGraphData
deriving DecidableEq, Repr

/-- The four frequency bounds kept in the `frequency_range` table. -/
structure FrequencyRange where
  minFrequencyLS : ℚ
  maxFrequencyLS : ℚ
  minFrequencyRS : ℚ
  maxFrequencyRS : ℚ
deriving DecidableEq, Repr

/-- The state of the main window. -/
structure MainWindow where
  loadedCSVLS : List CSVInfo
  loadedCSVRS : List CSVInfo2
  graphs : List QCPGraph
  radioButton_Ls : Bool
  avg : Bool
  distanceRatios : List Dbl
  recordedPoints : List RecordedPoint
  minFrequencyLS : ℚ
  maxFrequencyLS : ℚ
  minFrequencyRS : ℚ
  maxFrequencyRS : ℚ
deriving Repr

/-- The window after the constructor: nothing loaded, no graph, the Ls radio
button checked, `avg = false`; the bounds are those read from the database. -/
def initialWindow (range : FrequencyRange) : MainWindow :=
  { loadedCSVLS := [], loadedCSVRS := [], graphs := [], radioButton_Ls := true,
    avg := false, distanceRatios := [], recordedPoints := [],
    minFrequencyLS := range.minFrequencyLS, maxFrequencyLS := range.maxFrequencyLS,
    minFrequencyRS := range.minFrequencyRS, maxFrequencyRS := range.maxFrequencyRS }

/-- `QCPGraph::setData(keys, values)`: the points `(keys[i], values[i])` for
`i` below both sizes, kept sorted by key by the container (the order among
equal keys is the input order). -/
def setData (keys values : List ℚ) : List QCPGraphData :=
  (List.zipWith QCPGraphData.mk keys values).insertionSort (fun p q => p.key ≤ q.key)

/-- The test `graph->name() == "Average LS" || graph->name() == "Average RS"`. -/
def isAverageGraph (graph : QCPGraph) : Bool :=
  graph.name == "Average LS" || graph.name == "Average RS"

/-- `graph(i)->setVisible(b)` under `if (graph)`: nothing happens when the plot
has no graph `i`. -/
def setGraphVisible : List QCPGraph → Nat → Bool → List QCPGraph
  | [], _, _ => []
  | graph :: rest, 0, b => { graph with visible := b } :: rest
  | graph :: rest, i + 1, b => graph :: setGraphVisible rest i b

/-! ## clearEverything (graphFunctions.cpp:78-109) -/

/-- `MainWindow::clearEverything`: the graphs, both collections and the
recorded points are emptied and `avg` is reset; `distanceRatios` is left as
it is. -/
def clearEverything (w : MainWindow) : MainWindow :=
  { w with graphs := [], loadedCSVLS := [], loadedCSVRS := [], recordedPoints := [],
           avg := false }

/-! ## Mode switches (graphFunctions.cpp:806-893) -/

/-- `MainWindow::on_radioButton_Ls_clicked`: the graphs are replaced by one
visible graph per Ls entry and every Ls entry becomes visible. -/
def on_radioButton_Ls_clicked (w : MainWindow) : MainWindow :=
  { w with
    loadedCSVLS := w.loadedCSVLS.map (fun fileInfo => { fileInfo with visible := true }),
    graphs := w.loadedCSVLS.map (fun fileInfo =>
      ⟨fileInfo.fileName, true, setData fileInfo.frequenciesLs fileInfo.lsValues⟩) }

/-- `MainWindow::on_radioButton_Rs_clicked`: the graphs are replaced by one
visible graph per Rs entry and every Rs entry becomes visible. -/
def on_radioButton_Rs_clicked (w : MainWindow) : MainWindow :=
  { w with
    loadedCSVRS := w.loadedCSVRS.map (fun fileInfo => { fileInfo with visible := true }),
    graphs := w.loadedCSVRS.map (fun fileInfo =>
      ⟨fileInfo.fileName, true, setData fileInfo.frequenciesRs fileInfo.rsValues⟩) }

/-! ## on_btn_load_plot_clicked (csvFunctions.cpp:21-143) -/

/-- One comma-separated field of a line, as `QString::toDouble` sees it: a
number, or text that is not one. -/
inductive Field where
  | number (q : ℚ)
  | text
deriving DecidableEq, Repr

/-- `field.toDouble(&ok)`: the value and the flag written to `ok`; the value
is `0.0` when the conversion fails. -/
def Field.toDouble : Field → ℚ × Bool
  | Field.number q => (q, true)
  | Field.text => (0, false)

/-- A file picked in the dialog: its base name and, when it can be opened,
its lines after the header, each split at the commas. -/
structure CsvFile where
  baseName : String
  lines : Option (List (List Field))
deriving DecidableEq, Repr

/-- The four local vectors filled while a file is read. -/
structure Columns where
  lsValues : List ℚ
  rsValues : List ℚ
  frequenciesRs : List ℚ
  frequenciesLs : List ℚ
deriving DecidableEq, Repr

/-- The body of the `while (!in.atEnd())` loop for one line; `none` when the
slot shows the format warning and returns. The five `toDouble(&ok)` calls
write the same `ok`, so the flag tested is the one of the last call, on
`data[2]`. -/
def readLine (w : MainWindow) (cols : Columns) (data : List Field) : Option Columns :=
  match data with
  | d0 :: d1 :: d2 :: _ =>
    let frequency := d0.toDouble.1
    let frequencyLs := d0.toDouble.1
    let frequencyRs := d0.toDouble.1
    let lsValue := d1.toDouble.1
    let rsValue := d2.toDouble.1
    let ok := d2.toDouble.2
    if ok then
      let cols1 : Columns :=
        if frequency ≥ w.minFrequencyLS ∧ frequency ≤ w.maxFrequencyLS then
          { cols with frequenciesLs := cols.frequenciesLs ++ [frequencyLs],
                      lsValues := cols.lsValues ++ [lsValue] }
        else cols
      let cols2 : Columns :=
        if frequency ≥ w.minFrequencyRS ∧ frequency ≤ w.maxFrequencyRS then
          { cols1 with frequenciesRs := cols1.frequenciesRs ++ [frequencyRs],
                       rsValues := cols1.rsValues ++ [rsValue] }
        else cols1
      some cols2
    else none
  | _ => none

/-- The `while (!in.atEnd())` loop over the lines of one file. -/
def readLines (w : MainWindow) : List (List Field) → Columns → Option Columns
  | [], cols => some cols
  | data :: rest, cols =>
    match readLine w cols data with
    | none => none
    | some cols1 => readLines w rest cols1

/-- The body of the loop over the file names for one file: the two entries
appended to the collections, or `none` when the slot returns (the file cannot
be opened, or a line is rejected). -/
def readFile (w : MainWindow) (file : CsvFile) : Option (CSVInfo × CSVInfo2) :=
  match file.lines with
  | none => none
  | some lines =>
    match readLines w lines ⟨[], [], [], []⟩ with
    | none => none
    | some cols =>
      some (⟨file.baseName, cols.lsValues, [], [], cols.frequenciesLs, true⟩,
            ⟨file.baseName, [], cols.rsValues, cols.frequenciesRs, [], true⟩)

/-- The loop over the file names. The flag is `false` when the slot returned
from inside the loop, `true` when the loop ran to its end. -/
def loadFiles : MainWindow → List CsvFile → MainWindow × Bool
  | w, [] => (w, true)
  | w, file :: rest =>
    match readFile w file with
    | none => (w, false)
    | some (fileInfo, fileInfo2RS) =>
      loadFiles { w with loadedCSVLS := w.loadedCSVLS ++ [fileInfo],
                         loadedCSVRS := w.loadedCSVRS ++ [fileInfo2RS] } rest

/-- `MainWindow::on_btn_load_plot_clicked`. `settings` is what
`checkAndSetInitialValues` finds (`none` when it returns false), `files` what
the file dialog returns. -/
def on_btn_load_plot_clicked (w : MainWindow) (settings : Option FrequencyRange)
    (files : List CsvFile) : MainWindow :=
  let w0 := clearEverything w
  match settings with
  | none => w0
  | some range =>
    let w1 := { w0 with minFrequencyLS := range.minFrequencyLS,
                        maxFrequencyLS := range.maxFrequencyLS,
                        minFrequencyRS := range.minFrequencyRS,
                        maxFrequencyRS := range.maxFrequencyRS }
    match loadFiles w1 files with
    | (w2, false) => w2
    | (w2, true) =>
      if w2.radioButton_Ls then on_radioButton_Ls_clicked w2
      else on_radioButton_Rs_clicked w2

/-! ## on_btn_avg_clicked (graphFunctions.cpp:776-803, 1031-1079) -/

/-- `MainWindow::addAverageGraph`: the first graph named as an average graph
is removed and a new visible average graph is appended, its keys being the
frequencies of entry 0 of the collection; `none` when the collection is
empty, entry 0 being out of range. -/
def addAverageGraph (w : MainWindow) (averageValues : List ℚ) (useLsData : Bool) :
    Option MainWindow :=
  let kept := w.graphs.eraseP isAverageGraph
  if useLsData then
    match w.loadedCSVLS with
    | [] => none
    | first :: _ =>
      some { w with graphs :=
        kept ++ [⟨"Average LS", true, setData first.frequenciesLs averageValues⟩] }
  else
    match w.loadedCSVRS with
    | [] => none
    | first :: _ =>
      some { w with graphs :=
        kept ++ [⟨"Average RS", true, setData first.frequenciesRs averageValues⟩] }

/-- `MainWindow::calculateDistanceRatios()` as a member function: the ratios
of `QtDataVis.calculateDistanceRatios` replace `distanceRatios`, and the
average graph is added when the average is empty. -/
def MainWindow.calculateDistanceRatios (w : MainWindow) : Option MainWindow :=
  match calculateAverageValues w.loadedCSVLS w.loadedCSVRS w.radioButton_Ls true with
  | none => none
  | some averageValues =>
    match (if averageValues.isEmpty then addAverageGraph w averageValues w.radioButton_Ls
           else some w) with
    | none => none
    | some w1 =>
      match QtDataVis.calculateDistanceRatios w.loadedCSVLS w.loadedCSVRS
          w.radioButton_Ls with
      | none => none
      | some ratios => some { w1 with distanceRatios := ratios }

/-- `MainWindow::on_btn_avg_clicked`; `none` when an access is out of range. -/
def on_btn_avg_clicked (w : MainWindow) : Option MainWindow :=
  if w.loadedCSVRS.isEmpty && w.loadedCSVLS.isEmpty then some w
  else
    match calculateAverageValues w.loadedCSVLS w.loadedCSVRS false true,
          calculateAverageValues w.loadedCSVLS w.loadedCSVRS true true with
    | some averageRSValues, some averageLSValues =>
      let w1 := { w with avg := true }
      match (if w1.radioButton_Ls then addAverageGraph w1 averageLSValues true
             else addAverageGraph w1 averageRSValues false) with
      | none => none
      | some w2 => w2.calculateDistanceRatios
    | _, _ => none

/-! ## hideSelectedGraph (graphFunctions.cpp:1082-1117) -/

/-- `MainWindow::hideSelectedGraph`, `selected i` telling whether graph `i` is
selected: every selected graph is hidden and the entry of the same index in
the collection of the current mode, when there is one, is made invisible. -/
def hideSelectedGraph (w : MainWindow) (selected : Nat → Bool) : MainWindow :=
  (List.range w.graphs.length).foldl
    (fun w1 i =>
      if selected i then
        { w1 with
          graphs := setGraphVisible w1.graphs i false,
          loadedCSVLS :=
            if w1.radioButton_Ls then setVisibleLS w1.loadedCSVLS i false
            else w1.loadedCSVLS,
          loadedCSVRS :=
            if w1.radioButton_Ls then w1.loadedCSVRS
            else setVisibleRS w1.loadedCSVRS i false }
      else w1)
    w

/-! ## on_btn_HighlightGraphs_clicked (graphFunctions.cpp:550-647) -/

/-- The Ls loop of the filter on the collection: entry `i` becomes visible
exactly when `distanceRatios[i] <= thresholdPercentage`; `none` when
`distanceRatios` has no entry `i`. -/
def highlightLS (thresholdPercentage : ℚ) : List Dbl → List CSVInfo → Option (List CSVInfo)
  | _, [] => some []
  | [], _ :: _ => none
  | ratio :: ratios, fileInfo :: rest =>
    (highlightLS thresholdPercentage ratios rest).map
      (fun r => { fileInfo with visible := ratio.le thresholdPercentage } :: r)

/-- The Rs loop of the filter on the collection. -/
def highlightRS (thresholdPercentage : ℚ) : List Dbl → List CSVInfo2 → Option (List CSVInfo2)
  | _, [] => some []
  | [], _ :: _ => none
  | ratio :: ratios, fileInfo2RS :: rest =>
    (highlightRS thresholdPercentage ratios rest).map
      (fun r => { fileInfo2RS with visible := ratio.le thresholdPercentage } :: r)

/-- The effect of the filter loop on the plot: for `i` below the number of
entries, graph `i`, when there is one, gets the visibility of entry `i`. -/
def highlightGraphs (thresholdPercentage : ℚ) :
    List Dbl → Nat → List QCPGraph → List QCPGraph
  | ratio :: ratios, n + 1, graph :: rest =>
    { graph with visible := ratio.le thresholdPercentage }
      :: highlightGraphs thresholdPercentage ratios n rest
  | _, _, graphs => graphs

/-- `MainWindow::on_btn_HighlightGraphs_clicked`, `value` being the content of
the spin box; `none` when `distanceRatios[i]` is out of range. -/
def on_btn_HighlightGraphs_clicked (w : MainWindow) (value : ℚ) : Option MainWindow :=
  if w.loadedCSVRS.isEmpty && w.loadedCSVLS.isEmpty then some w
  else if w.avg = false then some w
  else if !(w.graphs.any isAverageGraph) then some w
  else
    let thresholdPercentage := value / 100
    if w.radioButton_Ls then
      (highlightLS thresholdPercentage w.distanceRatios w.loadedCSVLS).map
        (fun loaded => { w with
          loadedCSVLS := loaded,
          graphs := highlightGraphs thresholdPercentage w.distanceRatios
            w.loadedCSVLS.length w.graphs })
    else
      (highlightRS thresholdPercentage w.distanceRatios w.loadedCSVRS).map
        (fun loaded => { w with
          loadedCSVRS := loaded,
          graphs := highlightGraphs thresholdPercentage w.distanceRatios
            w.loadedCSVRS.length w.graphs })

/-! ## The other visibility toggles (graphFunctions.cpp:1122-1155, 261-334) -/

/-- `MainWindow::hideUnselectedGraphs`, `selected i` telling whether graph `i`
is selected: every graph that is not selected is hidden and the entry of the
same index in the collection of the current mode, when there is one, is made
invisible. -/
def hideUnselectedGraphs (w : MainWindow) (selected : Nat → Bool) : MainWindow :=
  (List.range w.graphs.length).foldl
    (fun w1 i =>
      if !selected i then
        { w1 with
          graphs := setGraphVisible w1.graphs i false,
          loadedCSVLS :=
            if w1.radioButton_Ls then setVisibleLS w1.loadedCSVLS i false
            else w1.loadedCSVLS,
          loadedCSVRS :=
            if w1.radioButton_Ls then w1.loadedCSVRS
            else setVisibleRS w1.loadedCSVRS i false }
      else w1)
    w

/-- The Ls loop at the end of `onGraphVisibilityChanged`: for `i` below the
number of entries, entry `i` takes the visibility of graph `i` when the plot
has a graph `i`. -/
def syncVisibleLS : List QCPGraph → List CSVInfo → List CSVInfo
  | graph :: graphs, fileInfo :: rest =>
    { fileInfo with visible := graph.visible } :: syncVisibleLS graphs rest
  | _, loaded => loaded

/-- The Rs loop at the end of `onGraphVisibilityChanged`. -/
def syncVisibleRS : List QCPGraph → List CSVInfo2 → List CSVInfo2
  | graph :: graphs, fileInfo2RS :: rest =>
    { fileInfo2RS with visible := graph.visible } :: syncVisibleRS graphs rest
  | _, loaded => loaded

/-- `MainWindow::onGraphVisibilityChanged(checked)` for the menu action of
graph `graph` (`none` for a null graph pointer). `averageAction` is the outcome
of the comparison of the action with `averageGraphActionLs` and
`averageGraphActionRs`, two pointers the source never assigns. `none` when an
access is out of range. -/
def onGraphVisibilityChanged (w : MainWindow) (graph : Option Nat) (checked : Bool)
    (averageAction : Bool) : Option MainWindow :=
  let toggled : Option MainWindow :=
    if averageAction then
      match calculateAverageValues w.loadedCSVLS w.loadedCSVRS w.radioButton_Ls true with
      | none => none
      | some averageValues => addAverageGraph w averageValues w.radioButton_Ls
    else
      match graph with
      | none => some w
      | some i => some { w with graphs := setGraphVisible w.graphs i checked }
  toggled.map (fun w1 =>
    if w1.radioButton_Ls then
      { w1 with loadedCSVLS := syncVisibleLS w1.graphs w1.loadedCSVLS }
    else
      { w1 with loadedCSVRS := syncVisibleRS w1.graphs w1.loadedCSVRS })

/-! ## compareFrequency (comparetable.cpp:24-97, 132-136) -/

/-- The point read by `data->at(index)`; `none` when `index` does not address
an element. -/
def pointAt (data : List QCPGraphData) (index : Int) : Option QCPGraphData :=
  if 0 ≤ index then data.get? index.toNat else none

/-- The first loop of `compareFrequency`: `maxDifference` after the loop over
the graphs of the plot; a graph that is hidden or has no data point is
skipped. -/
def maxDifferenceLoop (targetFrequency averageGraphY : ℚ) :
    List QCPGraph → ℚ → Option ℚ
  | [], maxDifference => some maxDifference
  | graph :: rest, maxDifference =>
    if graph.visible then
      match findNearestDataPoint (some graph.data) targetFrequency with
      | none => none
      | some dataPointIndex =>
        if dataPointIndex = -1 then
          maxDifferenceLoop targetFrequency averageGraphY rest maxDifference
        else
          match pointAt graph.data dataPointIndex with
          | none => none
          | some point =>
            let graphY := point.value
            let difference := |graphY - averageGraphY|
            if difference > maxDifference then
              maxDifferenceLoop targetFrequency averageGraphY rest difference
            else maxDifferenceLoop targetFrequency averageGraphY rest maxDifference
    else maxDifferenceLoop targetFrequency averageGraphY rest maxDifference

/-- The second loop of `compareFrequency`: the points appended to
`recordedPoints`, in graph order. -/
def recordLoop (targetFrequency averageGraphY maxDifference : ℚ) :
    List QCPGraph → Option (List RecordedPoint)
  | [] => some []
  | graph :: rest =>
    if graph.visible then
      match findNearestDataPoint (some graph.data) targetFrequency with
      | none => none
      | some dataPointIndex =>
        if dataPointIndex = -1 then
          recordLoop targetFrequency averageGraphY maxDifference rest
        else
          match pointAt graph.data dataPointIndex with
          | none => none
          | some point =>
            let graphY := point.value
            let distanceToAverage := |graphY - averageGraphY|
            let distanceRatio :=
              if maxDifference > 0 then distanceToAverage / maxDifference else 0
            (recordLoop targetFrequency averageGraphY maxDifference rest).map
              (fun points =>
                ⟨point.key, graphY, graph.name, distanceRatio, distanceToAverage⟩ :: points)
    else recordLoop targetFrequency averageGraphY maxDifference rest

/-- `MainWindow::compareFrequency(targetFrequency)`. The average graph is the
first graph of the plot named as one. `none` when the locator runs out of
fuel or a point read is out of range. -/
def compareFrequency (w : MainWindow) (targetFrequency : ℚ) : Option MainWindow :=
  match w.graphs.find? isAverageGraph with
  | none => some w
  | some averageGraph =>
    match findNearestDataPoint (some averageGraph.data) targetFrequency with
    | none => none
    | some averageGraphDataPointIndex =>
      if averageGraphDataPointIndex = -1 then some w
      else
        match pointAt averageGraph.data averageGraphDataPointIndex with
        | none => none
        | some averagePoint =>
          let averageGraphY := averagePoint.value
          match maxDifferenceLoop targetFrequency averageGraphY w.graphs 0 with
          | none => none
          | some maxDifference =>
            match recordLoop targetFrequency averageGraphY maxDifference w.graphs with
            | none => none
            | some points => some { w with recordedPoints := w.recordedPoints ++ points }

/-- `MainWindow::on_btn_tablo_clear_clicked`: the recorded points are cleared. -/
def on_btn_tablo_clear_clicked (w : MainWindow) : MainWindow :=
  { w with recordedPoints := [] }

/-! ## on_btn_export_avg_clicked (csvFunctions.cpp:146-276) -/

/-- The rows written for one mode: `(frequencies[i], averageValues[i])` for
every index of `frequencies`; `none` when `averageValues[i]` is out of
range. -/
def exportPairs : List ℚ → List ℚ → Option (List (ℚ × ℚ))
  | [], _ => some []
  | _ :: _, [] => none
  | frequency :: frequencies, average :: averageValues =>
    (exportPairs frequencies averageValues).map (fun rows => (frequency, average) :: rows)

/-- `MainWindow::on_btn_export_avg_clicked`, the file being opened: the numeric
rows `(FREQUENCY, Ls, Rs)` written after the header, before they are
formatted. `some none` when a guard returns and nothing is written; `none`
when an access is out of range. -/
def on_btn_export_avg_clicked (w : MainWindow) : Option (Option (List (ℚ × ℚ × ℚ))) :=
  if w.loadedCSVRS.isEmpty && w.loadedCSVLS.isEmpty then some none
  else if !(w.graphs.any isAverageGraph) then some none
  else
    match calculateAverageValues w.loadedCSVLS w.loadedCSVRS w.radioButton_Ls true with
    | none => none
    | some averageValues =>
      if w.radioButton_Ls then
        match w.loadedCSVLS with
        | [] => none
        | first :: _ =>
          (exportPairs first.frequenciesLs averageValues).map
            (fun rows => some (rows.map (fun row => (row.1, row.2, 0))))
      else
        match w.loadedCSVRS with
        | [] => none
        | first :: _ =>
          (exportPairs first.frequenciesRs averageValues).map
            (fun rows => some (rows.map (fun row => (row.1, 0, row.2))))

/-! ## convertFrequency (comparetable.cpp:215-234) -/

/-- `MainWindow::convertFrequency`: the number handed to
`QString::number(_, 'f', 2)` and the unit appended to it. -/
def convertFrequency (rawFrequency : ℚ) : ℚ × String :=
  let convertedFrequency := rawFrequency
  if convertedFrequency ≥ 0 ∧ convertedFrequency < 1000 then
    (convertedFrequency, " Hz")
  else if convertedFrequency ≥ 1000 ∧ convertedFrequency < 1000000 then
    (convertedFrequency / 1000, " kHz")
  else if convertedFrequency ≥ 100000 then
    (convertedFrequency / 1000000, " MHz")
  else (0, " Hz")

/-! ## The settings dialog (setting.cpp:56-79, database.cpp:35-61) -/

/-- The members of the `setting` dialog: the four stored bounds, and whether
`accept()` has been called. -/
structure setting where
  minFrequencyLS : ℚ
  maxFrequencyLS : ℚ
  minFrequencyRS : ℚ
  maxFrequencyRS : ℚ
  accepted : Bool
deriving DecidableEq, Repr

/-- `setting::on_btn_send_clicked`, the arguments being the texts of the four
line edits as `toDouble` sees them. -/
def setting.on_btn_send_clicked (d : setting)
    (ledit_minLs ledit_maxLs ledit_minRs ledit_maxRs : Field) : setting :=
  let newMinFrequencyLS := ledit_minLs.toDouble.1
  let newMaxFrequencyLS := ledit_maxLs.toDouble.1
  let newMinFrequencyRS := ledit_minRs.toDouble.1
  let newMaxFrequencyRS := ledit_maxRs.toDouble.1
  if newMaxFrequencyLS ≤ newMinFrequencyLS ∨ newMaxFrequencyRS ≤ newMinFrequencyRS then d
  else
    { minFrequencyLS := newMinFrequencyLS, maxFrequencyLS := newMaxFrequencyLS,
      minFrequencyRS := newMinFrequencyRS, maxFrequencyRS := newMaxFrequencyRS,
      accepted := true }

/-- `rangeDialog.exec()`: the clicks on the send button, in order, until one
is accepted; the dialog is closed without being accepted when the clicks run
out. -/
def setting.exec (d : setting) : List (Field × Field × Field × Field) → setting
  | [] => d
  | click :: rest =>
    let d1 := d.on_btn_send_clicked click.1 click.2.1 click.2.2.1 click.2.2.2
    if d1.accepted then d1 else setting.exec d1 rest

/-- `MainWindow::on_actionsettings_triggered`: the `frequency_range` row after
the slot, `row` being the row before it (`none` when the table is empty),
`d` the freshly built dialog and `clicks` what the user does in it. -/
def on_actionsettings_triggered (row : Option FrequencyRange) (d : setting)
    (clicks : List (Field × Field × Field × Field)) : Option FrequencyRange :=
  let rangeDialog := d.exec clicks
  if !rangeDialog.accepted then row
  else
    let minFreqLS := rangeDialog.minFrequencyLS * 1000
    let maxFreqLS := rangeDialog.maxFrequencyLS * 1000
    let minFreqRS := rangeDialog.minFrequencyRS * 1000
    let maxFreqRS := rangeDialog.maxFrequencyRS * 1000
    row.map (fun _ => ⟨minFreqLS, maxFreqLS, minFreqRS, maxFreqRS⟩)

/-! ## User actions -/

/-- The user actions modelled: the buttons and menu entries, with what the
user or the environment supplies to them. -/
inductive Action where
  | load (settings : Option FrequencyRange) (files : List CsvFile)
  | clear
  | calculateAverage
  | hideSelected (selected : Nat → Bool)
  | hideUnselected (selected : Nat → Bool)
  | toggleGraph (graph : Option Nat) (checked : Bool) (averageAction : Bool)
  | highlight (value : ℚ)
  | selectLs
  | selectRs

/-- The slot run for an action. A click on a radio button checks it before
its slot runs. -/
def perform (w : MainWindow) : Action → Option MainWindow
  | Action.load settings files => some (on_btn_load_plot_clicked w settings files)
  | Action.clear => some (clearEverything w)
  | Action.calculateAverage => on_btn_avg_clicked w
  | Action.hideSelected selected => some (hideSelectedGraph w selected)
  | Action.hideUnselected selected => some (hideUnselectedGraphs w selected)
  | Action.toggleGraph graph checked averageAction =>
    onGraphVisibilityChanged w graph checked averageAction
  | Action.highlight value => on_btn_HighlightGraphs_clicked w value
  | Action.selectLs => some (on_radioButton_Ls_clicked { w with radioButton_Ls := true })
  | Action.selectRs => some (on_radioButton_Rs_clicked { w with radioButton_Ls := false })

/-- A sequence of actions, from left to right. -/
def runActions : MainWindow → List Action → Option MainWindow
  | w, [] => some w
  | w, a :: rest =>
    match perform w a with
    | none => none
    | some w1 => runActions w1 rest

/-! ## Definitions used to state the properties -/

/-- The key at position `i`, with a default outside the container. -/
def keyD (data : List QCPGraphData) (i : Nat) : ℚ :=
  (data.map QCPGraphData.key).getD i 0

/-- An index is nearest to `x` when no valid index has a key closer to `x`. -/
def IsNearest (data : List QCPGraphData) (x : ℚ) (i : Nat) : Prop :=
  i < data.length ∧ ∀ j, j < data.length → |keyD data i - x| ≤ |keyD data j - x|

/-- The series an average is taken over: all of them, or the visible ones. -/
def includedSeries (loaded : List Series) (onlyVisible : Bool) : List Series :=
  if onlyVisible then loaded.filter (fun s => s.visible) else loaded

/-- The sum of `values[i]` over a list of series (a series without index `i`
adds nothing). -/
def valueSum (ss : List Series) (i : Nat) : ℚ :=
  (ss.map (fun s => s.values.getD i 0)).sum

/-- The three Ls series of the specification's scenario, all visible. -/
def scenarioLS : List CSVInfo :=
  [⟨"a", [1, 2, 3], [], [], [10, 20, 30], true⟩,
   ⟨"b", [2, 2, 2], [], [], [10, 20, 30], true⟩,
   ⟨"c", [3, 2, 1], [], [], [10, 20, 30], true⟩]

/-- Two Rs series, the second one hidden. -/
def scenarioRS : List CSVInfo2 :=
  [⟨"a", [], [4, 8], [10, 20], [], true⟩,
   ⟨"b", [], [6, 2], [10, 20], [], false⟩]

/-- The visibility assignment on the view of a collection. -/
def setVisibleAt : List Series → Nat → Bool → List Series
  | [], _, _ => []
  | s :: rest, 0, b => { s with visible := b } :: rest
  | s :: rest, i + 1, b => s :: setVisibleAt rest i b

/-- The mean absolute deviation of a series from the average, in the words of
the specification: the sum over the series' own indices of
`|value[i] - average[i]|`, divided by its sample count (`0` for a series
without samples). -/
def meanAbsDev (values averageValues : List ℚ) : ℚ :=
  ((List.range values.length).map
    (fun i => |values.getD i 0 - averageValues.getD i 0|)).sum / (values.length : ℚ)

/-- The worst deviation: the maximum of `meanAbsDev` over the visible series
(`0` when there is none). -/
def worstDeviation (loaded : List Series) (averageValues : List ℚ) : ℚ :=
  ((loaded.filter (fun s => s.visible)).map
    (fun s => meanAbsDev s.values averageValues)).foldr max 0

/-- The ratio the specification assigns to a series. -/
def specRatio (loaded : List Series) (averageValues : List ℚ) (s : Series) : Dbl :=
  if s.visible then
    Dbl.div (meanAbsDev s.values averageValues) (worstDeviation loaded averageValues)
  else sentinelRatio

/-- The lines of a well-formed file: one line of three numeric fields per row
`(frequency, ls, rs)`. -/
def wellFormedFile (baseName : String) (rows : List (ℚ × ℚ × ℚ)) : CsvFile :=
  ⟨baseName, some (rows.map
    (fun row => [Field.number row.1, Field.number row.2.1, Field.number row.2.2]))⟩

/-- The rows whose frequency lies in `[lo, hi]`, both bounds included, in file
order. -/
def rowsInRange (lo hi : ℚ) (rows : List (ℚ × ℚ × ℚ)) : List (ℚ × ℚ × ℚ) :=
  rows.filter (fun row => decide (lo ≤ row.1 ∧ row.1 ≤ hi))

/-- The Ls entry the specification admits for a well-formed file. -/
def admittedLs (range : FrequencyRange) (baseName : String)
    (rows : List (ℚ × ℚ × ℚ)) : CSVInfo :=
  { fileName := baseName,
    lsValues := (rowsInRange range.minFrequencyLS range.maxFrequencyLS rows).map
      (fun row => row.2.1),
    rsValues := [], frequenciesRs := [],
    frequenciesLs := (rowsInRange range.minFrequencyLS range.maxFrequencyLS rows).map
      (fun row => row.1),
    visible := true }

/-- The Rs entry the specification admits for a well-formed file. -/
def admittedRs (range : FrequencyRange) (baseName : String)
    (rows : List (ℚ × ℚ × ℚ)) : CSVInfo2 :=
  { fileName := baseName, lsValues := [],
    rsValues := (rowsInRange range.minFrequencyRS range.maxFrequencyRS rows).map
      (fun row => row.2.2),
    frequenciesRs := (rowsInRange range.minFrequencyRS range.maxFrequencyRS rows).map
      (fun row => row.1),
    frequenciesLs := [], visible := true }

/-- The window with the bounds found by `checkAndSetInitialValues`. -/
def withRange (w : MainWindow) (range : FrequencyRange) : MainWindow :=
  { w with minFrequencyLS := range.minFrequencyLS, maxFrequencyLS := range.maxFrequencyLS,
           minFrequencyRS := range.minFrequencyRS, maxFrequencyRS := range.maxFrequencyRS }

/-- Two windows hold the same frequency bounds. -/
def SameRange (w w2 : MainWindow) : Prop :=
  w.minFrequencyLS = w2.minFrequencyLS ∧ w.maxFrequencyLS = w2.maxFrequencyLS ∧
  w.minFrequencyRS = w2.minFrequencyRS ∧ w.maxFrequencyRS = w2.maxFrequencyRS

/-- A line the reader rejects: fewer than three fields, or a third field that
is not a number. -/
def RejectedLine (data : List Field) : Prop :=
  data.length < 3 ∨ data.get? 2 = some Field.text

/-- Every series of the store has as many frequencies as values. -/
def SeriesAligned (w : MainWindow) : Prop :=
  (∀ fileInfo ∈ w.loadedCSVLS,
      fileInfo.frequenciesLs.length = fileInfo.lsValues.length) ∧
  (∀ fileInfo2RS ∈ w.loadedCSVRS,
      fileInfo2RS.frequenciesRs.length = fileInfo2RS.rsValues.length)

/-- Both pairs of columns read so far have equal lengths. -/
def ColumnsAligned (cols : Columns) : Prop :=
  cols.frequenciesLs.length = cols.lsValues.length ∧
  cols.frequenciesRs.length = cols.rsValues.length

/-- The filter on the view of a collection: entry `i` gets the visibility
`distanceRatios[i] <= t`. -/
def thresholdSeries (t : ℚ) (ratios : List Dbl) (loaded : List Series) : List Series :=
  List.zipWith (fun ratio s => { s with visible := ratio.le t }) ratios loaded

/-- The three files of the specification's scenario (the Rs column is 5
everywhere), a file with a two-field line and a file whose frequency and Ls
fields are text. -/
def scenarioFiles : List CsvFile :=
  [wellFormedFile "a" [(10, 1, 5), (20, 2, 5), (30, 3, 5)],
   wellFormedFile "b" [(10, 2, 5), (20, 2, 5), (30, 2, 5)],
   wellFormedFile "c" [(10, 3, 5), (20, 2, 5), (30, 1, 5)]]

/-- A file with a line of two fields only. -/
def shortLineFile : CsvFile := ⟨"short", some [[Field.number 10, Field.number 3]]⟩

/-- A file whose only line has text in the frequency field. -/
def textFrequencyFile : CsvFile :=
  ⟨"t", some [[Field.text, Field.number 1, Field.number 2]]⟩

/-- The bounds used in the examples: 0 to 100 on both axes. -/
def scenarioRange : FrequencyRange := ⟨0, 100, 0, 100⟩

/-- The window after the three scenario files are loaded in Ls mode and the
average is calculated. -/
def scenarioAveraged : MainWindow :=
  { loadedCSVLS := scenarioLS,
    loadedCSVRS :=
      [⟨"a", [], [5, 5, 5], [10, 20, 30], [], true⟩,
       ⟨"b", [], [5, 5, 5], [10, 20, 30], [], true⟩,
       ⟨"c", [], [5, 5, 5], [10, 20, 30], [], true⟩],
    graphs :=
      [⟨"a", true, [⟨10, 1⟩, ⟨20, 2⟩, ⟨30, 3⟩]⟩,
       ⟨"b", true, [⟨10, 2⟩, ⟨20, 2⟩, ⟨30, 2⟩]⟩,
       ⟨"c", true, [⟨10, 3⟩, ⟨20, 2⟩, ⟨30, 1⟩]⟩,
       ⟨"Average LS", true, [⟨10, 2⟩, ⟨20, 2⟩, ⟨30, 2⟩]⟩],
    radioButton_Ls := true, avg := true,
    distanceRatios := [Dbl.val 1, Dbl.val 0, Dbl.val 1],
    recordedPoints := [],
    minFrequencyLS := 0, maxFrequencyLS := 100, minFrequencyRS := 0, maxFrequencyRS := 100 }

/-- The frequencies and values of an Ls entry, without its visibility. -/
def lsData (fileInfo : CSVInfo) : List ℚ × List ℚ :=
  (fileInfo.frequenciesLs, fileInfo.lsValues)

/-- The frequencies and values of an Rs entry, without its visibility. -/
def rsData (fileInfo2RS : CSVInfo2) : List ℚ × List ℚ :=
  (fileInfo2RS.frequenciesRs, fileInfo2RS.rsValues)

/-- The Ls collection of the scenario with the second series hidden. -/
def scenarioHiddenLS : List CSVInfo :=
  [⟨"a", [1, 2, 3], [], [], [10, 20, 30], true⟩,
   ⟨"b", [2, 2, 2], [], [], [10, 20, 30], false⟩,
   ⟨"c", [3, 2, 1], [], [], [10, 20, 30], true⟩]

/-- The averaged scenario window once the second series is hidden and the
average is calculated again: the second ratio is the sentinel. -/
def scenarioHiddenAveraged : MainWindow :=
  { scenarioAveraged with
    loadedCSVLS := scenarioHiddenLS,
    distanceRatios := [Dbl.val 1, sentinelRatio, Dbl.val 1] }

/-- The window `scenarioHiddenAveraged` after the filter at 100 %. -/
def scenarioHiddenFiltered : MainWindow :=
  { scenarioHiddenAveraged with
    graphs :=
      [⟨"a", true, [⟨10, 1⟩, ⟨20, 2⟩, ⟨30, 3⟩]⟩,
       ⟨"b", false, [⟨10, 2⟩, ⟨20, 2⟩, ⟨30, 2⟩]⟩,
       ⟨"c", true, [⟨10, 3⟩, ⟨20, 2⟩, ⟨30, 1⟩]⟩,
       ⟨"Average LS", true, [⟨10, 2⟩, ⟨20, 2⟩, ⟨30, 2⟩]⟩] }

/-- The point of a graph nearest to `x`, as its own locator finds it: `none`
for a graph without data. -/
def nearestPoint (graph : QCPGraph) (x : ℚ) : Option QCPGraphData :=
  match findNearestDataPoint (some graph.data) x with
  | some index => pointAt graph.data index
  | none => none

/-- The visible graphs that have a data point, in plot order, each with its
point nearest to `x`. -/
def comparedGraphs (graphs : List QCPGraph) (x : ℚ) : List (QCPGraph × QCPGraphData) :=
  graphs.filterMap (fun graph =>
    if graph.visible then (nearestPoint graph x).map (fun point => (graph, point))
    else none)

/-- The maximum of `|graphY - avgY|` over a list of compared graphs (`0` for
the empty list). -/
def maxDifferenceOf (avgY : ℚ) (compared : List (QCPGraph × QCPGraphData)) : ℚ :=
  (compared.map (fun gp => |gp.2.value - avgY|)).foldr max 0

/-- The recorded point the specification gives for a compared graph. -/
def recordOf (avgY maxDifference : ℚ) (gp : QCPGraph × QCPGraphData) : RecordedPoint :=
  { x := gp.2.key, y := gp.2.value, graphName := gp.1.name,
    distanceRatio :=
      if maxDifference > 0 then |gp.2.value - avgY| / maxDifference else 0,
    totalDistanceToAverage := |gp.2.value - avgY| }

/-- The counting invariant: as many Ls entries as Rs entries, and one stored
ratio per entry whenever `avg` is set. -/
def StoreCounted (w : MainWindow) : Prop :=
  w.loadedCSVLS.length = w.loadedCSVRS.length ∧
  (w.avg = true → w.distanceRatios.length = w.loadedCSVLS.length)

/-- The window after the three scenario files are loaded in Ls mode, before
any average is calculated. -/
def scenarioLoaded : MainWindow :=
  { scenarioAveraged with
    graphs :=
      [⟨"a", true, [⟨10, 1⟩, ⟨20, 2⟩, ⟨30, 3⟩]⟩,
       ⟨"b", true, [⟨10, 2⟩, ⟨20, 2⟩, ⟨30, 2⟩]⟩,
       ⟨"c", true, [⟨10, 3⟩, ⟨20, 2⟩, ⟨30, 1⟩]⟩],
    avg := false, distanceRatios := [] }

/-- The precondition `allSeriesSameLength` on the view of a collection: every
series has the sample count of the first one, which holds as many frequencies
as values. -/
def allSeriesSameLength (loaded : List Series) : Prop :=
  match loaded with
  | [] => True
  | first :: rest =>
    first.frequencies.length = first.values.length ∧
    ∀ s ∈ rest, s.values.length = first.values.length

/-- An Ls collection without the precondition: one sample, then two. -/
def unequalLS : List CSVInfo :=
  [⟨"a", [1], [], [], [10], true⟩,
   ⟨"b", [1, 2], [], [], [10, 20], true⟩]

/-- The records of the compared graphs for a given `avgY`, `maxDifference`
being the maximum over the compared graphs. -/
def comparedRecords (graphs : List QCPGraph) (x avgY : ℚ) : List RecordedPoint :=
  (comparedGraphs graphs x).map
    (recordOf avgY (maxDifferenceOf avgY (comparedGraphs graphs x)))

/-- The rows one call of `compareFrequency` appends: none without an average
graph or when the average graph has no data point, else the records of the
compared graphs, `avgY` being the value of the average graph's nearest
point. -/
def compareRows (graphs : List QCPGraph) (x : ℚ) : List RecordedPoint :=
  match graphs.find? isAverageGraph with
  | none => []
  | some averageGraph =>
    match nearestPoint averageGraph x with
    | none => []
    | some averagePoint => comparedRecords graphs x averagePoint.value

/-- The window after a batch made of the well-formed file `b` and of a file
with a two-field line is loaded in Ls mode and the average is calculated: the
load returned at the rejected file, before the plot was rebuilt, so the only
graph is the average graph. -/
def scenarioPartial : MainWindow :=
  { loadedCSVLS := [⟨"b", [2, 2, 2], [], [], [10, 20, 30], true⟩],
    loadedCSVRS := [⟨"b", [], [5, 5, 5], [10, 20, 30], [], true⟩],
    graphs := [⟨"Average LS", true, [⟨10, 2⟩, ⟨20, 2⟩, ⟨30, 2⟩]⟩],
    radioButton_Ls := true, avg := true,
    distanceRatios := [Dbl.nan],
    recordedPoints := [],
    minFrequencyLS := 0, maxFrequencyLS := 100, minFrequencyRS := 0, maxFrequencyRS := 100 }

/-! ## Lemmas: findNearestDataPoint -/

theorem keyAt_natCast (data : List QCPGraphData) (i : Nat) (h : i < data.length) :
    keyAt data (i : Int) = some (keyD data i) := by
  have h2 : i < (data.map QCPGraphData.key).length := by simpa using h
  simp [keyAt, keyD, List.get?_eq_getElem?, List.getElem?_eq_getElem h,
    List.getD_eq_getElem _ _ h2]

theorem keyD_mono (data : List QCPGraphData)
    (hs : (data.map QCPGraphData.key).Sorted (· ≤ ·))
    (i j : Nat) (hij : i ≤ j) (hj : j < data.length) :
    keyD data i ≤ keyD data j := by
  have hj2 : j < (data.map QCPGraphData.key).length := by simpa using hj
  have hi2 : i < (data.map QCPGraphData.key).length := lt_of_le_of_lt hij hj2
  have h := @List.Sorted.rel_get_of_le _ _ _ _ hs ⟨i, hi2⟩ ⟨j, hj2⟩ hij
  unfold keyD
  rw [List.getD_eq_getElem _ _ hi2, List.getD_eq_getElem _ _ hj2]
  exact h

theorem nearestAfterLoop_spec (data : List QCPGraphData) (x : ℚ)
    (hs : (data.map QCPGraphData.key).Sorted (· ≤ ·))
    (lo : Nat) (hpos : 0 < data.length) (hlo : lo ≤ data.length)
    (hlow : ∀ j, j < lo → keyD data j < x)
    (hhigh : ∀ j, lo ≤ j → j < data.length → x < keyD data j) :
    ∃ i : Nat, nearestAfterLoop data x (lo : Int) ((lo : Int) - 1) = some (i : Int)
      ∧ IsNearest data x i := by
  unfold nearestAfterLoop
  by_cases h0 : lo = 0
  · subst h0
    refine ⟨0, by simp, hpos, fun j hj => ?_⟩
    have h1 := hhigh 0 le_rfl hpos
    have h2 := hhigh j (Nat.zero_le _) hj
    have h3 := keyD_mono data hs 0 j (Nat.zero_le _) hj
    rw [abs_of_pos (by linarith), abs_of_pos (by linarith)]
    linarith
  · have hneg : ¬ ((lo : Int) - 1 < 0) := by omega
    rw [if_neg hneg]
    by_cases hn : lo = data.length
    · have hge : (lo : Int) ≥ (data.length : Int) := by omega
      rw [if_pos hge]
      refine ⟨data.length - 1, by congr 1; omega, by omega, fun j hj => ?_⟩
      have h1 := hlow (data.length - 1) (by omega)
      have h2 := hlow j (by omega)
      have h3 := keyD_mono data hs j (data.length - 1) (by omega) (by omega)
      rw [abs_of_neg (by linarith), abs_of_neg (by linarith)]
      linarith
    · have hlt : lo < data.length := by omega
      have hge : ¬ ((lo : Int) ≥ (data.length : Int)) := by omega
      rw [if_neg hge]
      have e1 : ((lo : Int) - 1) = ((lo - 1 : Nat) : Int) := by omega
      rw [e1, keyAt_natCast data (lo - 1) (by omega), keyAt_natCast data lo hlt]
      have hL := hlow (lo - 1) (by omega)
      have hU := hhigh lo le_rfl hlt
      simp only
      have below : ∀ j, j < lo → x - keyD data (lo - 1) ≤ |keyD data j - x| := by
        intro j hj
        have h2 := hlow j hj
        have h3 := keyD_mono data hs j (lo - 1) (by omega) (by omega)
        rw [abs_of_neg (by linarith)]
        linarith
      have above : ∀ j, lo ≤ j → j < data.length →
          keyD data lo - x ≤ |keyD data j - x| := by
        intro j hj hjn
        have h2 := hhigh j hj hjn
        have h3 := keyD_mono data hs lo j hj hjn
        rw [abs_of_pos (by linarith)]
        linarith
      rw [abs_of_pos (by linarith : 0 < x - keyD data (lo - 1)),
        abs_of_neg (by linarith : x - keyD data lo < 0)]
      by_cases hc : x - keyD data (lo - 1) < -(x - keyD data lo)
      · rw [if_pos hc]
        refine ⟨lo - 1, rfl, by omega, fun j hj => ?_⟩
        rw [abs_of_neg (by linarith : keyD data (lo - 1) - x < 0)]
        by_cases hjl : j < lo
        · have := below j hjl
          linarith
        · have := above j (by omega) hj
          linarith
      · rw [if_neg hc]
        refine ⟨lo, rfl, hlt, fun j hj => ?_⟩
        rw [abs_of_pos (by linarith : 0 < keyD data lo - x)]
        by_cases hjl : j < lo
        · have := below j hjl
          linarith
        · exact above j (by omega) hj

theorem nearestLoop_spec (data : List QCPGraphData) (x : ℚ)
    (hs : (data.map QCPGraphData.key).Sorted (· ≤ ·)) (hpos : 0 < data.length) :
    ∀ (fuel lo hi1 : Nat), lo ≤ hi1 → hi1 ≤ data.length → hi1 - lo + 1 ≤ fuel →
      (∀ j, j < lo → keyD data j < x) →
      (∀ j, hi1 ≤ j → j < data.length → x < keyD data j) →
      ∃ i : Nat, nearestLoop data x fuel (lo : Int) ((hi1 : Int) - 1) = some (i : Int)
        ∧ IsNearest data x i := by
  intro fuel
  induction fuel with
  | zero => intro lo hi1 _ _ hf; omega
  | succ fuel ih =>
    intro lo hi1 hle hhi hf hlow hhigh
    rw [nearestLoop]
    by_cases hc : (lo : Int) ≤ (hi1 : Int) - 1
    · rw [if_pos hc]
      have hnn : (0 : Int) ≤ (lo : Int) + ((hi1 : Int) - 1) := by omega
      have hmid : Int.tdiv ((lo : Int) + ((hi1 : Int) - 1)) 2
          = (((lo + hi1 - 1) / 2 : Nat) : Int) := by
        rw [Int.tdiv_eq_ediv hnn (by norm_num)]
        omega
      simp only [hmid]
      have hmlt : (lo + hi1 - 1) / 2 < data.length := by omega
      rw [keyAt_natCast data _ hmlt]
      simp only
      by_cases hx1 : x < keyD data ((lo + hi1 - 1) / 2)
      · rw [if_pos hx1]
        exact ih lo ((lo + hi1 - 1) / 2) (by omega) (by omega) (by omega) hlow
          (fun j hj hjn => lt_of_lt_of_le hx1 (keyD_mono data hs _ j hj hjn))
      · rw [if_neg hx1]
        by_cases hx2 : x > keyD data ((lo + hi1 - 1) / 2)
        · rw [if_pos hx2]
          have e : ((((lo + hi1 - 1) / 2 : Nat) : Int) + 1)
              = (((lo + hi1 - 1) / 2 + 1 : Nat) : Int) := by push_cast; rfl
          rw [e]
          exact ih ((lo + hi1 - 1) / 2 + 1) hi1 (by omega) hhi (by omega)
            (fun j hj => lt_of_le_of_lt
              (keyD_mono data hs j _ (by omega) hmlt) hx2)
            hhigh
        · rw [if_neg hx2]
          refine ⟨(lo + hi1 - 1) / 2, rfl, hmlt, fun j _ => ?_⟩
          have hxe : keyD data ((lo + hi1 - 1) / 2) = x :=
            le_antisymm (not_lt.mp hx1) (not_lt.mp hx2)
          rw [hxe, sub_self, abs_zero]
          exact abs_nonneg _
    · rw [if_neg hc]
      have hh : hi1 = lo := by omega
      subst hh
      exact nearestAfterLoop_spec data x hs hi1 hpos hhi hlow hhigh

theorem nearestAfterLoop_range (data : List QCPGraphData) (x : ℚ)
    (lo : Nat) (hpos : 0 < data.length) (hlo : lo ≤ data.length) :
    ∃ r : Int, nearestAfterLoop data x (lo : Int) ((lo : Int) - 1) = some r
      ∧ 0 ≤ r ∧ r < (data.length : Int) := by
  unfold nearestAfterLoop
  by_cases h0 : (lo : Int) - 1 < 0
  · rw [if_pos h0]
    exact ⟨0, rfl, le_rfl, by omega⟩
  · rw [if_neg h0]
    by_cases hn : (lo : Int) ≥ (data.length : Int)
    · rw [if_pos hn]
      exact ⟨_, rfl, by omega, by omega⟩
    · rw [if_neg hn]
      have e1 : ((lo : Int) - 1) = ((lo - 1 : Nat) : Int) := by omega
      rw [e1, keyAt_natCast data (lo - 1) (by omega), keyAt_natCast data lo (by omega)]
      simp only
      split
      · exact ⟨_, rfl, by omega, by omega⟩
      · exact ⟨_, rfl, by omega, by omega⟩

theorem nearestLoop_range (data : List QCPGraphData) (x : ℚ) (hpos : 0 < data.length) :
    ∀ (fuel lo hi1 : Nat), lo ≤ hi1 → hi1 ≤ data.length → hi1 - lo + 1 ≤ fuel →
      ∃ r : Int, nearestLoop data x fuel (lo : Int) ((hi1 : Int) - 1) = some r
        ∧ 0 ≤ r ∧ r < (data.length : Int) := by
  intro fuel
  induction fuel with
  | zero => intro lo hi1 _ _ hf; omega
  | succ fuel ih =>
    intro lo hi1 hle hhi hf
    rw [nearestLoop]
    by_cases hc : (lo : Int) ≤ (hi1 : Int) - 1
    · rw [if_pos hc]
      have hnn : (0 : Int) ≤ (lo : Int) + ((hi1 : Int) - 1) := by omega
      have hmid : Int.tdiv ((lo : Int) + ((hi1 : Int) - 1)) 2
          = (((lo + hi1 - 1) / 2 : Nat) : Int) := by
        rw [Int.tdiv_eq_ediv hnn (by norm_num)]
        omega
      simp only [hmid]
      have hmlt : (lo + hi1 - 1) / 2 < data.length := by omega
      rw [keyAt_natCast data _ hmlt]
      simp only
      by_cases hx1 : x < keyD data ((lo + hi1 - 1) / 2)
      · rw [if_pos hx1]
        exact ih lo ((lo + hi1 - 1) / 2) (by omega) (by omega) (by omega)
      · rw [if_neg hx1]
        by_cases hx2 : x > keyD data ((lo + hi1 - 1) / 2)
        · rw [if_pos hx2]
          have e : ((((lo + hi1 - 1) / 2 : Nat) : Int) + 1)
              = (((lo + hi1 - 1) / 2 + 1 : Nat) : Int) := by push_cast; rfl
          rw [e]
          exact ih ((lo + hi1 - 1) / 2 + 1) hi1 (by omega) hhi (by omega)
        · rw [if_neg hx2]
          exact ⟨_, rfl, by omega, by omega⟩
    · rw [if_neg hc]
      have hh : hi1 = lo := by omega
      subst hh
      exact nearestAfterLoop_range data x hi1 hpos hhi

/-- The fuel given to the loop is never exhausted: on a non-empty container
`findNearestDataPoint` returns a valid index, sorted keys or not. -/
theorem findNearestDataPoint_total (data : List QCPGraphData) (x : ℚ)
    (hne : data ≠ []) :
    ∃ r : Int, findNearestDataPoint (some data) x = some r
      ∧ 0 ≤ r ∧ r < (data.length : Int) := by
  have hpos : 0 < data.length := List.length_pos.mpr hne
  have h := nearestLoop_range data x hpos (data.length + 1) 0 data.length
    (Nat.zero_le _) le_rfl (by omega)
  simp only [findNearestDataPoint]
  rw [if_neg (by omega)]
  simpa using h

/-! ## Claims about findNearestDataPoint -/

/-- C1: for every non-empty container with non-decreasing keys and every
target (inside or outside the key range), `findNearestDataPoint` returns an
index `i` of the container such that `|key[i] - target| ≤ |key[j] - target|`
for every valid index `j`. -/
theorem findNearestDataPoint_nearest (data : List QCPGraphData) (xValue : ℚ)
    (hne : data ≠ []) (hsorted : (data.map QCPGraphData.key).Sorted (· ≤ ·)) :
    ∃ i : Nat, findNearestDataPoint (some data) xValue = some (i : Int) ∧
      ∃ hi : i < data.length, ∀ (j : Nat) (hj : j < data.length),
        |(data.get ⟨i, hi⟩).key - xValue| ≤ |(data.get ⟨j, hj⟩).key - xValue| := by
  have hpos : 0 < data.length := List.length_pos.mpr hne
  obtain ⟨i, hres, hi, hmin⟩ := nearestLoop_spec data xValue hsorted hpos
    (data.length + 1) 0 data.length (Nat.zero_le _) le_rfl (by omega)
    (fun j hj => absurd hj (Nat.not_lt_zero j))
    (fun j hj hjn => absurd hjn (by omega))
  refine ⟨i, ?_, hi, fun j hj => ?_⟩
  · simp only [findNearestDataPoint]
    rw [if_neg (by omega)]
    simpa using hres
  · have h := hmin j hj
    have ki : keyD data i = (data.get ⟨i, hi⟩).key := by
      simp [keyD, List.getD_eq_getElem?_getD, List.getElem?_eq_getElem hi]
    have kj : keyD data j = (data.get ⟨j, hj⟩).key := by
      simp [keyD, List.getD_eq_getElem?_getD, List.getElem?_eq_getElem hj]
    rwa [ki, kj] at h

/-- Witness of C1: keys 10, 20, 30 and the target 14. -/
theorem findNearestDataPoint_nearest_witness :
    ∃ i : Nat, findNearestDataPoint (some [⟨10, 1⟩, ⟨20, 2⟩, ⟨30, 3⟩]) 14 = some (i : Int) ∧
      ∃ hi : i < ([⟨10, 1⟩, ⟨20, 2⟩, ⟨30, 3⟩] : List QCPGraphData).length,
        ∀ (j : Nat) (hj : j < ([⟨10, 1⟩, ⟨20, 2⟩, ⟨30, 3⟩] : List QCPGraphData).length),
        |(([⟨10, 1⟩, ⟨20, 2⟩, ⟨30, 3⟩] : List QCPGraphData).get ⟨i, hi⟩).key - 14|
          ≤ |(([⟨10, 1⟩, ⟨20, 2⟩, ⟨30, 3⟩] : List QCPGraphData).get ⟨j, hj⟩).key - 14| :=
  findNearestDataPoint_nearest [⟨10, 1⟩, ⟨20, 2⟩, ⟨30, 3⟩] 14 (by simp)
    (by norm_num [List.Sorted])

/-- C2: `findNearestDataPoint` always returns, and the value returned is the
sentinel `-1` exactly when the container is absent (null pointer) or empty;
on every non-empty container it is an index, never `-1`. -/
theorem findNearestDataPoint_sentinel (data : Option (List QCPGraphData)) (xValue : ℚ) :
    ∃ r : Int, findNearestDataPoint data xValue = some r ∧
      (r = -1 ↔ (data = none ∨ data = some [])) := by
  cases data with
  | none => exact ⟨-1, rfl, by simp⟩
  | some d =>
    by_cases hd : d = []
    · subst hd
      exact ⟨-1, rfl, by simp⟩
    · obtain ⟨r, hr, h0, _⟩ := findNearestDataPoint_total d xValue hd
      refine ⟨r, hr, ?_⟩
      constructor
      · intro h; omega
      · intro h
        rcases h with h | h
        · cases h
        · exact absurd (Option.some.inj h) hd

/-! ## Lemmas: calculateAverageValues -/

theorem addValues_nil (acc : List ℚ) : addValues acc [] = some acc := by
  cases acc <;> rfl

theorem addValues_spec : ∀ (acc data : List ℚ), data.length ≤ acc.length →
    ∃ r, addValues acc data = some r ∧ r.length = acc.length ∧
      ∀ i, r.getD i 0 = acc.getD i 0 + data.getD i 0
  | acc, [], _ => ⟨acc, addValues_nil acc, rfl, fun i => by simp⟩
  | [], _ :: _, h => by simp at h
  | a :: acc, d :: data, h => by
    obtain ⟨r, hr, hlen, hget⟩ := addValues_spec acc data (by simpa using h)
    refine ⟨(a + d) :: r, by simp [addValues, hr], by simp [hlen], fun i => ?_⟩
    cases i with
    | zero => simp
    | succ i => simpa using hget i

theorem addValues_length : ∀ (acc data r : List ℚ), addValues acc data = some r →
    r.length = acc.length
  | acc, [], r, h => by
    rw [addValues_nil] at h
    cases h; rfl
  | [], _ :: _, r, h => by simp [addValues] at h
  | a :: acc, d :: data, r, h => by
    simp only [addValues, Option.map_eq_some'] at h
    obtain ⟨r', hr', rfl⟩ := h
    simp [addValues_length acc data r' hr']

theorem valueSum_nil (i : Nat) : valueSum [] i = 0 := rfl

theorem valueSum_cons (s : Series) (ss : List Series) (i : Nat) :
    valueSum (s :: ss) i = s.values.getD i 0 + valueSum ss i := by
  simp [valueSum]

theorem sumSeries_spec (included : Series → Bool) :
    ∀ (ss : List Series) (acc : List ℚ) (k : Nat),
      (∀ s ∈ ss, included s = true → s.values.length ≤ acc.length) →
      ∃ r, sumSeries included ss acc k = some (r, k + (ss.filter included).length) ∧
        r.length = acc.length ∧
        ∀ i, r.getD i 0 = acc.getD i 0 + valueSum (ss.filter included) i
  | [], acc, k, _ => ⟨acc, rfl, rfl, fun i => by simp [valueSum_nil]⟩
  | s :: ss, acc, k, h => by
    by_cases hs : included s = true
    · obtain ⟨r1, hr1, hlen1, hget1⟩ :=
        addValues_spec acc s.values (h s (List.mem_cons_self _ _) hs)
      obtain ⟨r, hr, hlen, hget⟩ := sumSeries_spec included ss r1 (k + 1)
        (fun t ht hit => by rw [hlen1]; exact h t (List.mem_cons_of_mem _ ht) hit)
      refine ⟨r, ?_, hlen.trans hlen1, fun i => ?_⟩
      · simp only [sumSeries, hs, if_true, hr1, hr, List.filter_cons_of_pos hs,
          List.length_cons]
        congr 2
        omega
      · rw [hget i, hget1 i, List.filter_cons_of_pos hs, valueSum_cons]
        ring
    · obtain ⟨r, hr, hlen, hget⟩ := sumSeries_spec included ss acc k
        (fun t ht hit => h t (List.mem_cons_of_mem _ ht) hit)
      refine ⟨r, ?_, hlen, fun i => ?_⟩
      · simp only [sumSeries, hs, List.filter_cons_of_neg hs]
        simpa using hr
      · rw [hget i, List.filter_cons_of_neg hs]

theorem sumSeries_length (included : Series → Bool) :
    ∀ (ss : List Series) (acc : List ℚ) (k : Nat) (r : List ℚ) (m : Nat),
      sumSeries included ss acc k = some (r, m) → r.length = acc.length
  | [], acc, k, r, m, h => by
    simp only [sumSeries, Option.some.injEq, Prod.mk.injEq] at h
    rw [h.1]
  | s :: ss, acc, k, r, m, h => by
    simp only [sumSeries] at h
    split at h
    · split at h
      · cases h
      · rename_i sums hsums
        rw [sumSeries_length included ss sums (k + 1) r m h,
          addValues_length acc s.values sums hsums]
    · exact sumSeries_length included ss acc k r m h

theorem includedSeries_eq_filter (loaded : List Series) (onlyVisible : Bool) :
    includedSeries loaded onlyVisible
      = loaded.filter (fun s => if onlyVisible then s.visible else true) := by
  cases onlyVisible <;> simp [includedSeries]

theorem averageOfSeries_eq (first : Series) (rest : List Series) (onlyVisible : Bool) :
    averageOfSeries (first :: rest) onlyVisible =
      match sumSeries (fun s => if onlyVisible then s.visible else true) (first :: rest)
          (List.replicate first.frequencies.length 0) 0 with
      | none => none
      | some (averageValues, numFiles) =>
        if numFiles > 0 then some (averageValues.map (fun v => v / (numFiles : ℚ)))
        else some averageValues := by
  cases onlyVisible <;> simp [averageOfSeries]

theorem averageOfSeries_spec (first : Series) (rest : List Series) (onlyVisible : Bool)
    (h : ∀ s ∈ includedSeries (first :: rest) onlyVisible,
      s.values.length ≤ first.frequencies.length) :
    ∃ avg, averageOfSeries (first :: rest) onlyVisible = some avg ∧
      avg.length = first.frequencies.length ∧
      ∀ i, avg.getD i 0 = valueSum (includedSeries (first :: rest) onlyVisible) i
        / ((includedSeries (first :: rest) onlyVisible).length : ℚ) := by
  rw [includedSeries_eq_filter] at h ⊢
  obtain ⟨r, hr, hlen, hget⟩ := sumSeries_spec
    (fun s => if onlyVisible then s.visible else true) (first :: rest)
    (List.replicate first.frequencies.length 0) 0
    (fun s hs hi => by
      rw [List.length_replicate]
      exact h s (List.mem_filter.mpr ⟨hs, hi⟩))
  rw [averageOfSeries_eq, hr]
  simp only [Nat.zero_add]
  have hzero : ∀ i, (List.replicate first.frequencies.length (0 : ℚ)).getD i 0 = 0 := by
    intro i
    by_cases hi : i < first.frequencies.length
    · simp [List.getD_eq_getElem?_getD, hi]
    · simp [List.getD_eq_getElem?_getD, hi]
  by_cases hk : (List.filter (fun s => if onlyVisible then s.visible else true)
      (first :: rest)).length > 0
  · rw [if_pos hk]
    refine ⟨_, rfl, by simpa using hlen, fun i => ?_⟩
    have hm : ∀ (l : List ℚ) (c : ℚ), (l.map (fun v => v / c)).getD i 0 = l.getD i 0 / c := by
      intro l c
      simp only [List.getD_eq_getElem?_getD, List.getElem?_map]
      cases l[i]? <;> simp
    rw [hm, hget i, hzero i, zero_add]
  · rw [if_neg hk]
    refine ⟨_, rfl, by simpa using hlen, fun i => ?_⟩
    have h0 : List.filter (fun s => if onlyVisible then s.visible else true)
        (first :: rest) = [] := List.length_eq_zero.mp (by omega)
    rw [hget i, hzero i, h0]
    simp [valueSum_nil]

theorem averageOfSeries_length (first : Series) (rest : List Series) (onlyVisible : Bool)
    (avg : List ℚ) (h : averageOfSeries (first :: rest) onlyVisible = some avg) :
    avg.length = first.frequencies.length := by
  rw [averageOfSeries_eq] at h
  split at h
  · cases h
  · rename_i averageValues numFiles hsum
    have hl := sumSeries_length _ _ _ _ _ _ hsum
    rw [List.length_replicate] at hl
    split at h
    · cases h; simpa using hl
    · cases h; exact hl

theorem calculateAverageValues_eq (ls : List CSVInfo) (rs : List CSVInfo2)
    (useLs onlyVisible : Bool) :
    calculateAverageValues ls rs useLs onlyVisible
      = averageOfSeries (seriesOfKind ls rs useLs) onlyVisible := by
  cases useLs <;> simp [calculateAverageValues, seriesOfKind]

theorem map_setVisibleLS : ∀ (ls : List CSVInfo) (k : Nat) (b : Bool),
    (setVisibleLS ls k b).map lsSeries = setVisibleAt (ls.map lsSeries) k b
  | [], _, _ => rfl
  | _ :: _, 0, _ => rfl
  | f :: rest, k + 1, b => by
    simp [setVisibleLS, setVisibleAt, map_setVisibleLS rest k b]

theorem map_setVisibleRS : ∀ (rs : List CSVInfo2) (k : Nat) (b : Bool),
    (setVisibleRS rs k b).map rsSeries = setVisibleAt (rs.map rsSeries) k b
  | [], _, _ => rfl
  | _ :: _, 0, _ => rfl
  | f :: rest, k + 1, b => by
    simp [setVisibleRS, setVisibleAt, map_setVisibleRS rest k b]

theorem seriesOfKind_setVisible (ls : List CSVInfo) (rs : List CSVInfo2)
    (useLs : Bool) (k : Nat) (b : Bool) :
    seriesOfKind (if useLs then setVisibleLS ls k b else ls)
        (if useLs then rs else setVisibleRS rs k b) useLs
      = setVisibleAt (seriesOfKind ls rs useLs) k b := by
  cases useLs
  · simp [seriesOfKind, map_setVisibleRS]
  · simp [seriesOfKind, map_setVisibleLS]

theorem mem_setVisibleAt : ∀ (ss : List Series) (k : Nat) (b : Bool) (t : Series),
    t ∈ setVisibleAt ss k b →
      ∃ s ∈ ss, t.frequencies = s.frequencies ∧ t.values = s.values
  | [], _, _, t, h => by simp [setVisibleAt] at h
  | s :: rest, 0, b, t, h => by
    simp only [setVisibleAt, List.mem_cons] at h
    rcases h with h | h
    · exact ⟨s, List.mem_cons_self _ _, by rw [h], by rw [h]⟩
    · exact ⟨t, List.mem_cons_of_mem _ h, rfl, rfl⟩
  | s :: rest, k + 1, b, t, h => by
    simp only [setVisibleAt, List.mem_cons] at h
    rcases h with h | h
    · exact ⟨s, List.mem_cons_self _ _, by rw [h], by rw [h]⟩
    · obtain ⟨u, hu, h1, h2⟩ := mem_setVisibleAt rest k b t h
      exact ⟨u, List.mem_cons_of_mem _ hu, h1, h2⟩

theorem setVisibleAt_eq_cons : ∀ (ss : List Series) (k : Nat) (b : Bool)
    (first : Series) (rest : List Series), ss = first :: rest →
    ∃ first2 rest2, setVisibleAt ss k b = first2 :: rest2 ∧
      first2.frequencies = first.frequencies
  | _, 0, _, first, rest, rfl => ⟨_, _, rfl, rfl⟩
  | _, _ + 1, _, first, rest, rfl => ⟨_, _, rfl, rfl⟩

theorem filter_hide : ∀ (ss : List Series) (k : Nat) (sk : Series),
    ss.get? k = some sk → sk.visible = true →
    ((setVisibleAt ss k false).filter (fun s => s.visible)).length + 1
        = (ss.filter (fun s => s.visible)).length ∧
      ∀ i, valueSum ((setVisibleAt ss k false).filter (fun s => s.visible)) i
        = valueSum (ss.filter (fun s => s.visible)) i - sk.values.getD i 0
  | [], _, _, h, _ => by simp at h
  | s :: rest, 0, sk, h, hv => by
    simp only [List.get?_cons_zero, Option.some.injEq] at h
    subst h
    simp [setVisibleAt, hv, valueSum_cons]
  | s :: rest, k + 1, sk, h, hv => by
    simp only [List.get?_cons_succ] at h
    obtain ⟨h1, h2⟩ := filter_hide rest k sk h hv
    by_cases hs : s.visible = true
    · simp only [setVisibleAt, List.filter_cons, hs, if_true, List.length_cons,
        valueSum_cons]
      exact ⟨by rw [h1], fun i => by rw [h2 i]; ring⟩
    · simp only [setVisibleAt, List.filter_cons, hs]
      exact ⟨h1, h2⟩

/-! ## Claims about calculateAverageValues -/

/-- C3: when every series of the requested kind has the same sample count `n`
and at least one series is included, `calculateAverageValues` returns a
sequence of length `n` whose entry `i` is the sum of `values[i]` over the
included series divided by their number, the included series being all
series for `onlyVisibleGraphs = false` and the visible ones otherwise. -/
theorem calculateAverageValues_mean (loadedCSVLS : List CSVInfo)
    (loadedCSVRS : List CSVInfo2) (useLsData onlyVisibleGraphs : Bool) (n : Nat)
    (hsame : ∀ s ∈ seriesOfKind loadedCSVLS loadedCSVRS useLsData,
      s.frequencies.length = n ∧ s.values.length = n)
    (hinc : includedSeries (seriesOfKind loadedCSVLS loadedCSVRS useLsData)
      onlyVisibleGraphs ≠ []) :
    ∃ avg, calculateAverageValues loadedCSVLS loadedCSVRS useLsData onlyVisibleGraphs
        = some avg ∧ avg.length = n ∧
      ∀ i, i < n → avg.getD i 0 =
        valueSum (includedSeries (seriesOfKind loadedCSVLS loadedCSVRS useLsData)
            onlyVisibleGraphs) i
          / ((includedSeries (seriesOfKind loadedCSVLS loadedCSVRS useLsData)
            onlyVisibleGraphs).length : ℚ) := by
  rw [calculateAverageValues_eq]
  cases hstore : seriesOfKind loadedCSVLS loadedCSVRS useLsData with
  | nil =>
    rw [hstore] at hinc
    cases onlyVisibleGraphs <;> simp [includedSeries] at hinc
  | cons first rest =>
    rw [hstore] at hsame
    have hfirst := hsame first (List.mem_cons_self _ _)
    obtain ⟨avg, havg, hlen, hget⟩ := averageOfSeries_spec first rest onlyVisibleGraphs
      (fun s hs => by
        have hmem : s ∈ first :: rest := by
          rw [includedSeries_eq_filter] at hs
          exact (List.mem_filter.mp hs).1
        rw [hfirst.1, (hsame s hmem).2])
    exact ⟨avg, havg, hlen.trans hfirst.1, fun i _ => hget i⟩

/-- C4: for an empty collection of the requested kind `calculateAverageValues`
returns the empty sequence; otherwise every sequence it returns has the
sample count of the first series as its length, whatever the visibility
flags, and it does return one whenever no included series is longer than the
first series' sample count (the accesses are then in range). -/
theorem calculateAverageValues_length (loadedCSVLS : List CSVInfo)
    (loadedCSVRS : List CSVInfo2) (useLsData onlyVisibleGraphs : Bool) :
    (seriesOfKind loadedCSVLS loadedCSVRS useLsData = [] →
      calculateAverageValues loadedCSVLS loadedCSVRS useLsData onlyVisibleGraphs
        = some []) ∧
    (∀ first rest, seriesOfKind loadedCSVLS loadedCSVRS useLsData = first :: rest →
      (∀ avg, calculateAverageValues loadedCSVLS loadedCSVRS useLsData onlyVisibleGraphs
          = some avg → avg.length = first.frequencies.length) ∧
      ((∀ s ∈ includedSeries (first :: rest) onlyVisibleGraphs,
          s.values.length ≤ first.frequencies.length) →
        ∃ avg, calculateAverageValues loadedCSVLS loadedCSVRS useLsData onlyVisibleGraphs
          = some avg ∧ avg.length = first.frequencies.length)) := by
  rw [calculateAverageValues_eq]
  refine ⟨fun h => by rw [h]; rfl, fun first rest h => ?_⟩
  rw [h]
  refine ⟨fun avg havg => averageOfSeries_length first rest onlyVisibleGraphs avg havg,
    fun hle => ?_⟩
  obtain ⟨avg, havg, hlen, _⟩ := averageOfSeries_spec first rest onlyVisibleGraphs hle
  exact ⟨avg, havg, hlen⟩

/-- C5: when the collection of the requested kind is not empty and none of
its series is visible, the visible-only sum counts `numFiles = 0` files, so
the guard `numFiles > 0` skips the division, and `calculateAverageValues`
returns the accumulator unchanged: zeros, as many as the first series has
samples. -/
theorem calculateAverageValues_none_visible (loadedCSVLS : List CSVInfo)
    (loadedCSVRS : List CSVInfo2) (useLsData : Bool) (first : Series)
    (rest : List Series)
    (hstore : seriesOfKind loadedCSVLS loadedCSVRS useLsData = first :: rest)
    (hnone : ∀ s ∈ seriesOfKind loadedCSVLS loadedCSVRS useLsData, s.visible = false) :
    sumSeries (fun s => s.visible) (seriesOfKind loadedCSVLS loadedCSVRS useLsData)
        (List.replicate first.frequencies.length 0) 0
      = some (List.replicate first.frequencies.length 0, 0) ∧
    calculateAverageValues loadedCSVLS loadedCSVRS useLsData true
      = some (List.replicate first.frequencies.length 0) := by
  have hsum : ∀ (ss : List Series) (acc : List ℚ), (∀ s ∈ ss, s.visible = false) →
      sumSeries (fun s => s.visible) ss acc 0 = some (acc, 0) := by
    intro ss
    induction ss with
    | nil => intro acc _; rfl
    | cons s ss ih =>
      intro acc h
      have hs : s.visible = false := h s (List.mem_cons_self _ _)
      simp only [sumSeries, hs]
      exact ih acc (fun t ht => h t (List.mem_cons_of_mem _ ht))
  have h1 := hsum _ (List.replicate first.frequencies.length 0) hnone
  refine ⟨h1, ?_⟩
  rw [calculateAverageValues_eq]
  rw [hstore] at h1 ⊢
  simp [averageOfSeries, h1]

/-- C6: in a store of same-length series (sample count `n`) with `m ≥ 2`
visible series, after the visible series `k` is set invisible there are
`m - 1` visible series and the visible-only average is, at every index
`i < n`, `(S[i] - values_k[i]) / (m - 1)`, `S[i]` being the sum over the `m`
previously visible series. -/
theorem calculateAverageValues_after_hide (loadedCSVLS : List CSVInfo)
    (loadedCSVRS : List CSVInfo2) (useLsData : Bool) (k n : Nat) (sk : Series)
    (hsame : ∀ s ∈ seriesOfKind loadedCSVLS loadedCSVRS useLsData,
      s.frequencies.length = n ∧ s.values.length = n)
    (hk : (seriesOfKind loadedCSVLS loadedCSVRS useLsData).get? k = some sk)
    (hvis : sk.visible = true)
    (htwo : 2 ≤ (includedSeries (seriesOfKind loadedCSVLS loadedCSVRS useLsData)
      true).length) :
    (includedSeries (seriesOfKind
        (if useLsData then setVisibleLS loadedCSVLS k false else loadedCSVLS)
        (if useLsData then loadedCSVRS else setVisibleRS loadedCSVRS k false)
        useLsData) true).length + 1
      = (includedSeries (seriesOfKind loadedCSVLS loadedCSVRS useLsData) true).length ∧
    ∃ avg, calculateAverageValues
        (if useLsData then setVisibleLS loadedCSVLS k false else loadedCSVLS)
        (if useLsData then loadedCSVRS else setVisibleRS loadedCSVRS k false)
        useLsData true = some avg ∧ avg.length = n ∧
      ∀ i, i < n → avg.getD i 0 =
        (valueSum (includedSeries (seriesOfKind loadedCSVLS loadedCSVRS useLsData) true) i
            - sk.values.getD i 0)
          / (((includedSeries (seriesOfKind loadedCSVLS loadedCSVRS useLsData)
              true).length : ℚ) - 1) := by
  have hpos : 1 ≤ (includedSeries (seriesOfKind loadedCSVLS loadedCSVRS useLsData)
      true).length - 1 := by omega
  rw [calculateAverageValues_eq, seriesOfKind_setVisible]
  obtain ⟨hcount, hsum⟩ := filter_hide _ k sk hk hvis
  refine ⟨by simpa [includedSeries] using hcount, ?_⟩
  cases hstore : seriesOfKind loadedCSVLS loadedCSVRS useLsData with
  | nil => rw [hstore] at hk; simp at hk
  | cons first rest =>
    obtain ⟨first2, rest2, hcons, hfreq⟩ :=
      setVisibleAt_eq_cons _ k false first rest hstore
    rw [hstore] at hsame hcount hsum
    rw [hstore] at hcons
    have hfirst := hsame first (List.mem_cons_self _ _)
    have hle : ∀ s ∈ includedSeries (first2 :: rest2) true,
        s.values.length ≤ first2.frequencies.length := by
      intro s hs
      rw [includedSeries_eq_filter] at hs
      have hmem := (List.mem_filter.mp hs).1
      rw [← hcons] at hmem
      obtain ⟨u, hu, _, hval⟩ := mem_setVisibleAt _ _ _ _ hmem
      rw [hfreq, hfirst.1, hval, (hsame u hu).2]
    obtain ⟨avg, havg, hlen, hget⟩ := averageOfSeries_spec first2 rest2 true hle
    rw [hcons]
    refine ⟨avg, havg, by rw [hlen, hfreq, hfirst.1], fun i _ => ?_⟩
    rw [hget i, ← hcons]
    simp only [includedSeries, if_true]
    rw [hsum i, ← hcount]
    push_cast
    ring_nf

/-- Witness of C6: the second series of the three-series scenario is hidden. -/
theorem calculateAverageValues_after_hide_witness :
    (includedSeries (seriesOfKind (setVisibleLS scenarioLS 1 false) [] true)
        true).length + 1
      = (includedSeries (seriesOfKind scenarioLS [] true) true).length ∧
    ∃ avg, calculateAverageValues (setVisibleLS scenarioLS 1 false) [] true true
        = some avg ∧ avg.length = 3 ∧
      ∀ i, i < 3 → avg.getD i 0 =
        (valueSum (includedSeries (seriesOfKind scenarioLS [] true) true) i
            - (lsSeries ⟨"b", [2, 2, 2], [], [], [10, 20, 30], true⟩).values.getD i 0)
          / (((includedSeries (seriesOfKind scenarioLS [] true) true).length : ℚ) - 1) :=
  calculateAverageValues_after_hide scenarioLS [] true 1 3
    (lsSeries ⟨"b", [2, 2, 2], [], [], [10, 20, 30], true⟩)
    (by simp [seriesOfKind, scenarioLS, lsSeries]) rfl rfl
    (by simp [includedSeries, seriesOfKind, scenarioLS, lsSeries])

/-! ## Lemmas: calculateDistanceRatios -/

theorem sumDifferences_spec : ∀ (data avg : List ℚ), data.length ≤ avg.length →
    sumDifferences true data avg
      = some (((List.range data.length).map
          (fun i => |data.getD i 0 - avg.getD i 0|)).sum, data.length)
  | [], _, _ => by simp [sumDifferences]
  | _ :: _, [], h => by simp at h
  | d :: data, a :: avg, h => by
    have ih := sumDifferences_spec data avg (by simpa using h)
    simp only [sumDifferences, if_true, ih, Option.map_some', List.length_cons]
    rw [List.range_succ_eq_map]
    simp [Function.comp_def]

theorem averageDifference_spec (s : Series) (avg : List ℚ) (hv : s.visible = true)
    (h : s.values.length ≤ avg.length) :
    averageDifference s avg = some (meanAbsDev s.values avg) := by
  simp only [averageDifference, hv, sumDifferences_spec s.values avg h, Option.map_some']
  by_cases h0 : s.values.length > 0
  · simp [meanAbsDev, h0]
  · have : s.values.length = 0 := by omega
    simp [meanAbsDev, this]

theorem foldr_max_nonneg : ∀ (l : List ℚ), 0 ≤ l.foldr max 0
  | [] => le_rfl
  | _ :: l => le_max_of_le_right (foldr_max_nonneg l)

theorem le_foldr_max : ∀ (l : List ℚ) (x : ℚ), x ∈ l → x ≤ l.foldr max 0
  | [], _, h => by simp at h
  | y :: l, x, h => by
    rcases List.mem_cons.mp h with h | h
    · subst h; exact le_max_left _ _
    · exact le_max_of_le_right (le_foldr_max l x h)

theorem foldr_max_attained : ∀ (l : List ℚ), 0 < l.foldr max 0 →
    ∃ x ∈ l, x = l.foldr max 0
  | [], h => by simp at h
  | y :: l, h => by
    by_cases hy : l.foldr max 0 ≤ y
    · exact ⟨y, List.mem_cons_self _ _, by simp [max_eq_left hy]⟩
    · have hlt : y < l.foldr max 0 := not_le.mp hy
      have hm : (y :: l).foldr max 0 = l.foldr max 0 := by
        simp [max_eq_right hlt.le]
      rw [hm] at h ⊢
      obtain ⟨x, hx, hxe⟩ := foldr_max_attained l h
      exact ⟨x, List.mem_cons_of_mem _ hx, hxe⟩

theorem maxDistanceRatioLoop_spec (avg : List ℚ) :
    ∀ (ss : List Series) (m : ℚ), 0 ≤ m →
      (∀ s ∈ ss, s.visible = true → s.values.length ≤ avg.length) →
      maxDistanceRatioLoop avg ss m = some (max m (worstDeviation ss avg))
  | [], m, hm, _ => by
    simp [maxDistanceRatioLoop, worstDeviation, hm]
  | s :: ss, m, hm, h => by
    have ih := fun m2 hm2 => maxDistanceRatioLoop_spec avg ss m2 hm2
      (fun t ht => h t (List.mem_cons_of_mem _ ht))
    by_cases hv : s.visible = true
    · have hd := averageDifference_spec s avg hv (h s (List.mem_cons_self _ _) hv)
      have hw : worstDeviation (s :: ss) avg
          = max (meanAbsDev s.values avg) (worstDeviation ss avg) := by
        simp [worstDeviation, List.filter_cons, hv]
      simp only [maxDistanceRatioLoop, hv, hd, hw]
      by_cases hc : meanAbsDev s.values avg > m
      · simp only [Bool.not_true, Bool.false_eq_true, if_false, if_pos hc,
          ih _ (hm.trans hc.le)]
        rw [← max_assoc, max_eq_right hc.le]
      · simp only [Bool.not_true, Bool.false_eq_true, if_false, if_neg hc, ih _ hm]
        rw [← max_assoc, max_eq_left (not_lt.mp hc)]
    · have hw : worstDeviation (s :: ss) avg = worstDeviation ss avg := by
        simp [worstDeviation, List.filter_cons, hv]
      simp only [maxDistanceRatioLoop, hv, hw]
      simpa using ih m hm

theorem worstDeviation_nonneg (ss : List Series) (avg : List ℚ) :
    0 ≤ worstDeviation ss avg := foldr_max_nonneg _

theorem distanceRatiosLoop_spec (avg : List ℚ) (m : ℚ) (f : Series → Dbl)
    (hf : ∀ s, f s = if s.visible then Dbl.div (meanAbsDev s.values avg) m
      else sentinelRatio) :
    ∀ (ss : List Series),
      (∀ s ∈ ss, s.visible = true → s.values.length ≤ avg.length) →
      distanceRatiosLoop avg m ss = some (ss.map f)
  | [], _ => rfl
  | s :: ss, h => by
    have ih := distanceRatiosLoop_spec avg m f hf ss
      (fun t ht => h t (List.mem_cons_of_mem _ ht))
    by_cases hv : s.visible = true
    · have hd := averageDifference_spec s avg hv (h s (List.mem_cons_self _ _) hv)
      simp [distanceRatiosLoop, hv, hd, ih, hf s]
    · simp [distanceRatiosLoop, hv, ih, hf s]

theorem distanceRatiosLoop_invisible (avg : List ℚ) (m : ℚ) :
    ∀ (ss : List Series) (ratios : List Dbl),
      distanceRatiosLoop avg m ss = some ratios →
      ratios.length = ss.length ∧
        ∀ i s, ss.get? i = some s → s.visible = false →
          ratios.get? i = some sentinelRatio
  | [], ratios, h => by
    simp only [distanceRatiosLoop, Option.some.injEq] at h
    subst h
    exact ⟨rfl, fun i s hs => by simp at hs⟩
  | s :: ss, ratios, h => by
    simp only [distanceRatiosLoop] at h
    have step : ∀ (x : Dbl) (tl : List Dbl),
        distanceRatiosLoop avg m ss = some tl → ratios = x :: tl →
        (s.visible = false → x = sentinelRatio) →
        ratios.length = (s :: ss).length ∧
          ∀ i t, (s :: ss).get? i = some t → t.visible = false →
            ratios.get? i = some sentinelRatio := by
      intro x tl htl hr hx
      obtain ⟨hl, hi⟩ := distanceRatiosLoop_invisible avg m ss tl htl
      subst hr
      refine ⟨by simp [hl], fun i t ht hv => ?_⟩
      cases i with
      | zero =>
        simp only [List.get?_cons_zero, Option.some.injEq] at ht
        subst ht
        simp [hx hv]
      | succ i =>
        simp only [List.get?_cons_succ] at ht ⊢
        exact hi i t ht hv
    split at h
    · simp only [Option.map_eq_some'] at h
      obtain ⟨tl, htl, hr⟩ := h
      exact step _ tl htl hr.symm (fun _ => rfl)
    · rename_i hv
      split at h
      · cases h
      · simp only [Option.map_eq_some'] at h
        obtain ⟨tl, htl, hr⟩ := h
        exact step _ tl htl hr.symm (fun hf => by simp [hf] at hv)

theorem distanceRatiosOfSeries_spec (loaded : List Series) (avg : List ℚ)
    (havg : averageOfSeries loaded true = some avg) (hne : loaded ≠ [])
    (hle : ∀ s ∈ loaded, s.visible = true → s.values.length ≤ avg.length) :
    distanceRatiosOfSeries loaded = some (loaded.map (specRatio loaded avg)) := by
  have hmax := maxDistanceRatioLoop_spec avg loaded 0 le_rfl hle
  rw [max_eq_right (worstDeviation_nonneg loaded avg)] at hmax
  have hloop := distanceRatiosLoop_spec avg (worstDeviation loaded avg)
    (specRatio loaded avg) (fun s => rfl) loaded hle
  have hemp : loaded.isEmpty = false := by
    cases loaded with
    | nil => exact absurd rfl hne
    | cons _ _ => rfl
  simp [distanceRatiosOfSeries, havg, hemp, hmax, hloop]

theorem distanceRatiosOfSeries_invisible (loaded : List Series) (ratios : List Dbl)
    (h : distanceRatiosOfSeries loaded = some ratios) :
    ratios.length = loaded.length ∧
      ∀ i s, loaded.get? i = some s → s.visible = false →
        ratios.get? i = some sentinelRatio := by
  simp only [distanceRatiosOfSeries] at h
  split at h
  · cases h
  · split at h
    · cases h
    · split at h
      · cases h
      · exact distanceRatiosLoop_invisible _ _ loaded ratios h

theorem calculateDistanceRatios_eq (ls : List CSVInfo) (rs : List CSVInfo2)
    (useLs : Bool) :
    calculateDistanceRatios ls rs useLs
      = distanceRatiosOfSeries (seriesOfKind ls rs useLs) := by
  cases useLs <;> simp [calculateDistanceRatios, seriesOfKind]

theorem specRatio_visible (loaded : List Series) (avg : List ℚ) (s : Series)
    (hv : s.visible = true) (hw : 0 < worstDeviation loaded avg) :
    specRatio loaded avg s
      = Dbl.val (meanAbsDev s.values avg / worstDeviation loaded avg) := by
  simp [specRatio, hv, Dbl.div, ne_of_gt hw]

/-! ## Claims about calculateDistanceRatios -/

/-- C7: when the visible-only average `avg` of the selected kind is defined,
no visible series is longer than it and the worst deviation is positive,
`calculateDistanceRatios` pushes one ratio per series and the ratio of every
visible series is `meanAbsDev / worstDeviation`, `meanAbsDev` being the sum of
`|value[i] - avg[i]|` over the series' indices divided by its sample count and
`worstDeviation` the maximum of `meanAbsDev` over the visible series. -/
theorem calculateDistanceRatios_ratio (loadedCSVLS : List CSVInfo)
    (loadedCSVRS : List CSVInfo2) (useLsData : Bool) (avg : List ℚ)
    (havg : calculateAverageValues loadedCSVLS loadedCSVRS useLsData true = some avg)
    (hle : ∀ s ∈ seriesOfKind loadedCSVLS loadedCSVRS useLsData,
      s.visible = true → s.values.length ≤ avg.length)
    (hworst : 0 < worstDeviation (seriesOfKind loadedCSVLS loadedCSVRS useLsData) avg) :
    ∃ ratios, calculateDistanceRatios loadedCSVLS loadedCSVRS useLsData = some ratios ∧
      ratios.length = (seriesOfKind loadedCSVLS loadedCSVRS useLsData).length ∧
      ∀ i s, (seriesOfKind loadedCSVLS loadedCSVRS useLsData).get? i = some s →
        s.visible = true →
        ratios.get? i = some (Dbl.val (meanAbsDev s.values avg
          / worstDeviation (seriesOfKind loadedCSVLS loadedCSVRS useLsData) avg)) := by
  rw [calculateAverageValues_eq] at havg
  have hne : seriesOfKind loadedCSVLS loadedCSVRS useLsData ≠ [] := by
    intro h
    rw [h] at hworst
    simp [worstDeviation] at hworst
  refine ⟨_, (calculateDistanceRatios_eq _ _ _).trans
    (distanceRatiosOfSeries_spec _ avg havg hne hle), by simp, fun i s hs hv => ?_⟩
  rw [List.get?_eq_getElem?] at hs ⊢
  rw [List.getElem?_map, hs, Option.map_some', specRatio_visible _ _ _ hv hworst]

/-- C8: whenever `calculateDistanceRatios` completes, it has pushed one ratio
per series of the selected kind and the ratio of every series whose visible
flag is false is the sentinel `101.10`; it completes on every non-empty
collection whose visible series are no longer than the first series' sample
count; and when no series is visible every ratio is the sentinel. -/
theorem calculateDistanceRatios_invisible (loadedCSVLS : List CSVInfo)
    (loadedCSVRS : List CSVInfo2) (useLsData : Bool) :
    (∀ ratios, calculateDistanceRatios loadedCSVLS loadedCSVRS useLsData = some ratios →
      ratios.length = (seriesOfKind loadedCSVLS loadedCSVRS useLsData).length ∧
      ∀ i s, (seriesOfKind loadedCSVLS loadedCSVRS useLsData).get? i = some s →
        s.visible = false → ratios.get? i = some sentinelRatio) ∧
    (∀ first rest, seriesOfKind loadedCSVLS loadedCSVRS useLsData = first :: rest →
      (∀ s ∈ first :: rest, s.visible = true →
        s.values.length ≤ first.frequencies.length) →
      ∃ ratios, calculateDistanceRatios loadedCSVLS loadedCSVRS useLsData
        = some ratios) ∧
    (seriesOfKind loadedCSVLS loadedCSVRS useLsData ≠ [] →
      (∀ s ∈ seriesOfKind loadedCSVLS loadedCSVRS useLsData, s.visible = false) →
      calculateDistanceRatios loadedCSVLS loadedCSVRS useLsData
        = some (List.replicate
            (seriesOfKind loadedCSVLS loadedCSVRS useLsData).length sentinelRatio)) := by
  rw [calculateDistanceRatios_eq]
  have hdef : ∀ first rest,
      seriesOfKind loadedCSVLS loadedCSVRS useLsData = first :: rest →
      (∀ s ∈ first :: rest, s.visible = true →
        s.values.length ≤ first.frequencies.length) →
      ∃ avg, distanceRatiosOfSeries (seriesOfKind loadedCSVLS loadedCSVRS useLsData)
        = some ((seriesOfKind loadedCSVLS loadedCSVRS useLsData).map
          (specRatio (seriesOfKind loadedCSVLS loadedCSVRS useLsData) avg)) := by
    intro first rest hstore hle
    obtain ⟨avg, havg, hlen, _⟩ := averageOfSeries_spec first rest true
      (fun s hs => by
        rw [includedSeries_eq_filter] at hs
        obtain ⟨hmem, hv⟩ := List.mem_filter.mp hs
        exact hle s hmem (by simpa using hv))
    rw [hstore]
    exact ⟨avg, distanceRatiosOfSeries_spec _ avg havg (List.cons_ne_nil _ _)
      (fun s hs hv => by rw [hlen]; exact hle s hs hv)⟩
  refine ⟨fun ratios h => distanceRatiosOfSeries_invisible _ ratios h,
    fun first rest hstore hle => ?_, fun hne hnone => ?_⟩
  · obtain ⟨avg, h⟩ := hdef first rest hstore hle
    exact ⟨_, h⟩
  · cases hstore : seriesOfKind loadedCSVLS loadedCSVRS useLsData with
    | nil => exact absurd hstore hne
    | cons first rest =>
      obtain ⟨avg, h⟩ := hdef first rest hstore
        (fun s hs hv => by
          rw [← hstore] at hs
          rw [hnone s hs] at hv
          cases hv)
      rw [← hstore, h]
      refine congrArg some (List.eq_replicate_iff.mpr ⟨by simp, fun b hb => ?_⟩)
      obtain ⟨s, hs, rfl⟩ := List.mem_map.mp hb
      simp [specRatio, hnone s hs]

/-- C9 (failing input): one visible Ls series with the single sample 5. The
average is `[5]`, the series' deviation and `maxDistanceRatio` are 0, and the
unguarded quotient `0.0 / 0.0` pushed for the series is NaN, not a number of
`[0, 1]`. -/
theorem calculateDistanceRatios_degenerate :
    calculateAverageValues [⟨"a", [5], [], [], [10], true⟩] [] true true = some [5] ∧
    calculateDistanceRatios [⟨"a", [5], [], [], [10], true⟩] [] true
      = some [Dbl.nan] := by
  constructor
  · norm_num [calculateAverageValues, averageOfSeries, sumSeries, addValues, lsSeries]
  · norm_num [calculateDistanceRatios, distanceRatiosOfSeries, averageOfSeries,
      sumSeries, addValues, lsSeries, maxDistanceRatioLoop, distanceRatiosLoop,
      averageDifference, sumDifferences, Dbl.div]

/-- C10 (counterexample): two visible Ls series with the single samples 0 and
2. The average is `[1]`, both deviations are 1, the worst deviation is 1 > 0,
and both series receive the ratio 1.0, not exactly one of them. -/
theorem calculateDistanceRatios_two_worst :
    calculateAverageValues [⟨"a", [0], [], [], [10], true⟩,
        ⟨"b", [2], [], [], [10], true⟩] [] true true = some [1] ∧
    0 < worstDeviation (seriesOfKind [⟨"a", [0], [], [], [10], true⟩,
        ⟨"b", [2], [], [], [10], true⟩] [] true) [1] ∧
    calculateDistanceRatios [⟨"a", [0], [], [], [10], true⟩,
        ⟨"b", [2], [], [], [10], true⟩] [] true
      = some [Dbl.val 1, Dbl.val 1] := by
  refine ⟨?_, ?_, ?_⟩
  · norm_num [calculateAverageValues, averageOfSeries, sumSeries, addValues, lsSeries]
  · norm_num [worstDeviation, seriesOfKind, lsSeries, meanAbsDev, List.range_succ]
  · norm_num [calculateDistanceRatios, distanceRatiosOfSeries, averageOfSeries,
      sumSeries, addValues, lsSeries, maxDistanceRatioLoop, distanceRatiosLoop,
      averageDifference, sumDifferences, Dbl.div]

/-- C10 (amended): when the worst deviation is positive, a visible series
receives the ratio 1.0 exactly when its mean absolute deviation equals the
worst deviation, and at least one visible series does. -/
theorem calculateDistanceRatios_worst_is_one (loadedCSVLS : List CSVInfo)
    (loadedCSVRS : List CSVInfo2) (useLsData : Bool) (avg : List ℚ)
    (havg : calculateAverageValues loadedCSVLS loadedCSVRS useLsData true = some avg)
    (hle : ∀ s ∈ seriesOfKind loadedCSVLS loadedCSVRS useLsData,
      s.visible = true → s.values.length ≤ avg.length)
    (hworst : 0 < worstDeviation (seriesOfKind loadedCSVLS loadedCSVRS useLsData) avg) :
    ∃ ratios, calculateDistanceRatios loadedCSVLS loadedCSVRS useLsData = some ratios ∧
      (∀ i s, (seriesOfKind loadedCSVLS loadedCSVRS useLsData).get? i = some s →
        s.visible = true →
        (ratios.get? i = some (Dbl.val 1) ↔ meanAbsDev s.values avg
          = worstDeviation (seriesOfKind loadedCSVLS loadedCSVRS useLsData) avg)) ∧
      ∃ i s, (seriesOfKind loadedCSVLS loadedCSVRS useLsData).get? i = some s ∧
        s.visible = true ∧ ratios.get? i = some (Dbl.val 1) := by
  rw [calculateAverageValues_eq] at havg
  have hne : seriesOfKind loadedCSVLS loadedCSVRS useLsData ≠ [] := by
    intro h
    rw [h] at hworst
    simp [worstDeviation] at hworst
  have hget : ∀ i s, (seriesOfKind loadedCSVLS loadedCSVRS useLsData).get? i = some s →
      s.visible = true →
      ((seriesOfKind loadedCSVLS loadedCSVRS useLsData).map
          (specRatio (seriesOfKind loadedCSVLS loadedCSVRS useLsData) avg)).get? i
        = some (Dbl.val (meanAbsDev s.values avg
          / worstDeviation (seriesOfKind loadedCSVLS loadedCSVRS useLsData) avg)) := by
    intro i s hs hv
    rw [List.get?_eq_getElem?] at hs ⊢
    rw [List.getElem?_map, hs, Option.map_some', specRatio_visible _ _ _ hv hworst]
  have hone : ∀ d : ℚ,
      d / worstDeviation (seriesOfKind loadedCSVLS loadedCSVRS useLsData) avg = 1
        ↔ d = worstDeviation (seriesOfKind loadedCSVLS loadedCSVRS useLsData) avg :=
    fun d => div_eq_one_iff_eq (ne_of_gt hworst)
  refine ⟨_, (calculateDistanceRatios_eq _ _ _).trans
    (distanceRatiosOfSeries_spec _ avg havg hne hle), fun i s hs hv => ?_, ?_⟩
  · rw [hget i s hs hv]
    simp [hone]
  · obtain ⟨x, hx, hxe⟩ := foldr_max_attained _ hworst
    obtain ⟨s, hs, rfl⟩ := List.mem_map.mp hx
    obtain ⟨hmem, hv⟩ := List.mem_filter.mp hs
    obtain ⟨i, hi⟩ := List.get?_of_mem hmem
    have hv2 : s.visible = true := by simpa using hv
    refine ⟨i, s, hi, hv2, ?_⟩
    rw [hget i s hi hv2]
    have : meanAbsDev s.values avg
        / worstDeviation (seriesOfKind loadedCSVLS loadedCSVRS useLsData) avg = 1 :=
      (hone _).mpr hxe
    rw [this]

theorem scenarioLS_average :
    calculateAverageValues scenarioLS [] true true = some [2, 2, 2] := by
  norm_num [calculateAverageValues, averageOfSeries, sumSeries, addValues, lsSeries,
    scenarioLS]

theorem scenarioLS_worst :
    0 < worstDeviation (seriesOfKind scenarioLS [] true) [2, 2, 2] := by
  norm_num [worstDeviation, seriesOfKind, lsSeries, meanAbsDev, List.range_succ,
    scenarioLS]

/-- Witness of C3 on the three-series scenario. -/
theorem calculateAverageValues_mean_witness :
    ∃ avg, calculateAverageValues scenarioLS [] true true = some avg ∧ avg.length = 3 ∧
      ∀ i, i < 3 → avg.getD i 0 =
        valueSum (includedSeries (seriesOfKind scenarioLS [] true) true) i
          / ((includedSeries (seriesOfKind scenarioLS [] true) true).length : ℚ) :=
  calculateAverageValues_mean scenarioLS [] true true 3
    (by simp [seriesOfKind, scenarioLS, lsSeries])
    (by simp [includedSeries, seriesOfKind, scenarioLS, lsSeries])

/-- Witness of C4 on the Rs scenario, whose first series has two samples. -/
theorem calculateAverageValues_length_witness :
    ∃ avg, calculateAverageValues [] scenarioRS false true = some avg ∧
      avg.length = 2 :=
  ((calculateAverageValues_length [] scenarioRS false true).2
      (rsSeries ⟨"a", [], [4, 8], [10, 20], [], true⟩)
      [rsSeries ⟨"b", [], [6, 2], [10, 20], [], false⟩] rfl).2
    (by simp [includedSeries, rsSeries])

/-- Witness of C5: a single hidden Rs series with two samples. -/
theorem calculateAverageValues_none_visible_witness :
    sumSeries (fun s => s.visible)
        (seriesOfKind [] [⟨"b", [], [6, 2], [10, 20], [], false⟩] false)
        (List.replicate 2 0) 0 = some (List.replicate 2 0, 0) ∧
    calculateAverageValues [] [⟨"b", [], [6, 2], [10, 20], [], false⟩] false true
      = some (List.replicate 2 0) :=
  calculateAverageValues_none_visible [] [⟨"b", [], [6, 2], [10, 20], [], false⟩] false
    (rsSeries ⟨"b", [], [6, 2], [10, 20], [], false⟩) [] rfl
    (by simp [seriesOfKind, rsSeries])

/-- Witness of C7 on the three-series scenario. -/
theorem calculateDistanceRatios_ratio_witness :
    ∃ ratios, calculateDistanceRatios scenarioLS [] true = some ratios ∧
      ratios.length = (seriesOfKind scenarioLS [] true).length ∧
      ∀ i s, (seriesOfKind scenarioLS [] true).get? i = some s → s.visible = true →
        ratios.get? i = some (Dbl.val (meanAbsDev s.values [2, 2, 2]
          / worstDeviation (seriesOfKind scenarioLS [] true) [2, 2, 2])) :=
  calculateDistanceRatios_ratio scenarioLS [] true [2, 2, 2] scenarioLS_average
    (by simp [seriesOfKind, scenarioLS, lsSeries]) scenarioLS_worst

/-- Witness of C8: on the Rs scenario the collection is not empty and its only
visible series has as many samples as the first one, so the ratios are pushed
and the hidden second series gets the sentinel; a collection holding only a
hidden series gets only the sentinel. -/
theorem calculateDistanceRatios_invisible_witness :
    (∃ ratios, calculateDistanceRatios [] scenarioRS false = some ratios ∧
      ratios.get? 1 = some sentinelRatio) ∧
    calculateDistanceRatios [] [⟨"b", [], [6, 2], [10, 20], [], false⟩] false
      = some (List.replicate 1 sentinelRatio) :=
  ⟨match (calculateDistanceRatios_invisible [] scenarioRS false).2.1
        (rsSeries ⟨"a", [], [4, 8], [10, 20], [], true⟩)
        [rsSeries ⟨"b", [], [6, 2], [10, 20], [], false⟩] rfl
        (by simp [rsSeries]) with
    | ⟨ratios, hr⟩ =>
      ⟨ratios, hr, ((calculateDistanceRatios_invisible [] scenarioRS false).1 ratios hr).2
        1 (rsSeries ⟨"b", [], [6, 2], [10, 20], [], false⟩) rfl rfl⟩,
   (calculateDistanceRatios_invisible [] [⟨"b", [], [6, 2], [10, 20], [], false⟩]
      false).2.2 (by simp [seriesOfKind]) (by simp [seriesOfKind, rsSeries])⟩

/-- Witness of the amended C10 on the three-series scenario. -/
theorem calculateDistanceRatios_worst_is_one_witness :
    ∃ ratios, calculateDistanceRatios scenarioLS [] true = some ratios ∧
      (∀ i s, (seriesOfKind scenarioLS [] true).get? i = some s → s.visible = true →
        (ratios.get? i = some (Dbl.val 1) ↔ meanAbsDev s.values [2, 2, 2]
          = worstDeviation (seriesOfKind scenarioLS [] true) [2, 2, 2])) ∧
      ∃ i s, (seriesOfKind scenarioLS [] true).get? i = some s ∧
        s.visible = true ∧ ratios.get? i = some (Dbl.val 1) :=
  calculateDistanceRatios_worst_is_one scenarioLS [] true [2, 2, 2] scenarioLS_average
    (by simp [seriesOfKind, scenarioLS, lsSeries]) scenarioLS_worst

/-! ## Claims about the three-series scenario -/

/-- C11 (failing input): two identical visible Ls series `[2, 2]`. Both equal
the average `[2, 2]`, so `maxDistanceRatio` stays 0; no guard tests it and
the quotient `0.0 / 0.0` pushed for each visible series is NaN, not `0.0`. -/
theorem calculateDistanceRatios_identical_series :
    calculateAverageValues [⟨"a", [2, 2], [], [], [10, 20], true⟩,
        ⟨"b", [2, 2], [], [], [10, 20], true⟩] [] true true = some [2, 2] ∧
    maxDistanceRatioLoop [2, 2]
        [lsSeries ⟨"a", [2, 2], [], [], [10, 20], true⟩,
         lsSeries ⟨"b", [2, 2], [], [], [10, 20], true⟩] 0 = some 0 ∧
    calculateDistanceRatios [⟨"a", [2, 2], [], [], [10, 20], true⟩,
        ⟨"b", [2, 2], [], [], [10, 20], true⟩] [] true
      = some [Dbl.nan, Dbl.nan] := by
  refine ⟨?_, ?_, ?_⟩
  · norm_num [calculateAverageValues, averageOfSeries, sumSeries, addValues, lsSeries]
  · norm_num [lsSeries, maxDistanceRatioLoop, averageDifference, sumDifferences]
  · norm_num [calculateDistanceRatios, distanceRatiosOfSeries, averageOfSeries,
      sumSeries, addValues, lsSeries, maxDistanceRatioLoop, distanceRatiosLoop,
      averageDifference, sumDifferences, Dbl.div]

/-- C12 (counterexample): in the three-series scenario the mean absolute
deviation the code computes for the first series is `(1 + 0 + 1) / 3 = 2/3`,
not 1, and the maximum kept by the first pass is `2/3`, not 1. -/
theorem scenario_deviation_not_one :
    averageDifference (lsSeries ⟨"a", [1, 2, 3], [], [], [10, 20, 30], true⟩) [2, 2, 2]
      ≠ some 1 ∧
    maxDistanceRatioLoop [2, 2, 2] (scenarioLS.map lsSeries) 0 ≠ some 1 := by
  constructor
  · norm_num [lsSeries, averageDifference, sumDifferences]
  · norm_num [scenarioLS, lsSeries, maxDistanceRatioLoop, averageDifference,
      sumDifferences]

/-- C12 (amended): for the three visible Ls series `[1,2,3]`, `[2,2,2]`,
`[3,2,1]` at the frequencies `[10,20,30]` the visible-only average is
`[2,2,2]`, the mean absolute deviations computed by both passes are 2/3, 0,
2/3, the maximum kept by the first pass is 2/3, and the ratios pushed are
1.0, 0.0, 1.0 in store order. -/
theorem scenario_three_series :
    calculateAverageValues scenarioLS [] true true = some [2, 2, 2] ∧
    scenarioLS.map (fun fileInfo => averageDifference (lsSeries fileInfo) [2, 2, 2])
      = [some (2 / 3), some 0, some (2 / 3)] ∧
    maxDistanceRatioLoop [2, 2, 2] (scenarioLS.map lsSeries) 0 = some (2 / 3) ∧
    calculateDistanceRatios scenarioLS [] true
      = some [Dbl.val 1, Dbl.val 0, Dbl.val 1] := by
  refine ⟨?_, ?_, ?_, ?_⟩
  · norm_num [calculateAverageValues, averageOfSeries, sumSeries, addValues, lsSeries,
      scenarioLS]
  · norm_num [scenarioLS, lsSeries, averageDifference, sumDifferences]
  · norm_num [scenarioLS, lsSeries, maxDistanceRatioLoop, averageDifference,
      sumDifferences]
  · norm_num [calculateDistanceRatios, distanceRatiosOfSeries, averageOfSeries,
      sumSeries, addValues, lsSeries, maxDistanceRatioLoop, distanceRatiosLoop,
      averageDifference, sumDifferences, Dbl.div, scenarioLS]

/-- C13: in the three-series scenario with the second series made invisible,
`calculateDistanceRatios` pushes the sentinel `101.10` for the second series
and, for the first and the third, the ratios it pushes for the store that
holds only these two series: the average and the maximum deviation are
computed from the two visible series alone, and agree in both stores. -/
theorem scenario_second_series_hidden :
    calculateDistanceRatios (setVisibleLS scenarioLS 1 false) [] true
      = some [Dbl.val 1, sentinelRatio, Dbl.val 1] ∧
    calculateDistanceRatios [⟨"a", [1, 2, 3], [], [], [10, 20, 30], true⟩,
        ⟨"c", [3, 2, 1], [], [], [10, 20, 30], true⟩] [] true
      = some [Dbl.val 1, Dbl.val 1] ∧
    calculateAverageValues (setVisibleLS scenarioLS 1 false) [] true true
      = calculateAverageValues [⟨"a", [1, 2, 3], [], [], [10, 20, 30], true⟩,
        ⟨"c", [3, 2, 1], [], [], [10, 20, 30], true⟩] [] true true ∧
    maxDistanceRatioLoop [2, 2, 2] ((setVisibleLS scenarioLS 1 false).map lsSeries) 0
      = maxDistanceRatioLoop [2, 2, 2]
        [lsSeries ⟨"a", [1, 2, 3], [], [], [10, 20, 30], true⟩,
         lsSeries ⟨"c", [3, 2, 1], [], [], [10, 20, 30], true⟩] 0 := by
  refine ⟨?_, ?_, ?_, ?_⟩
  · norm_num [calculateDistanceRatios, distanceRatiosOfSeries, averageOfSeries,
      sumSeries, addValues, lsSeries, maxDistanceRatioLoop, distanceRatiosLoop,
      averageDifference, sumDifferences, Dbl.div, scenarioLS, setVisibleLS]
  · norm_num [calculateDistanceRatios, distanceRatiosOfSeries, averageOfSeries,
      sumSeries, addValues, lsSeries, maxDistanceRatioLoop, distanceRatiosLoop,
      averageDifference, sumDifferences, Dbl.div]
  · norm_num [calculateAverageValues, averageOfSeries, sumSeries, addValues, lsSeries,
      scenarioLS, setVisibleLS]
  · norm_num [scenarioLS, setVisibleLS, lsSeries, maxDistanceRatioLoop,
      averageDifference, sumDifferences]

/-! ## Lemmas: loading -/

theorem readLine_wellFormed (w : MainWindow) (cols : Columns) (row : ℚ × ℚ × ℚ) :
    readLine w cols [Field.number row.1, Field.number row.2.1, Field.number row.2.2]
      = some
        { lsValues := cols.lsValues ++
            (if w.minFrequencyLS ≤ row.1 ∧ row.1 ≤ w.maxFrequencyLS then [row.2.1] else []),
          rsValues := cols.rsValues ++
            (if w.minFrequencyRS ≤ row.1 ∧ row.1 ≤ w.maxFrequencyRS then [row.2.2] else []),
          frequenciesRs := cols.frequenciesRs ++
            (if w.minFrequencyRS ≤ row.1 ∧ row.1 ≤ w.maxFrequencyRS then [row.1] else []),
          frequenciesLs := cols.frequenciesLs ++
            (if w.minFrequencyLS ≤ row.1 ∧ row.1 ≤ w.maxFrequencyLS then [row.1] else []) } := by
  simp only [readLine, Field.toDouble, if_true, ge_iff_le]
  by_cases h1 : w.minFrequencyLS ≤ row.1 ∧ row.1 ≤ w.maxFrequencyLS <;>
    by_cases h2 : w.minFrequencyRS ≤ row.1 ∧ row.1 ≤ w.maxFrequencyRS <;>
    simp [h1, h2]

theorem readLines_wellFormed (w : MainWindow) :
    ∀ (rows : List (ℚ × ℚ × ℚ)) (cols : Columns),
      readLines w (rows.map
          (fun row => [Field.number row.1, Field.number row.2.1, Field.number row.2.2])) cols
        = some
          { lsValues := cols.lsValues ++
              (rowsInRange w.minFrequencyLS w.maxFrequencyLS rows).map (fun row => row.2.1),
            rsValues := cols.rsValues ++
              (rowsInRange w.minFrequencyRS w.maxFrequencyRS rows).map (fun row => row.2.2),
            frequenciesRs := cols.frequenciesRs ++
              (rowsInRange w.minFrequencyRS w.maxFrequencyRS rows).map (fun row => row.1),
            frequenciesLs := cols.frequenciesLs ++
              (rowsInRange w.minFrequencyLS w.maxFrequencyLS rows).map (fun row => row.1) }
  | [], cols => by simp [readLines, rowsInRange]
  | row :: rows, cols => by
    simp only [List.map_cons, readLines, readLine_wellFormed]
    rw [readLines_wellFormed w rows]
    by_cases h1 : w.minFrequencyLS ≤ row.1 ∧ row.1 ≤ w.maxFrequencyLS <;>
      by_cases h2 : w.minFrequencyRS ≤ row.1 ∧ row.1 ≤ w.maxFrequencyRS <;>
      simp [rowsInRange, List.filter_cons, h1, h2]

theorem readFile_wellFormed (w : MainWindow) (range : FrequencyRange)
    (hLs1 : w.minFrequencyLS = range.minFrequencyLS)
    (hLs2 : w.maxFrequencyLS = range.maxFrequencyLS)
    (hRs1 : w.minFrequencyRS = range.minFrequencyRS)
    (hRs2 : w.maxFrequencyRS = range.maxFrequencyRS)
    (baseName : String) (rows : List (ℚ × ℚ × ℚ)) :
    readFile w (wellFormedFile baseName rows)
      = some (admittedLs range baseName rows, admittedRs range baseName rows) := by
  simp [readFile, wellFormedFile, readLines_wellFormed, admittedLs, admittedRs,
    hLs1, hLs2, hRs1, hRs2]

theorem readLine_congr (w w2 : MainWindow)
    (hLs1 : w.minFrequencyLS = w2.minFrequencyLS)
    (hLs2 : w.maxFrequencyLS = w2.maxFrequencyLS)
    (hRs1 : w.minFrequencyRS = w2.minFrequencyRS)
    (hRs2 : w.maxFrequencyRS = w2.maxFrequencyRS) (cols : Columns) (data : List Field) :
    readLine w cols data = readLine w2 cols data := by
  unfold readLine
  rw [hLs1, hLs2, hRs1, hRs2]

theorem readLines_congr (w w2 : MainWindow)
    (hLs1 : w.minFrequencyLS = w2.minFrequencyLS)
    (hLs2 : w.maxFrequencyLS = w2.maxFrequencyLS)
    (hRs1 : w.minFrequencyRS = w2.minFrequencyRS)
    (hRs2 : w.maxFrequencyRS = w2.maxFrequencyRS) :
    ∀ (lines : List (List Field)) (cols : Columns),
      readLines w lines cols = readLines w2 lines cols
  | [], _ => rfl
  | data :: rest, cols => by
    simp only [readLines, readLine_congr w w2 hLs1 hLs2 hRs1 hRs2]
    cases readLine w2 cols data with
    | none => rfl
    | some cols1 => exact readLines_congr w w2 hLs1 hLs2 hRs1 hRs2 rest cols1

theorem readFile_congr (w w2 : MainWindow)
    (hLs1 : w.minFrequencyLS = w2.minFrequencyLS)
    (hLs2 : w.maxFrequencyLS = w2.maxFrequencyLS)
    (hRs1 : w.minFrequencyRS = w2.minFrequencyRS)
    (hRs2 : w.maxFrequencyRS = w2.maxFrequencyRS) (file : CsvFile) :
    readFile w file = readFile w2 file := by
  unfold readFile
  cases file.lines with
  | none => rfl
  | some lines =>
    simp only [readLines_congr w w2 hLs1 hLs2 hRs1 hRs2]

theorem readFile_sameRange (w w2 : MainWindow) (h : SameRange w w2) (file : CsvFile) :
    readFile w file = readFile w2 file :=
  readFile_congr w w2 h.1 h.2.1 h.2.2.1 h.2.2.2 file

/-- What the loop over the files leaves: the entries of the first `k` files
appended to both collections, nothing else changed; the loop returned early
exactly when file `k` exists, and then that file could not be read. -/
theorem loadFiles_spec (w0 : MainWindow) : ∀ (files : List CsvFile) (w : MainWindow),
    SameRange w w0 →
    ∃ entries : List (CSVInfo × CSVInfo2),
      entries.length ≤ files.length ∧
      (∀ e ∈ entries, ∃ file ∈ files.take entries.length, readFile w0 file = some e) ∧
      (loadFiles w files).1 =
        { w with loadedCSVLS := w.loadedCSVLS ++ entries.map Prod.fst,
                 loadedCSVRS := w.loadedCSVRS ++ entries.map Prod.snd } ∧
      ((loadFiles w files).2 = true → files.map (readFile w0) = entries.map some) ∧
      ((loadFiles w files).2 = false →
        ∃ file, files.get? entries.length = some file ∧ readFile w0 file = none)
  | [], w, _ => ⟨[], le_rfl, by simp, by simp [loadFiles], by simp [loadFiles],
      by simp [loadFiles]⟩
  | file :: rest, w, hw => by
    have hrw := readFile_sameRange w w0 hw file
    cases hread : readFile w0 file with
    | none =>
      rw [hread] at hrw
      exact ⟨[], by simp, by simp, by simp [loadFiles, hrw], by simp [loadFiles, hrw],
        fun _ => ⟨file, by simp, hread⟩⟩
    | some e =>
      rw [hread] at hrw
      obtain ⟨fileInfo, fileInfo2RS⟩ := e
      obtain ⟨entries, hlen, hmem, hstate, htrue, hfalse⟩ := loadFiles_spec w0 rest
        { w with loadedCSVLS := w.loadedCSVLS ++ [fileInfo],
                 loadedCSVRS := w.loadedCSVRS ++ [fileInfo2RS] }
        ⟨hw.1, hw.2.1, hw.2.2.1, hw.2.2.2⟩
      refine ⟨(fileInfo, fileInfo2RS) :: entries, by simpa using hlen, ?_, ?_, ?_, ?_⟩
      · intro e he
        rcases List.mem_cons.mp he with he | he
        · exact ⟨file, by simp, by rw [he]; exact hread⟩
        · obtain ⟨f, hf, hfe⟩ := hmem e he
          exact ⟨f, by simp [hf], hfe⟩
      · simp only [loadFiles, hrw, hstate]
        simp
      · intro h
        simp only [loadFiles, hrw] at h
        simp [hread, htrue h]
      · intro h
        simp only [loadFiles, hrw] at h
        obtain ⟨f, hf, hfe⟩ := hfalse h
        exact ⟨f, by simpa using hf, hfe⟩

theorem loadFiles_append : ∀ (pre rest : List CsvFile) (w : MainWindow),
    loadFiles w (pre ++ rest) =
      if (loadFiles w pre).2 then loadFiles (loadFiles w pre).1 rest
      else loadFiles w pre
  | [], rest, w => by simp [loadFiles]
  | file :: pre, rest, w => by
    simp only [List.cons_append, loadFiles]
    cases readFile w file with
    | none => simp
    | some e => exact loadFiles_append pre rest _

theorem loadFiles_range (files : List CsvFile) (w : MainWindow) :
    (loadFiles w files).1.minFrequencyLS = w.minFrequencyLS ∧
    (loadFiles w files).1.maxFrequencyLS = w.maxFrequencyLS ∧
    (loadFiles w files).1.minFrequencyRS = w.minFrequencyRS ∧
    (loadFiles w files).1.maxFrequencyRS = w.maxFrequencyRS ∧
    (loadFiles w files).1.graphs = w.graphs ∧
    (loadFiles w files).1.avg = w.avg ∧
    (loadFiles w files).1.radioButton_Ls = w.radioButton_Ls ∧
    (loadFiles w files).1.distanceRatios = w.distanceRatios ∧
    (loadFiles w files).1.recordedPoints = w.recordedPoints := by
  obtain ⟨entries, _, _, hstate, _, _⟩ := loadFiles_spec w files w ⟨rfl, rfl, rfl, rfl⟩
  rw [hstate]
  exact ⟨rfl, rfl, rfl, rfl, rfl, rfl, rfl, rfl, rfl⟩

theorem loadFiles_wellFormed (range : FrequencyRange) :
    ∀ (batch : List (String × List (ℚ × ℚ × ℚ))) (w : MainWindow),
      w.minFrequencyLS = range.minFrequencyLS → w.maxFrequencyLS = range.maxFrequencyLS →
      w.minFrequencyRS = range.minFrequencyRS → w.maxFrequencyRS = range.maxFrequencyRS →
      loadFiles w (batch.map (fun p => wellFormedFile p.1 p.2)) =
        ({ w with
            loadedCSVLS := w.loadedCSVLS ++ batch.map (fun p => admittedLs range p.1 p.2),
            loadedCSVRS := w.loadedCSVRS ++ batch.map (fun p => admittedRs range p.1 p.2) },
          true)
  | [], w, _, _, _, _ => by simp [loadFiles]
  | p :: batch, w, h1, h2, h3, h4 => by
    simp only [List.map_cons, loadFiles, readFile_wellFormed w range h1 h2 h3 h4]
    rw [loadFiles_wellFormed range batch _ (by exact h1) (by exact h2) (by exact h3)
      (by exact h4)]
    simp

theorem readLine_rejected (w : MainWindow) (cols : Columns) (data : List Field)
    (h : RejectedLine data) : readLine w cols data = none := by
  unfold RejectedLine at h
  match data, h with
  | [], _ => rfl
  | [_], _ => rfl
  | [_, _], _ => rfl
  | d0 :: d1 :: d2 :: rest, h =>
    rcases h with h | h
    · simp only [List.length_cons] at h
      omega
    · simp only [List.get?_cons_succ, List.get?_cons_zero, Option.some.injEq] at h
      subst h
      simp [readLine, Field.toDouble]

theorem readLines_rejected (w : MainWindow) :
    ∀ (lines : List (List Field)) (cols : Columns),
      (∃ data ∈ lines, RejectedLine data) → readLines w lines cols = none
  | [], _, h => by
    obtain ⟨_, hmem, _⟩ := h
    simp at hmem
  | data :: rest, cols, h => by
    simp only [readLines]
    cases hline : readLine w cols data with
    | none => rfl
    | some cols1 =>
      obtain ⟨bad, hmem, hbad⟩ := h
      rcases List.mem_cons.mp hmem with hb | hb
      · subst hb
        rw [readLine_rejected w cols bad hbad] at hline
        cases hline
      · exact readLines_rejected w rest cols1 ⟨bad, hb, hbad⟩

theorem readFile_rejected (w : MainWindow) (file : CsvFile) (lines : List (List Field))
    (hlines : file.lines = some lines) (h : ∃ data ∈ lines, RejectedLine data) :
    readFile w file = none := by
  simp [readFile, hlines, readLines_rejected w lines _ h]

theorem load_wellFormed_batch (w : MainWindow) (range : FrequencyRange)
    (batch : List (String × List (ℚ × ℚ × ℚ))) :
    (on_btn_load_plot_clicked w (some range)
        (batch.map (fun p => wellFormedFile p.1 p.2))).loadedCSVLS
      = batch.map (fun p => admittedLs range p.1 p.2) ∧
    (on_btn_load_plot_clicked w (some range)
        (batch.map (fun p => wellFormedFile p.1 p.2))).loadedCSVRS
      = batch.map (fun p => admittedRs range p.1 p.2) := by
  have hload := loadFiles_wellFormed range batch
    { clearEverything w with
      minFrequencyLS := range.minFrequencyLS, maxFrequencyLS := range.maxFrequencyLS,
      minFrequencyRS := range.minFrequencyRS, maxFrequencyRS := range.maxFrequencyRS }
    rfl rfl rfl rfl
  simp only [on_btn_load_plot_clicked, hload]
  have hLs : (batch.map (fun p => admittedLs range p.1 p.2)).map
      (fun fileInfo => { fileInfo with visible := true })
      = batch.map (fun p => admittedLs range p.1 p.2) := by
    simp [admittedLs, Function.comp_def]
  have hRs : (batch.map (fun p => admittedRs range p.1 p.2)).map
      (fun fileInfo => { fileInfo with visible := true })
      = batch.map (fun p => admittedRs range p.1 p.2) := by
    simp [admittedRs, Function.comp_def]
  by_cases hr : w.radioButton_Ls = true
  · simp [clearEverything, hr, on_radioButton_Ls_clicked, hLs]
  · simp [clearEverything, hr, on_radioButton_Rs_clicked, hRs]

/-! ## Claims about loading -/

/-- C16: for every well-formed file, a list of numeric rows
`(frequency, ls, rs)`, reading the file gives the Ls entry made of the
`(frequency, ls)` of the rows with `minFrequencyLS ≤ frequency ≤ maxFrequencyLS`
and the Rs entry made of the `(frequency, rs)` of the rows with
`minFrequencyRS ≤ frequency ≤ maxFrequencyRS`, both in file order and with
inclusive bounds, and a load of that file admits exactly these two entries. -/
theorem load_wellFormed_file (w : MainWindow) (range : FrequencyRange)
    (baseName : String) (rows : List (ℚ × ℚ × ℚ)) :
    readFile (withRange (clearEverything w) range) (wellFormedFile baseName rows)
      = some
        (⟨baseName,
          (rows.filter (fun row => decide (range.minFrequencyLS ≤ row.1
            ∧ row.1 ≤ range.maxFrequencyLS))).map (fun row => row.2.1), [], [],
          (rows.filter (fun row => decide (range.minFrequencyLS ≤ row.1
            ∧ row.1 ≤ range.maxFrequencyLS))).map (fun row => row.1), true⟩,
         ⟨baseName, [],
          (rows.filter (fun row => decide (range.minFrequencyRS ≤ row.1
            ∧ row.1 ≤ range.maxFrequencyRS))).map (fun row => row.2.2),
          (rows.filter (fun row => decide (range.minFrequencyRS ≤ row.1
            ∧ row.1 ≤ range.maxFrequencyRS))).map (fun row => row.1), [], true⟩) ∧
    (on_btn_load_plot_clicked w (some range) [wellFormedFile baseName rows]).loadedCSVLS
      = [admittedLs range baseName rows] ∧
    (on_btn_load_plot_clicked w (some range) [wellFormedFile baseName rows]).loadedCSVRS
      = [admittedRs range baseName rows] := by
  refine ⟨?_, ?_⟩
  · exact readFile_wellFormed _ range rfl rfl rfl rfl baseName rows
  · exact load_wellFormed_batch w range [(baseName, rows)]

/-- C18 (failing input): a file whose only data line has text in the
frequency field and numbers in the Ls and Rs fields. The `ok` flag tested is
the one written by the last conversion, so the line is accepted with the
frequency `0.0`, the load does not fail and both entries are admitted. -/
theorem load_text_frequency_accepted :
    readFile (initialWindow scenarioRange) textFrequencyFile
      = some (⟨"t", [1], [], [], [0], true⟩, ⟨"t", [], [2], [0], [], true⟩) ∧
    (on_btn_load_plot_clicked (initialWindow scenarioRange) (some scenarioRange)
        [textFrequencyFile]).loadedCSVLS = [⟨"t", [1], [], [], [0], true⟩] ∧
    (on_btn_load_plot_clicked (initialWindow scenarioRange) (some scenarioRange)
        [textFrequencyFile]).loadedCSVRS = [⟨"t", [], [2], [0], [], true⟩] := by
  have h : ∀ w : MainWindow, w.minFrequencyLS = 0 → w.maxFrequencyLS = 100 →
      w.minFrequencyRS = 0 → w.maxFrequencyRS = 100 →
      readFile w textFrequencyFile
        = some (⟨"t", [1], [], [], [0], true⟩, ⟨"t", [], [2], [0], [], true⟩) := by
    intro w h1 h2 h3 h4
    norm_num [readFile, textFrequencyFile, readLines, readLine, Field.toDouble,
      h1, h2, h3, h4]
  refine ⟨h _ rfl rfl rfl rfl, ?_, ?_⟩
  · simp [on_btn_load_plot_clicked, loadFiles, h, scenarioRange, initialWindow,
      clearEverything, on_radioButton_Ls_clicked]
  · simp [on_btn_load_plot_clicked, loadFiles, h, scenarioRange, initialWindow,
      clearEverything, on_radioButton_Ls_clicked]

theorem load_scenario_a :
    (on_btn_load_plot_clicked (initialWindow scenarioRange) (some scenarioRange)
        [wellFormedFile "a" [(10, 1, 5)]]).loadedCSVLS = [⟨"a", [1], [], [], [10], true⟩] := by
  have h := (load_wellFormed_batch (initialWindow scenarioRange) scenarioRange
    [("a", [(10, 1, 5)])]).1
  simp only [List.map_cons, List.map_nil] at h
  rw [h]
  norm_num [admittedLs, rowsInRange, scenarioRange]

theorem load_with_rejected_file (w : MainWindow) (range : FrequencyRange)
    (pre post : List CsvFile) (bad : CsvFile) (lines : List (List Field))
    (hlines : bad.lines = some lines) (hbad : ∃ data ∈ lines, RejectedLine data) :
    on_btn_load_plot_clicked w (some range) (pre ++ bad :: post)
      = (loadFiles (withRange (clearEverything w) range) pre).1 := by
  have hstop : ∀ wp : MainWindow, loadFiles wp (bad :: post) = (wp, false) := by
    intro wp
    simp [loadFiles, readFile_rejected wp bad lines hlines hbad]
  have happ := loadFiles_append pre (bad :: post) (withRange (clearEverything w) range)
  have hres : loadFiles (withRange (clearEverything w) range) (pre ++ bad :: post)
      = ((loadFiles (withRange (clearEverything w) range) pre).1, false) := by
    rw [happ]
    cases hflag : (loadFiles (withRange (clearEverything w) range) pre).2 with
    | true => simp [hstop]
    | false =>
      simp only [Bool.false_eq_true, if_false]
      exact Prod.ext rfl hflag
  show (match loadFiles (withRange (clearEverything w) range) (pre ++ bad :: post) with
    | (w2, false) => w2
    | (w2, true) =>
      if w2.radioButton_Ls then on_radioButton_Ls_clicked w2
      else on_radioButton_Rs_clicked w2) = _
  rw [hres]

/-- C19 (counterexample): the store holds the series of file `a`; a batch made
of the well-formed file `b` and of a file with a two-field line is loaded.
Afterwards the store holds the series of `b`: it is not what it was before,
and a file of the failed batch has been admitted. -/
theorem load_failure_not_atomic :
    (on_btn_load_plot_clicked (initialWindow scenarioRange) (some scenarioRange)
        [wellFormedFile "a" [(10, 1, 5)]]).loadedCSVLS
      = [⟨"a", [1], [], [], [10], true⟩] ∧
    (on_btn_load_plot_clicked
        (on_btn_load_plot_clicked (initialWindow scenarioRange) (some scenarioRange)
          [wellFormedFile "a" [(10, 1, 5)]])
        (some scenarioRange)
        [wellFormedFile "b" [(10, 2, 5)], shortLineFile]).loadedCSVLS
      = [⟨"b", [2], [], [], [10], true⟩] := by
  refine ⟨load_scenario_a, ?_⟩
  have hbad : ∃ data ∈ [[Field.number 10, Field.number 3]], RejectedLine data :=
    ⟨_, List.mem_singleton_self _, Or.inl (by simp)⟩
  have h := load_with_rejected_file
    (on_btn_load_plot_clicked (initialWindow scenarioRange) (some scenarioRange)
      [wellFormedFile "a" [(10, 1, 5)]])
    scenarioRange [wellFormedFile "b" [(10, 2, 5)]] [] shortLineFile _ rfl hbad
  simp only [List.singleton_append] at h
  rw [h]
  have hb := loadFiles_wellFormed scenarioRange [("b", [(10, 2, 5)])]
    (withRange (clearEverything
      (on_btn_load_plot_clicked (initialWindow scenarioRange) (some scenarioRange)
        [wellFormedFile "a" [(10, 1, 5)]])) scenarioRange) rfl rfl rfl rfl
  simp only [List.map_cons, List.map_nil] at hb
  rw [hb]
  norm_num [admittedLs, rowsInRange, scenarioRange, withRange, clearEverything]

/-- C19 (amended): if a file of the batch has a line the reader rejects (fewer
than three fields, or a third field that is not a number), the load stops at
that file: the plot is not rebuilt, `avg` is false, and every entry of the two
collections afterwards was read from a file that comes before the rejected
one, so neither that file, nor a later file, nor the store as it was before
the load contributes an entry. -/
theorem load_stops_at_rejected_file (w : MainWindow) (settings : Option FrequencyRange)
    (pre post : List CsvFile) (bad : CsvFile) (lines : List (List Field))
    (hlines : bad.lines = some lines) (hbad : ∃ data ∈ lines, RejectedLine data) :
    (on_btn_load_plot_clicked w settings (pre ++ bad :: post)).graphs = [] ∧
    (on_btn_load_plot_clicked w settings (pre ++ bad :: post)).avg = false ∧
    (on_btn_load_plot_clicked w settings (pre ++ bad :: post)).loadedCSVLS.length
      ≤ pre.length ∧
    (on_btn_load_plot_clicked w settings (pre ++ bad :: post)).loadedCSVRS.length
      ≤ pre.length ∧
    (∀ range, settings = some range →
      (∀ fileInfo ∈ (on_btn_load_plot_clicked w settings (pre ++ bad :: post)).loadedCSVLS,
        ∃ file ∈ pre, ∃ fileInfo2RS,
          readFile (withRange (clearEverything w) range) file
            = some (fileInfo, fileInfo2RS)) ∧
      (∀ fileInfo2RS ∈
          (on_btn_load_plot_clicked w settings (pre ++ bad :: post)).loadedCSVRS,
        ∃ file ∈ pre, ∃ fileInfo,
          readFile (withRange (clearEverything w) range) file
            = some (fileInfo, fileInfo2RS))) := by
  cases settings with
  | none =>
    simp [on_btn_load_plot_clicked, clearEverything]
  | some range =>
    rw [load_with_rejected_file w range pre post bad lines hlines hbad]
    obtain ⟨entries, hlen, hmem, hstate, _, _⟩ := loadFiles_spec
      (withRange (clearEverything w) range) pre (withRange (clearEverything w) range)
      ⟨rfl, rfl, rfl, rfl⟩
    rw [hstate]
    refine ⟨rfl, rfl, by simpa [withRange, clearEverything] using hlen,
      by simpa [withRange, clearEverything] using hlen, ?_⟩
    intro range2 hr
    cases hr
    constructor
    · intro fileInfo hf
      simp only [withRange, clearEverything, List.nil_append, List.mem_map] at hf
      obtain ⟨e, he, rfl⟩ := hf
      obtain ⟨file, hfile, hread⟩ := hmem e he
      exact ⟨file, List.mem_of_mem_take hfile, e.2, hread⟩
    · intro fileInfo2RS hf
      simp only [withRange, clearEverything, List.nil_append, List.mem_map] at hf
      obtain ⟨e, he, rfl⟩ := hf
      obtain ⟨file, hfile, hread⟩ := hmem e he
      exact ⟨file, List.mem_of_mem_take hfile, e.1, hread⟩

/-- Witness of the amended C19: the batch `[b, short]` loaded over a store
that holds `a`. -/
theorem load_stops_at_rejected_file_witness :
    (on_btn_load_plot_clicked
        (on_btn_load_plot_clicked (initialWindow scenarioRange) (some scenarioRange)
          [wellFormedFile "a" [(10, 1, 5)]])
        (some scenarioRange)
        ([wellFormedFile "b" [(10, 2, 5)]] ++ shortLineFile :: [])).loadedCSVLS.length
      ≤ [wellFormedFile "b" [(10, 2, 5)]].length :=
  (load_stops_at_rejected_file
    (on_btn_load_plot_clicked (initialWindow scenarioRange) (some scenarioRange)
      [wellFormedFile "a" [(10, 1, 5)]])
    (some scenarioRange) [wellFormedFile "b" [(10, 2, 5)]] [] shortLineFile
    [[Field.number 10, Field.number 3]] rfl
    ⟨_, List.mem_singleton_self _, Or.inl (by simp)⟩).2.2.1

/-- C20 (counterexample): the store holds the series of file `a`; the
well-formed file `b` is loaded. Afterwards the Ls collection holds the series
of `b` alone, not the series of `a` followed by it. -/
theorem load_drops_previous_series :
    (on_btn_load_plot_clicked (initialWindow scenarioRange) (some scenarioRange)
        [wellFormedFile "a" [(10, 1, 5)]]).loadedCSVLS
      = [⟨"a", [1], [], [], [10], true⟩] ∧
    (on_btn_load_plot_clicked
        (on_btn_load_plot_clicked (initialWindow scenarioRange) (some scenarioRange)
          [wellFormedFile "a" [(10, 1, 5)]])
        (some scenarioRange) [wellFormedFile "b" [(10, 2, 5)]]).loadedCSVLS
      = [⟨"b", [2], [], [], [10], true⟩] := by
  refine ⟨load_scenario_a, ?_⟩
  have h := (load_wellFormed_batch
    (on_btn_load_plot_clicked (initialWindow scenarioRange) (some scenarioRange)
      [wellFormedFile "a" [(10, 1, 5)]]) scenarioRange [("b", [(10, 2, 5)])]).1
  simp only [List.map_cons, List.map_nil] at h
  rw [h]
  norm_num [admittedLs, rowsInRange, scenarioRange]

/-- C20 (amended): a load clears the store before it reads the batch, so after
a batch of well-formed files is loaded both collections hold exactly the
series admitted from that batch, in file order, whatever the store held
before; the files of one batch accumulate. -/
theorem load_replaces_store (w : MainWindow) (range : FrequencyRange)
    (batch : List (String × List (ℚ × ℚ × ℚ))) :
    (clearEverything w).loadedCSVLS = [] ∧ (clearEverything w).loadedCSVRS = [] ∧
    (on_btn_load_plot_clicked w (some range)
        (batch.map (fun p => wellFormedFile p.1 p.2))).loadedCSVLS
      = batch.map (fun p => admittedLs range p.1 p.2) ∧
    (on_btn_load_plot_clicked w (some range)
        (batch.map (fun p => wellFormedFile p.1 p.2))).loadedCSVRS
      = batch.map (fun p => admittedRs range p.1 p.2) :=
  ⟨rfl, rfl, load_wellFormed_batch w range batch⟩

/-! ## Lemmas: the threshold filter -/

theorem highlightLS_spec (t : ℚ) : ∀ (ratios : List Dbl) (loaded : List CSVInfo),
    loaded.length ≤ ratios.length →
    highlightLS t ratios loaded
      = some (List.zipWith
          (fun ratio fileInfo => { fileInfo with visible := ratio.le t }) ratios loaded)
  | ratios, [], _ => by cases ratios <;> simp [highlightLS]
  | [], _ :: _, h => by simp at h
  | ratio :: ratios, fileInfo :: rest, h => by
    simp [highlightLS, highlightLS_spec t ratios rest (by simpa using h)]

theorem highlightLS_some (t : ℚ) : ∀ (ratios : List Dbl) (loaded out : List CSVInfo),
    highlightLS t ratios loaded = some out → loaded.length ≤ ratios.length
  | _, [], _, _ => by simp
  | [], _ :: _, _, h => by simp [highlightLS] at h
  | ratio :: ratios, fileInfo :: rest, out, h => by
    simp only [highlightLS, Option.map_eq_some'] at h
    obtain ⟨r, hr, _⟩ := h
    simpa using highlightLS_some t ratios rest r hr

theorem highlightRS_spec (t : ℚ) : ∀ (ratios : List Dbl) (loaded : List CSVInfo2),
    loaded.length ≤ ratios.length →
    highlightRS t ratios loaded
      = some (List.zipWith
          (fun ratio fileInfo => { fileInfo with visible := ratio.le t }) ratios loaded)
  | ratios, [], _ => by cases ratios <;> simp [highlightRS]
  | [], _ :: _, h => by simp at h
  | ratio :: ratios, fileInfo :: rest, h => by
    simp [highlightRS, highlightRS_spec t ratios rest (by simpa using h)]

theorem highlightRS_some (t : ℚ) : ∀ (ratios : List Dbl) (loaded out : List CSVInfo2),
    highlightRS t ratios loaded = some out → loaded.length ≤ ratios.length
  | _, [], _, _ => by simp
  | [], _ :: _, _, h => by simp [highlightRS] at h
  | ratio :: ratios, fileInfo :: rest, out, h => by
    simp only [highlightRS, Option.map_eq_some'] at h
    obtain ⟨r, hr, _⟩ := h
    simpa using highlightRS_some t ratios rest r hr

/-- The guards of the filter pass. -/
theorem highlight_guards (w : MainWindow) (value : ℚ)
    (hloaded : ¬ (w.loadedCSVRS = [] ∧ w.loadedCSVLS = []))
    (havg : w.avg = true) (hgraph : ∃ graph ∈ w.graphs, isAverageGraph graph = true) :
    on_btn_HighlightGraphs_clicked w value =
      if w.radioButton_Ls then
        (highlightLS (value / 100) w.distanceRatios w.loadedCSVLS).map
          (fun loaded => { w with
            loadedCSVLS := loaded,
            graphs := highlightGraphs (value / 100) w.distanceRatios
              w.loadedCSVLS.length w.graphs })
      else
        (highlightRS (value / 100) w.distanceRatios w.loadedCSVRS).map
          (fun loaded => { w with
            loadedCSVRS := loaded,
            graphs := highlightGraphs (value / 100) w.distanceRatios
              w.loadedCSVRS.length w.graphs }) := by
  have h1 : (w.loadedCSVRS.isEmpty && w.loadedCSVLS.isEmpty) = false := by
    cases hr : w.loadedCSVRS <;> cases hl : w.loadedCSVLS <;> simp_all
  have h3 : (!(w.graphs.any isAverageGraph)) = false := by
    simp only [Bool.not_eq_false', List.any_eq_true]
    exact hgraph
  simp only [on_btn_HighlightGraphs_clicked, h1, havg, h3]
  simp

/-- When the filter passes its guards and completes, the view of the selected
collection becomes `thresholdSeries` of the old view, and the mode and the
stored ratios are unchanged. -/
theorem highlight_series (w w2 : MainWindow) (value : ℚ)
    (hloaded : ¬ (w.loadedCSVRS = [] ∧ w.loadedCSVLS = []))
    (havg : w.avg = true) (hgraph : ∃ graph ∈ w.graphs, isAverageGraph graph = true)
    (hrun : on_btn_HighlightGraphs_clicked w value = some w2) :
    (seriesOfKind w.loadedCSVLS w.loadedCSVRS w.radioButton_Ls).length
        ≤ w.distanceRatios.length ∧
    seriesOfKind w2.loadedCSVLS w2.loadedCSVRS w2.radioButton_Ls
      = thresholdSeries (value / 100) w.distanceRatios
          (seriesOfKind w.loadedCSVLS w.loadedCSVRS w.radioButton_Ls) ∧
    w2.radioButton_Ls = w.radioButton_Ls ∧ w2.distanceRatios = w.distanceRatios := by
  rw [highlight_guards w value hloaded havg hgraph] at hrun
  by_cases hr : w.radioButton_Ls = true
  · simp only [hr, if_true, Option.map_eq_some'] at hrun
    obtain ⟨loaded, hl, rfl⟩ := hrun
    have hlen := highlightLS_some _ _ _ _ hl
    rw [highlightLS_spec _ _ _ hlen] at hl
    cases hl
    refine ⟨by simpa [seriesOfKind, hr] using hlen, ?_, by simp [hr], rfl⟩
    simp only [seriesOfKind, hr, if_true, thresholdSeries, List.map_zipWith,
      List.zipWith_map_right]
    rfl
  · simp only [hr, Bool.false_eq_true, if_false, Option.map_eq_some'] at hrun
    obtain ⟨loaded, hl, rfl⟩ := hrun
    have hlen := highlightRS_some _ _ _ _ hl
    rw [highlightRS_spec _ _ _ hlen] at hl
    cases hl
    refine ⟨by simpa [seriesOfKind, hr] using hlen, ?_, by simp [hr], rfl⟩
    simp only [seriesOfKind, hr, Bool.false_eq_true, if_false, thresholdSeries,
      List.map_zipWith, List.zipWith_map_right]
    rfl

theorem highlight_completes (w : MainWindow) (value : ℚ)
    (hloaded : ¬ (w.loadedCSVRS = [] ∧ w.loadedCSVLS = []))
    (havg : w.avg = true) (hgraph : ∃ graph ∈ w.graphs, isAverageGraph graph = true)
    (hlen : (seriesOfKind w.loadedCSVLS w.loadedCSVRS w.radioButton_Ls).length
      ≤ w.distanceRatios.length) :
    ∃ w2, on_btn_HighlightGraphs_clicked w value = some w2 := by
  rw [highlight_guards w value hloaded havg hgraph]
  by_cases hr : w.radioButton_Ls = true
  · simp only [seriesOfKind, hr, if_true, List.length_map] at hlen
    simp [hr, highlightLS_spec _ _ _ hlen]
  · simp only [seriesOfKind, hr, Bool.false_eq_true, if_false, List.length_map] at hlen
    simp [hr, highlightRS_spec _ _ _ hlen]

theorem thresholdSeries_get (t : ℚ) (ratios : List Dbl) (loaded : List Series) (i : Nat)
    (s2 : Series) :
    (thresholdSeries t ratios loaded).get? i = some s2 ↔
      ∃ ratio s, ratios.get? i = some ratio ∧ loaded.get? i = some s ∧
        s2 = { s with visible := ratio.le t } := by
  simp only [thresholdSeries, List.get?_eq_getElem?, List.getElem?_zipWith']
  cases ratios[i]? with
  | none => simp
  | some ratio =>
    cases loaded[i]? with
    | none => simp
    | some s =>
      simp only [Option.map_some', Option.some_bind, Option.some.injEq]
      constructor
      · intro h
        exact ⟨ratio, s, rfl, rfl, h.symm⟩
      · rintro ⟨ratio2, s3, h1, h2, h3⟩
        cases h1
        cases h2
        exact h3.symm

/-! ## Claims about the threshold filter -/

/-- C14: when the guards of `on_btn_HighlightGraphs_clicked` pass (something is
loaded, `avg` is set, an average graph exists) and `distanceRatios` has an
entry for every series of the selected kind, the filter keeps the number of
series and sets the visible flag of series `i` to
`distanceRatios[i] <= value / 100`: for a finite ratio `q` the series is
visible if and only if `q ≤ t`, the boundary `q = t` included. -/
theorem highlight_sets_visibility (w : MainWindow) (value : ℚ)
    (hloaded : ¬ (w.loadedCSVRS = [] ∧ w.loadedCSVLS = []))
    (havg : w.avg = true) (hgraph : ∃ graph ∈ w.graphs, isAverageGraph graph = true)
    (hlen : (seriesOfKind w.loadedCSVLS w.loadedCSVRS w.radioButton_Ls).length
      ≤ w.distanceRatios.length) :
    ∃ w2, on_btn_HighlightGraphs_clicked w value = some w2 ∧
      (seriesOfKind w2.loadedCSVLS w2.loadedCSVRS w.radioButton_Ls).length
        = (seriesOfKind w.loadedCSVLS w.loadedCSVRS w.radioButton_Ls).length ∧
      ∀ i s2, (seriesOfKind w2.loadedCSVLS w2.loadedCSVRS w.radioButton_Ls).get? i
          = some s2 →
        ∃ ratio, w.distanceRatios.get? i = some ratio ∧
          s2.visible = ratio.le (value / 100) ∧
          ∀ q, ratio = Dbl.val q → (s2.visible = true ↔ q ≤ value / 100) := by
  obtain ⟨w2, hrun⟩ := highlight_completes w value hloaded havg hgraph hlen
  obtain ⟨_, hseries, hmode, _⟩ := highlight_series w w2 value hloaded havg hgraph hrun
  rw [hmode] at hseries
  refine ⟨w2, hrun, ?_, fun i s2 hs2 => ?_⟩
  · rw [hseries, thresholdSeries, List.length_zipWith]
    exact min_eq_right hlen
  · rw [hseries, thresholdSeries_get] at hs2
    obtain ⟨ratio, s, hr, _, rfl⟩ := hs2
    refine ⟨ratio, hr, rfl, fun q hq => ?_⟩
    subst hq
    simp [Dbl.le]

/-! ## Lemmas: calculate average -/

theorem addAverageGraph_frame (w w2 : MainWindow) (averageValues : List ℚ)
    (useLsData : Bool) (h : addAverageGraph w averageValues useLsData = some w2) :
    w2.loadedCSVLS = w.loadedCSVLS ∧ w2.loadedCSVRS = w.loadedCSVRS ∧
    w2.radioButton_Ls = w.radioButton_Ls ∧ w2.avg = w.avg ∧
    w2.distanceRatios = w.distanceRatios := by
  unfold addAverageGraph at h
  cases useLsData
  · simp only [Bool.false_eq_true, if_false] at h
    cases hrs : w.loadedCSVRS with
    | nil => simp [hrs] at h
    | cons first rest =>
      simp only [hrs, Option.some.injEq] at h
      subst h
      exact ⟨rfl, rfl, rfl, rfl, rfl⟩
  · simp only [if_true] at h
    cases hls : w.loadedCSVLS with
    | nil => simp [hls] at h
    | cons first rest =>
      simp only [hls, Option.some.injEq] at h
      subst h
      exact ⟨rfl, rfl, rfl, rfl, rfl⟩

theorem memberDistanceRatios_frame (w w2 : MainWindow)
    (h : w.calculateDistanceRatios = some w2) :
    w2.loadedCSVLS = w.loadedCSVLS ∧ w2.loadedCSVRS = w.loadedCSVRS ∧
    w2.radioButton_Ls = w.radioButton_Ls ∧ w2.avg = w.avg ∧
    calculateDistanceRatios w.loadedCSVLS w.loadedCSVRS w.radioButton_Ls
      = some w2.distanceRatios := by
  unfold MainWindow.calculateDistanceRatios at h
  split at h
  · cases h
  · rename_i averageValues _
    split at h
    · cases h
    · rename_i w1 hw1
      split at h
      · cases h
      · rename_i ratios hratios
        simp only [Option.some.injEq] at h
        subst h
        have hframe : w1.loadedCSVLS = w.loadedCSVLS ∧ w1.loadedCSVRS = w.loadedCSVRS ∧
            w1.radioButton_Ls = w.radioButton_Ls ∧ w1.avg = w.avg ∧
            w1.distanceRatios = w.distanceRatios := by
          split at hw1
          · exact addAverageGraph_frame _ _ _ _ hw1
          · cases hw1
            exact ⟨rfl, rfl, rfl, rfl, rfl⟩
        exact ⟨hframe.1, hframe.2.1, hframe.2.2.1, hframe.2.2.2.1, hratios⟩

theorem on_btn_avg_clicked_frame (w w2 : MainWindow) (h : on_btn_avg_clicked w = some w2) :
    w2.loadedCSVLS = w.loadedCSVLS ∧ w2.loadedCSVRS = w.loadedCSVRS ∧
    w2.radioButton_Ls = w.radioButton_Ls ∧
    ((w.loadedCSVRS = [] ∧ w.loadedCSVLS = []) ∨
      (w2.avg = true ∧
        calculateDistanceRatios w2.loadedCSVLS w2.loadedCSVRS w2.radioButton_Ls
          = some w2.distanceRatios)) := by
  unfold on_btn_avg_clicked at h
  split at h
  · rename_i hempty
    cases h
    refine ⟨rfl, rfl, rfl, Or.inl ?_⟩
    simpa [List.isEmpty_iff] using hempty
  · split at h
    · rename_i averageRSValues averageLSValues _ _
      simp only at h
      split at h
      · cases h
      · rename_i w1 hw1
        have hf1 : w1.loadedCSVLS = w.loadedCSVLS ∧ w1.loadedCSVRS = w.loadedCSVRS ∧
            w1.radioButton_Ls = w.radioButton_Ls ∧ w1.avg = true ∧
            w1.distanceRatios = w.distanceRatios := by
          split at hw1
          · exact addAverageGraph_frame _ _ _ _ hw1
          · exact addAverageGraph_frame _ _ _ _ hw1
        obtain ⟨g1, g2, g3, g4, g5⟩ := memberDistanceRatios_frame w1 w2 h
        refine ⟨g1.trans hf1.1, g2.trans hf1.2.1, g3.trans hf1.2.2.1, Or.inr ⟨?_, ?_⟩⟩
        · rw [g4, hf1.2.2.2.1]
        · rw [g1, g2, g3]
          exact g5
    · cases h

theorem sentinel_not_le (t : ℚ) (ht : t ≤ 1) : sentinelRatio.le t = false := by
  simp only [sentinelRatio, Dbl.le, decide_eq_false_iff_not, not_le]
  linarith

/-- With the ratios of the current visibility state in `distanceRatios`, the
filter leaves every invisible series invisible for a threshold of at most 1. -/
theorem highlight_fresh_keeps_hidden (w w2 : MainWindow) (value : ℚ)
    (hfresh : calculateDistanceRatios w.loadedCSVLS w.loadedCSVRS w.radioButton_Ls
      = some w.distanceRatios)
    (hvalue : value ≤ 100)
    (hrun : on_btn_HighlightGraphs_clicked w value = some w2) (i : Nat) (s : Series)
    (hs : (seriesOfKind w.loadedCSVLS w.loadedCSVRS w.radioButton_Ls).get? i = some s)
    (hv : s.visible = false) :
    ∃ s2, (seriesOfKind w2.loadedCSVLS w2.loadedCSVRS w2.radioButton_Ls).get? i = some s2
      ∧ s2.visible = false := by
  by_cases hguard : ¬ (w.loadedCSVRS = [] ∧ w.loadedCSVLS = []) ∧ w.avg = true ∧
      ∃ graph ∈ w.graphs, isAverageGraph graph = true
  · obtain ⟨h1, h2, h3⟩ := hguard
    obtain ⟨_, hseries, _, _⟩ := highlight_series w w2 value h1 h2 h3 hrun
    rw [calculateDistanceRatios_eq] at hfresh
    obtain ⟨_, hsent⟩ := distanceRatiosOfSeries_invisible _ _ hfresh
    refine ⟨{ s with visible := sentinelRatio.le (value / 100) }, ?_, ?_⟩
    · rw [hseries, thresholdSeries_get]
      exact ⟨sentinelRatio, s, hsent i s hs hv, hs, rfl⟩
    · exact sentinel_not_le _ (by linarith)
  · have hsame : w2 = w := by
      unfold on_btn_HighlightGraphs_clicked at hrun
      split at hrun
      · exact (Option.some.inj hrun).symm
      · rename_i hne
        split at hrun
        · exact (Option.some.inj hrun).symm
        · rename_i havg
          split at hrun
          · exact (Option.some.inj hrun).symm
          · rename_i hany
            exfalso
            apply hguard
            refine ⟨?_, by simpa using havg, ?_⟩
            · intro hboth
              apply hne
              simp [hboth.1, hboth.2]
            · simpa [List.any_eq_true] using hany
    rw [hsame]
    exact ⟨s, hs, hv⟩

theorem runActions_append : ∀ (first rest : List Action) (w w1 : MainWindow),
    runActions w first = some w1 → runActions w (first ++ rest) = runActions w1 rest
  | [], rest, w, w1, h => by
    simp only [runActions, Option.some.injEq] at h
    subst h
    rfl
  | a :: first, rest, w, w1, h => by
    simp only [runActions, List.cons_append] at h ⊢
    cases hp : perform w a with
    | none => simp [hp] at h
    | some w2 =>
      simp only [hp] at h ⊢
      exact runActions_append first rest w2 w1 h

theorem scenario_names_not_average :
    isAverageGraph ⟨"a", true, []⟩ = false ∧ isAverageGraph ⟨"b", true, []⟩ = false ∧
    isAverageGraph ⟨"c", true, []⟩ = false ∧
    ("a" == "Average LS") = false ∧ ("a" == "Average RS") = false ∧
    ("b" == "Average LS") = false ∧ ("b" == "Average RS") = false ∧
    ("c" == "Average LS") = false ∧ ("c" == "Average RS") = false := by
  decide

theorem scenario_load_then_average :
    runActions (initialWindow scenarioRange)
        [Action.load (some scenarioRange) scenarioFiles, Action.calculateAverage]
      = some scenarioAveraged := by
  norm_num [runActions, perform, on_btn_load_plot_clicked, scenarioFiles, scenarioRange,
    wellFormedFile, loadFiles, readFile, readLines, readLine, Field.toDouble,
    initialWindow, clearEverything, on_radioButton_Ls_clicked, setData,
    on_btn_avg_clicked, calculateAverageValues, averageOfSeries, sumSeries, addValues,
    lsSeries, rsSeries, addAverageGraph, MainWindow.calculateDistanceRatios,
    calculateDistanceRatios, distanceRatiosOfSeries, maxDistanceRatioLoop,
    distanceRatiosLoop, averageDifference, sumDifferences, Dbl.div,
    isAverageGraph, List.eraseP, List.insertionSort, List.orderedInsert,
    scenarioAveraged, scenarioLS, scenario_names_not_average.2.2.2]

theorem scenarioAveraged_fresh :
    calculateDistanceRatios scenarioAveraged.loadedCSVLS scenarioAveraged.loadedCSVRS
        scenarioAveraged.radioButton_Ls = some scenarioAveraged.distanceRatios := by
  norm_num [calculateDistanceRatios, distanceRatiosOfSeries, averageOfSeries,
    sumSeries, addValues, lsSeries, maxDistanceRatioLoop, distanceRatiosLoop,
    averageDifference, sumDifferences, Dbl.div, scenarioLS, scenarioAveraged]

theorem scenarioAveraged_highlight_50 :
    on_btn_HighlightGraphs_clicked scenarioAveraged 50
      = some { scenarioAveraged with
          loadedCSVLS := [⟨"a", [1, 2, 3], [], [], [10, 20, 30], false⟩,
            ⟨"b", [2, 2, 2], [], [], [10, 20, 30], true⟩,
            ⟨"c", [3, 2, 1], [], [], [10, 20, 30], false⟩],
          graphs := [⟨"a", false, [⟨10, 1⟩, ⟨20, 2⟩, ⟨30, 3⟩]⟩,
            ⟨"b", true, [⟨10, 2⟩, ⟨20, 2⟩, ⟨30, 2⟩]⟩,
            ⟨"c", false, [⟨10, 3⟩, ⟨20, 2⟩, ⟨30, 1⟩]⟩,
            ⟨"Average LS", true, [⟨10, 2⟩, ⟨20, 2⟩, ⟨30, 2⟩]⟩] } := by
  norm_num [on_btn_HighlightGraphs_clicked, isAverageGraph, highlightLS, highlightGraphs,
    Dbl.le, scenarioAveraged, scenarioLS]

/-- C15 (counterexample): the three scenario files are loaded and the average
is calculated, which stores the ratios 1, 0, 1. The filter with `t = 0.5`
hides the first and the third series; `distanceRatios` is not recomputed, so
the filter with `t = 1` then reads the ratio 1 for these hidden series, not
the sentinel, and makes them visible again. -/
theorem highlight_shows_hidden_series :
    (runActions (initialWindow scenarioRange)
        [Action.load (some scenarioRange) scenarioFiles, Action.calculateAverage,
         Action.highlight 50]).map
      (fun w => (w.loadedCSVLS.map (fun fileInfo => fileInfo.visible), w.distanceRatios))
      = some ([false, true, false], [Dbl.val 1, Dbl.val 0, Dbl.val 1]) ∧
    (runActions (initialWindow scenarioRange)
        [Action.load (some scenarioRange) scenarioFiles, Action.calculateAverage,
         Action.highlight 50, Action.highlight 100]).map
      (fun w => (w.loadedCSVLS.map (fun fileInfo => fileInfo.visible), w.distanceRatios))
      = some ([true, true, true], [Dbl.val 1, Dbl.val 0, Dbl.val 1]) := by
  have h1 := runActions_append _ [Action.highlight 50] _ _ scenario_load_then_average
  have h2 := runActions_append _ [Action.highlight 50, Action.highlight 100] _ _
    scenario_load_then_average
  simp only [List.cons_append, List.nil_append] at h1 h2
  rw [h1, h2]
  simp only [runActions, perform, scenarioAveraged_highlight_50]
  constructor
  · simp [scenarioAveraged]
  · norm_num [on_btn_HighlightGraphs_clicked, isAverageGraph, highlightLS,
      highlightGraphs, Dbl.le, scenarioAveraged]

/-- C15 (amended): right after calculate-average, the ratios the filter reads
are those of the current visibility state, and the filter with a threshold
`value / 100` of at most 1 leaves every invisible series of the selected kind
invisible. -/
theorem highlight_after_average_keeps_hidden (w0 w w2 : MainWindow) (value : ℚ)
    (havg : on_btn_avg_clicked w0 = some w) (hvalue : value ≤ 100)
    (hrun : on_btn_HighlightGraphs_clicked w value = some w2) :
    ∀ i s, (seriesOfKind w.loadedCSVLS w.loadedCSVRS w.radioButton_Ls).get? i = some s →
      s.visible = false →
      ∃ s2, (seriesOfKind w2.loadedCSVLS w2.loadedCSVRS w2.radioButton_Ls).get? i
          = some s2 ∧ s2.visible = false := by
  intro i s hs hv
  obtain ⟨h1, h2, _, h4⟩ := on_btn_avg_clicked_frame w0 w havg
  rcases h4 with hempty | ⟨_, hfresh⟩
  · have hsame : w2 = w := by
      unfold on_btn_HighlightGraphs_clicked at hrun
      rw [h1, h2, hempty.1, hempty.2] at hrun
      simpa using hrun.symm
    rw [hsame]
    exact ⟨s, hs, hv⟩
  · exact highlight_fresh_keeps_hidden w w2 value hfresh hvalue hrun i s hs hv

/-- Witness of C14: the filter at 50 % on the averaged scenario. -/
theorem highlight_sets_visibility_witness :
    ∃ w2, on_btn_HighlightGraphs_clicked scenarioAveraged 50 = some w2 ∧
      (seriesOfKind w2.loadedCSVLS w2.loadedCSVRS scenarioAveraged.radioButton_Ls).length
        = (seriesOfKind scenarioAveraged.loadedCSVLS scenarioAveraged.loadedCSVRS
            scenarioAveraged.radioButton_Ls).length ∧
      ∀ i s2, (seriesOfKind w2.loadedCSVLS w2.loadedCSVRS
          scenarioAveraged.radioButton_Ls).get? i = some s2 →
        ∃ ratio, scenarioAveraged.distanceRatios.get? i = some ratio ∧
          s2.visible = ratio.le (50 / 100) ∧
          ∀ q, ratio = Dbl.val q → (s2.visible = true ↔ q ≤ 50 / 100) :=
  highlight_sets_visibility scenarioAveraged 50
    (by simp [scenarioAveraged])
    rfl
    ⟨⟨"Average LS", true, [⟨10, 2⟩, ⟨20, 2⟩, ⟨30, 2⟩]⟩, by simp [scenarioAveraged],
      by decide⟩
    (by simp [scenarioAveraged, seriesOfKind, scenarioLS])

theorem scenarioHidden_average :
    on_btn_avg_clicked { scenarioAveraged with loadedCSVLS := scenarioHiddenLS }
      = some scenarioHiddenAveraged := by
  norm_num [on_btn_avg_clicked, calculateAverageValues, averageOfSeries, sumSeries,
    addValues, lsSeries, rsSeries, addAverageGraph, MainWindow.calculateDistanceRatios,
    calculateDistanceRatios, distanceRatiosOfSeries, maxDistanceRatioLoop,
    distanceRatiosLoop, averageDifference, sumDifferences, Dbl.div, setData,
    isAverageGraph, List.eraseP, List.insertionSort, List.orderedInsert,
    scenarioAveraged, scenarioHiddenAveraged, scenarioHiddenLS,
    scenario_names_not_average.2.2.2]

theorem scenarioHidden_filter :
    on_btn_HighlightGraphs_clicked scenarioHiddenAveraged 100
      = some scenarioHiddenFiltered := by
  norm_num [on_btn_HighlightGraphs_clicked, isAverageGraph, highlightLS, highlightGraphs,
    Dbl.le, sentinelRatio, scenarioAveraged, scenarioHiddenAveraged,
    scenarioHiddenFiltered, scenarioHiddenLS]

/-- Witness of the amended C15: in the averaged scenario the second series is
hidden, the average is calculated again and the filter is applied at 100 %;
the second series stays hidden. -/
theorem highlight_after_average_keeps_hidden_witness :
    ∃ s2, (seriesOfKind scenarioHiddenFiltered.loadedCSVLS
        scenarioHiddenFiltered.loadedCSVRS scenarioHiddenFiltered.radioButton_Ls).get? 1
        = some s2 ∧ s2.visible = false :=
  highlight_after_average_keeps_hidden
    { scenarioAveraged with loadedCSVLS := scenarioHiddenLS }
    scenarioHiddenAveraged scenarioHiddenFiltered 100
    scenarioHidden_average (by norm_num) scenarioHidden_filter 1
    (lsSeries ⟨"b", [2, 2, 2], [], [], [10, 20, 30], false⟩) rfl rfl

/-! ## Lemmas: the alignment invariant -/

theorem seriesAligned_of_data (w w2 : MainWindow)
    (hls : w2.loadedCSVLS.map lsData = w.loadedCSVLS.map lsData)
    (hrs : w2.loadedCSVRS.map rsData = w.loadedCSVRS.map rsData)
    (h : SeriesAligned w) : SeriesAligned w2 := by
  constructor
  · intro f2 hf2
    have hm : lsData f2 ∈ w.loadedCSVLS.map lsData := by
      rw [← hls]
      exact List.mem_map_of_mem _ hf2
    obtain ⟨f, hf, he⟩ := List.mem_map.mp hm
    have := h.1 f hf
    simp only [lsData, Prod.mk.injEq] at he
    rw [← he.1, ← he.2]
    exact this
  · intro f2 hf2
    have hm : rsData f2 ∈ w.loadedCSVRS.map rsData := by
      rw [← hrs]
      exact List.mem_map_of_mem _ hf2
    obtain ⟨f, hf, he⟩ := List.mem_map.mp hm
    have := h.2 f hf
    simp only [rsData, Prod.mk.injEq] at he
    rw [← he.1, ← he.2]
    exact this

theorem setVisibleLS_data : ∀ (loaded : List CSVInfo) (i : Nat) (b : Bool),
    (setVisibleLS loaded i b).map lsData = loaded.map lsData
  | [], _, _ => rfl
  | _ :: _, 0, _ => rfl
  | f :: rest, i + 1, b => by
    simp [setVisibleLS, setVisibleLS_data rest i b]

theorem setVisibleRS_data : ∀ (loaded : List CSVInfo2) (i : Nat) (b : Bool),
    (setVisibleRS loaded i b).map rsData = loaded.map rsData
  | [], _, _ => rfl
  | _ :: _, 0, _ => rfl
  | f :: rest, i + 1, b => by
    simp [setVisibleRS, setVisibleRS_data rest i b]

theorem highlightLS_data (t : ℚ) : ∀ (ratios : List Dbl) (loaded out : List CSVInfo),
    highlightLS t ratios loaded = some out → out.map lsData = loaded.map lsData
  | _, [], out, h => by
    simp only [highlightLS, Option.some.injEq] at h
    subst h
    rfl
  | [], _ :: _, _, h => by simp [highlightLS] at h
  | ratio :: ratios, fileInfo :: rest, out, h => by
    simp only [highlightLS, Option.map_eq_some'] at h
    obtain ⟨r, hr, rfl⟩ := h
    simp [highlightLS_data t ratios rest r hr, lsData]

theorem highlightRS_data (t : ℚ) : ∀ (ratios : List Dbl) (loaded out : List CSVInfo2),
    highlightRS t ratios loaded = some out → out.map rsData = loaded.map rsData
  | _, [], out, h => by
    simp only [highlightRS, Option.some.injEq] at h
    subst h
    rfl
  | [], _ :: _, _, h => by simp [highlightRS] at h
  | ratio :: ratios, fileInfo :: rest, out, h => by
    simp only [highlightRS, Option.map_eq_some'] at h
    obtain ⟨r, hr, rfl⟩ := h
    simp [highlightRS_data t ratios rest r hr, rsData]

theorem highlight_data (w w2 : MainWindow) (value : ℚ)
    (h : on_btn_HighlightGraphs_clicked w value = some w2) :
    w2.loadedCSVLS.map lsData = w.loadedCSVLS.map lsData ∧
    w2.loadedCSVRS.map rsData = w.loadedCSVRS.map rsData := by
  unfold on_btn_HighlightGraphs_clicked at h
  split at h
  · cases h; exact ⟨rfl, rfl⟩
  · split at h
    · cases h; exact ⟨rfl, rfl⟩
    · split at h
      · cases h; exact ⟨rfl, rfl⟩
      · simp only at h
        split at h
        · simp only [Option.map_eq_some'] at h
          obtain ⟨loaded, hl, rfl⟩ := h
          exact ⟨highlightLS_data _ _ _ _ hl, rfl⟩
        · simp only [Option.map_eq_some'] at h
          obtain ⟨loaded, hl, rfl⟩ := h
          exact ⟨rfl, highlightRS_data _ _ _ _ hl⟩

theorem hideSelectedGraph_data (w : MainWindow) (selected : Nat → Bool) :
    (hideSelectedGraph w selected).loadedCSVLS.map lsData = w.loadedCSVLS.map lsData ∧
    (hideSelectedGraph w selected).loadedCSVRS.map rsData = w.loadedCSVRS.map rsData := by
  unfold hideSelectedGraph
  generalize List.range w.graphs.length = indices
  induction indices generalizing w with
  | nil => exact ⟨rfl, rfl⟩
  | cons i rest ih =>
    simp only [List.foldl_cons]
    by_cases hsel : selected i = true
    · simp only [hsel, if_true]
      obtain ⟨h1, h2⟩ := ih
        { w with
          graphs := setGraphVisible w.graphs i false,
          loadedCSVLS :=
            if w.radioButton_Ls then setVisibleLS w.loadedCSVLS i false
            else w.loadedCSVLS,
          loadedCSVRS :=
            if w.radioButton_Ls then w.loadedCSVRS
            else setVisibleRS w.loadedCSVRS i false }
      rw [h1, h2]
      by_cases hr : w.radioButton_Ls = true
      · simp [hr, setVisibleLS_data]
      · simp [hr, setVisibleRS_data]
    · simp only [hsel, Bool.false_eq_true, if_false]
      exact ih w

theorem readLine_aligned (w : MainWindow) (cols cols1 : Columns) (data : List Field)
    (hc : ColumnsAligned cols) (h : readLine w cols data = some cols1) :
    ColumnsAligned cols1 := by
  unfold readLine at h
  split at h
  · simp only at h
    split at h
    · simp only [Option.some.injEq] at h
      subst h
      unfold ColumnsAligned at hc ⊢
      split <;> split <;> simp [hc.1, hc.2]
    · cases h
  · cases h

theorem readLines_aligned (w : MainWindow) :
    ∀ (lines : List (List Field)) (cols cols1 : Columns),
      ColumnsAligned cols → readLines w lines cols = some cols1 → ColumnsAligned cols1
  | [], cols, cols1, hc, h => by
    simp only [readLines, Option.some.injEq] at h
    subst h
    exact hc
  | data :: rest, cols, cols1, hc, h => by
    simp only [readLines] at h
    split at h
    · cases h
    · rename_i cols2 hline
      exact readLines_aligned w rest cols2 cols1 (readLine_aligned w cols cols2 data hc hline) h

theorem readFile_aligned (w : MainWindow) (file : CsvFile) (e : CSVInfo × CSVInfo2)
    (h : readFile w file = some e) :
    e.1.frequenciesLs.length = e.1.lsValues.length ∧
    e.2.frequenciesRs.length = e.2.rsValues.length := by
  unfold readFile at h
  split at h
  · cases h
  · rename_i lines _
    split at h
    · cases h
    · rename_i cols hcols
      simp only [Option.some.injEq] at h
      subst h
      exact readLines_aligned w lines ⟨[], [], [], []⟩ cols ⟨rfl, rfl⟩ hcols

theorem loadFiles_aligned (w : MainWindow) (files : List CsvFile) (h : SeriesAligned w) :
    SeriesAligned (loadFiles w files).1 := by
  obtain ⟨entries, _, hmem, hstate, _, _⟩ := loadFiles_spec w files w ⟨rfl, rfl, rfl, rfl⟩
  rw [hstate]
  constructor
  · intro f hf
    simp only [List.mem_append, List.mem_map] at hf
    rcases hf with hf | ⟨e, he, rfl⟩
    · exact h.1 f hf
    · obtain ⟨file, _, hread⟩ := hmem e he
      exact (readFile_aligned w file e hread).1
  · intro f hf
    simp only [List.mem_append, List.mem_map] at hf
    rcases hf with hf | ⟨e, he, rfl⟩
    · exact h.2 f hf
    · obtain ⟨file, _, hread⟩ := hmem e he
      exact (readFile_aligned w file e hread).2

theorem on_radioButton_Ls_clicked_aligned (w : MainWindow) (h : SeriesAligned w) :
    SeriesAligned (on_radioButton_Ls_clicked w) :=
  seriesAligned_of_data w _
    (by simp [on_radioButton_Ls_clicked, lsData, Function.comp_def]) rfl h

theorem on_radioButton_Rs_clicked_aligned (w : MainWindow) (h : SeriesAligned w) :
    SeriesAligned (on_radioButton_Rs_clicked w) :=
  seriesAligned_of_data w _ rfl
    (by simp [on_radioButton_Rs_clicked, rsData, Function.comp_def]) h

theorem clearEverything_aligned (w : MainWindow) : SeriesAligned (clearEverything w) :=
  ⟨fun _ hf => by simp [clearEverything] at hf, fun _ hf => by simp [clearEverything] at hf⟩

theorem on_btn_load_plot_clicked_aligned (w : MainWindow)
    (settings : Option FrequencyRange) (files : List CsvFile) :
    SeriesAligned (on_btn_load_plot_clicked w settings files) := by
  cases settings with
  | none => exact clearEverything_aligned w
  | some range =>
    have hload := loadFiles_aligned (withRange (clearEverything w) range) files
      ⟨fun _ hf => by simp [withRange, clearEverything] at hf,
       fun _ hf => by simp [withRange, clearEverything] at hf⟩
    show SeriesAligned
      (match loadFiles (withRange (clearEverything w) range) files with
      | (w2, false) => w2
      | (w2, true) =>
        if w2.radioButton_Ls then on_radioButton_Ls_clicked w2
        else on_radioButton_Rs_clicked w2)
    cases hres : loadFiles (withRange (clearEverything w) range) files with
    | mk w2 flag =>
      rw [hres] at hload
      cases flag with
      | false => exact hload
      | true =>
        simp only
        split
        · exact on_radioButton_Ls_clicked_aligned w2 hload
        · exact on_radioButton_Rs_clicked_aligned w2 hload

theorem hideUnselectedGraphs_data (w : MainWindow) (selected : Nat → Bool) :
    (hideUnselectedGraphs w selected).loadedCSVLS.map lsData = w.loadedCSVLS.map lsData ∧
    (hideUnselectedGraphs w selected).loadedCSVRS.map rsData
      = w.loadedCSVRS.map rsData := by
  unfold hideUnselectedGraphs
  generalize List.range w.graphs.length = indices
  induction indices generalizing w with
  | nil => exact ⟨rfl, rfl⟩
  | cons i rest ih =>
    simp only [List.foldl_cons]
    by_cases hsel : selected i = true
    · simp only [hsel, Bool.not_true, Bool.false_eq_true, if_false]
      exact ih w
    · simp only [hsel, Bool.not_false, if_true]
      obtain ⟨h1, h2⟩ := ih
        { w with
          graphs := setGraphVisible w.graphs i false,
          loadedCSVLS :=
            if w.radioButton_Ls then setVisibleLS w.loadedCSVLS i false
            else w.loadedCSVLS,
          loadedCSVRS :=
            if w.radioButton_Ls then w.loadedCSVRS
            else setVisibleRS w.loadedCSVRS i false }
      rw [h1, h2]
      by_cases hr : w.radioButton_Ls = true
      · simp [hr, setVisibleLS_data]
      · simp [hr, setVisibleRS_data]

theorem syncVisibleLS_data : ∀ (graphs : List QCPGraph) (loaded : List CSVInfo),
    (syncVisibleLS graphs loaded).map lsData = loaded.map lsData
  | [], _ => by simp [syncVisibleLS]
  | _ :: _, [] => by simp [syncVisibleLS]
  | graph :: graphs, fileInfo :: rest => by
    simp [syncVisibleLS, syncVisibleLS_data graphs rest, lsData]

theorem syncVisibleRS_data : ∀ (graphs : List QCPGraph) (loaded : List CSVInfo2),
    (syncVisibleRS graphs loaded).map rsData = loaded.map rsData
  | [], _ => by simp [syncVisibleRS]
  | _ :: _, [] => by simp [syncVisibleRS]
  | graph :: graphs, fileInfo :: rest => by
    simp [syncVisibleRS, syncVisibleRS_data graphs rest, rsData]

/-- What `onGraphVisibilityChanged` leaves untouched: the data and the number
of the entries, the mode, the `avg` flag and the stored ratios. -/
theorem onGraphVisibilityChanged_frame (w w2 : MainWindow) (graph : Option Nat)
    (checked averageAction : Bool)
    (h : onGraphVisibilityChanged w graph checked averageAction = some w2) :
    w2.loadedCSVLS.map lsData = w.loadedCSVLS.map lsData ∧
    w2.loadedCSVRS.map rsData = w.loadedCSVRS.map rsData ∧
    w2.radioButton_Ls = w.radioButton_Ls ∧ w2.avg = w.avg ∧
    w2.distanceRatios = w.distanceRatios := by
  unfold onGraphVisibilityChanged at h
  simp only [Option.map_eq_some'] at h
  obtain ⟨w1, hw1, rfl⟩ := h
  have hframe : w1.loadedCSVLS = w.loadedCSVLS ∧ w1.loadedCSVRS = w.loadedCSVRS ∧
      w1.radioButton_Ls = w.radioButton_Ls ∧ w1.avg = w.avg ∧
      w1.distanceRatios = w.distanceRatios := by
    split at hw1
    · split at hw1
      · cases hw1
      · exact addAverageGraph_frame _ _ _ _ hw1
    · split at hw1
      · cases hw1
        exact ⟨rfl, rfl, rfl, rfl, rfl⟩
      · cases hw1
        exact ⟨rfl, rfl, rfl, rfl, rfl⟩
  obtain ⟨f1, f2, f3, f4, f5⟩ := hframe
  split
  · exact ⟨by simp only [syncVisibleLS_data, f1], by rw [f2], f3, f4, f5⟩
  · exact ⟨by rw [f1], by simp only [syncVisibleRS_data, f2], f3, f4, f5⟩

theorem perform_aligned (w w2 : MainWindow) (a : Action) (h : SeriesAligned w)
    (hp : perform w a = some w2) : SeriesAligned w2 := by
  cases a with
  | load settings files =>
    simp only [perform, Option.some.injEq] at hp
    subst hp
    exact on_btn_load_plot_clicked_aligned w settings files
  | clear =>
    simp only [perform, Option.some.injEq] at hp
    subst hp
    exact clearEverything_aligned w
  | calculateAverage =>
    obtain ⟨h1, h2, _, _⟩ := on_btn_avg_clicked_frame w w2 hp
    exact seriesAligned_of_data w w2 (by rw [h1]) (by rw [h2]) h
  | hideSelected selected =>
    simp only [perform, Option.some.injEq] at hp
    subst hp
    exact seriesAligned_of_data w _ (hideSelectedGraph_data w selected).1
      (hideSelectedGraph_data w selected).2 h
  | hideUnselected selected =>
    simp only [perform, Option.some.injEq] at hp
    subst hp
    exact seriesAligned_of_data w _ (hideUnselectedGraphs_data w selected).1
      (hideUnselectedGraphs_data w selected).2 h
  | toggleGraph graph checked averageAction =>
    obtain ⟨h1, h2, _⟩ := onGraphVisibilityChanged_frame w w2 graph checked
      averageAction hp
    exact seriesAligned_of_data w w2 h1 h2 h
  | highlight value =>
    obtain ⟨h1, h2⟩ := highlight_data w w2 value hp
    exact seriesAligned_of_data w w2 h1 h2 h
  | selectLs =>
    simp only [perform, Option.some.injEq] at hp
    subst hp
    exact on_radioButton_Ls_clicked_aligned _ h
  | selectRs =>
    simp only [perform, Option.some.injEq] at hp
    subst hp
    exact on_radioButton_Rs_clicked_aligned _ h

theorem runActions_aligned : ∀ (actions : List Action) (w w2 : MainWindow),
    SeriesAligned w → runActions w actions = some w2 → SeriesAligned w2
  | [], w, w2, h, hr => by
    simp only [runActions, Option.some.injEq] at hr
    subst hr
    exact h
  | a :: rest, w, w2, h, hr => by
    simp only [runActions] at hr
    split at hr
    · cases hr
    · rename_i w1 hp
      exact runActions_aligned rest w1 w2 (perform_aligned w w1 a h hp) hr

/-! ## Claims about the store invariant -/

/-- C17: in every state reached from the initial window by a sequence of
actions (loads and clears, and also calculate-average, visibility toggles,
filtering and mode switches), every Ls entry has as many frequencies as Ls values and every
Rs entry as many frequencies as Rs values. -/
theorem store_series_aligned (range : FrequencyRange) (actions : List Action)
    (w : MainWindow) (hrun : runActions (initialWindow range) actions = some w) :
    (∀ fileInfo ∈ w.loadedCSVLS,
        fileInfo.frequenciesLs.length = fileInfo.lsValues.length) ∧
    (∀ fileInfo2RS ∈ w.loadedCSVRS,
        fileInfo2RS.frequenciesRs.length = fileInfo2RS.rsValues.length) :=
  runActions_aligned actions (initialWindow range) w
    ⟨fun _ hf => by simp [initialWindow] at hf, fun _ hf => by simp [initialWindow] at hf⟩
    hrun

/-- Witness of C17: a load of the scenario files, a clear, and a load of a
batch whose second file is rejected. -/
theorem store_series_aligned_witness :
    (∀ fileInfo ∈ (on_btn_load_plot_clicked
          (clearEverything (on_btn_load_plot_clicked (initialWindow scenarioRange)
            (some scenarioRange) scenarioFiles))
          (some scenarioRange) [textFrequencyFile, shortLineFile]).loadedCSVLS,
        fileInfo.frequenciesLs.length = fileInfo.lsValues.length) ∧
    (∀ fileInfo2RS ∈ (on_btn_load_plot_clicked
          (clearEverything (on_btn_load_plot_clicked (initialWindow scenarioRange)
            (some scenarioRange) scenarioFiles))
          (some scenarioRange) [textFrequencyFile, shortLineFile]).loadedCSVRS,
        fileInfo2RS.frequenciesRs.length = fileInfo2RS.rsValues.length) :=
  store_series_aligned scenarioRange
    [Action.load (some scenarioRange) scenarioFiles, Action.clear,
     Action.load (some scenarioRange) [textFrequencyFile, shortLineFile]]
    _ rfl

/-! ## Claims about convertFrequency and the settings dialog -/

/-- C27: `convertFrequency` shows a negative frequency as 0 Hz, a frequency
below 1,000 unscaled in Hz, one from 1,000 to below 1,000,000 divided by 1,000
in kHz, and any other one divided by 1,000,000 in MHz: the MHz branch, though
tested with `>= 100000`, is reached exactly for `f ≥ 1,000,000`, the kHz
branch being taken in the overlap. -/
theorem convertFrequency_bands (f : ℚ) :
    convertFrequency f =
      (if f < 0 then (0, " Hz")
       else if f < 1000 then (f, " Hz")
       else if f < 1000000 then (f / 1000, " kHz")
       else (f / 1000000, " MHz")) ∧
    ((convertFrequency f).2 = " MHz" ↔ 1000000 ≤ f) ∧
    ((convertFrequency f).2 = " kHz" ↔ (1000 ≤ f ∧ f < 1000000)) := by
  have hne1 : (" Hz" : String) ≠ " MHz" := by decide
  have hne2 : (" kHz" : String) ≠ " MHz" := by decide
  have hne3 : (" Hz" : String) ≠ " kHz" := by decide
  have hne4 : (" MHz" : String) ≠ " kHz" := by decide
  unfold convertFrequency
  by_cases h0 : f < 0
  · have a1 : ¬ (f ≥ 1000 ∧ f < 1000000) := fun h => by linarith [h.1]
    have a2 : ¬ (f ≥ 100000) := fun h => by linarith
    have a3 : ¬ (f ≥ 0 ∧ f < 1000) := fun h => by linarith [h.1]
    have a4 : ¬ (1000000 ≤ f) := fun h => by linarith
    have a5 : ¬ (1000 ≤ f ∧ f < 1000000) := fun h => by linarith [h.1]
    simp [h0, a1, a2, a3, a4, a5, hne1, hne3]
  · have h0' : 0 ≤ f := not_lt.mp h0
    by_cases h1 : f < 1000
    · have a4 : ¬ (1000000 ≤ f) := fun h => by linarith
      have a5 : ¬ (1000 ≤ f ∧ f < 1000000) := fun h => by linarith [h.1]
      simp [h0, h0', h1, a4, a5, hne1, hne3]
    · have h1' : 1000 ≤ f := not_lt.mp h1
      by_cases h2 : f < 1000000
      · have a3 : ¬ (f ≥ 0 ∧ f < 1000) := fun h => h1 h.2
        have a4 : ¬ (1000000 ≤ f) := fun h => by linarith
        simp [h0, h1, h1', h2, a3, a4, hne2]
      · have h2' : 1000000 ≤ f := not_lt.mp h2
        have a3 : ¬ (f ≥ 0 ∧ f < 1000) := fun h => h1 h.2
        have a1 : ¬ (f ≥ 1000 ∧ f < 1000000) := fun h => h2 h.2
        have a2 : f ≥ 100000 := by linarith
        have a5 : ¬ (1000 ≤ f ∧ f < 1000000) := fun h => h2 h.2
        simp [h0, h1, h2, h2', a1, a2, a3, a5, hne4]

theorem setting_exec_invalid (d : setting) (hd : d.accepted = false) :
    ∀ (clicks : List (Field × Field × Field × Field)),
      (∀ c ∈ clicks, c.2.1.toDouble.1 ≤ c.1.toDouble.1
        ∨ c.2.2.2.toDouble.1 ≤ c.2.2.1.toDouble.1) →
      d.exec clicks = d
  | [], _ => rfl
  | c :: rest, h => by
    have hc := h c (List.mem_cons_self _ _)
    have hsend : d.on_btn_send_clicked c.1 c.2.1 c.2.2.1 c.2.2.2 = d := by
      simp only [setting.on_btn_send_clicked]
      rw [if_pos hc]
    simp only [setting.exec, hsend, hd]
    exact setting_exec_invalid d hd rest (fun c2 hc2 => h c2 (List.mem_cons_of_mem _ hc2))

/-- C25: a click on the send button of a dialog not yet accepted accepts it if
and only if `maxLS > minLS` and `maxRS > minRS`; with `max ≤ min` on either
axis the dialog is left as it was, not accepted and its stored values
unchanged, and when every click is of that kind
`on_actionsettings_triggered` leaves the `frequency_range` row as it is. -/
theorem settings_rejects_invalid_range (d : setting) (hd : d.accepted = false)
    (minLs maxLs minRs maxRs : Field) :
    ((d.on_btn_send_clicked minLs maxLs minRs maxRs).accepted = true ↔
      (maxLs.toDouble.1 > minLs.toDouble.1 ∧ maxRs.toDouble.1 > minRs.toDouble.1)) ∧
    ((maxLs.toDouble.1 ≤ minLs.toDouble.1 ∨ maxRs.toDouble.1 ≤ minRs.toDouble.1) →
      d.on_btn_send_clicked minLs maxLs minRs maxRs = d) ∧
    (∀ (row : Option FrequencyRange) (clicks : List (Field × Field × Field × Field)),
      (∀ c ∈ clicks, c.2.1.toDouble.1 ≤ c.1.toDouble.1
        ∨ c.2.2.2.toDouble.1 ≤ c.2.2.1.toDouble.1) →
      on_actionsettings_triggered row d clicks = row) := by
  refine ⟨?_, ?_, ?_⟩
  · simp only [setting.on_btn_send_clicked]
    by_cases h : maxLs.toDouble.1 ≤ minLs.toDouble.1 ∨ maxRs.toDouble.1 ≤ minRs.toDouble.1
    · rw [if_pos h]
      simp only [hd, Bool.false_eq_true, false_iff, not_and, not_lt, gt_iff_lt]
      intro h1
      rcases h with h | h
      · exact absurd h1 (not_lt.mpr h)
      · exact h
    · rw [if_neg h]
      simp only [not_or, not_le] at h
      simp [h.1, h.2]
  · intro h
    simp only [setting.on_btn_send_clicked]
    rw [if_pos h]
  · intro row clicks h
    simp [on_actionsettings_triggered, setting_exec_invalid d hd clicks h, hd]

/-- Witness of C25: the range 5..2 on the Ls axis is refused. -/
theorem settings_rejects_invalid_range_witness :
    (((⟨0, 0, 0, 0, false⟩ : setting).on_btn_send_clicked (Field.number 5)
        (Field.number 2) (Field.number 1) (Field.number 3)).accepted = true ↔
      ((Field.number 2).toDouble.1 > (Field.number 5).toDouble.1
        ∧ (Field.number 3).toDouble.1 > (Field.number 1).toDouble.1)) ∧
    (((Field.number 2).toDouble.1 ≤ (Field.number 5).toDouble.1
        ∨ (Field.number 3).toDouble.1 ≤ (Field.number 1).toDouble.1) →
      (⟨0, 0, 0, 0, false⟩ : setting).on_btn_send_clicked (Field.number 5)
        (Field.number 2) (Field.number 1) (Field.number 3) = ⟨0, 0, 0, 0, false⟩) ∧
    (∀ (row : Option FrequencyRange) (clicks : List (Field × Field × Field × Field)),
      (∀ c ∈ clicks, c.2.1.toDouble.1 ≤ c.1.toDouble.1
        ∨ c.2.2.2.toDouble.1 ≤ c.2.2.1.toDouble.1) →
      on_actionsettings_triggered row ⟨0, 0, 0, 0, false⟩ clicks = row) :=
  settings_rejects_invalid_range ⟨0, 0, 0, 0, false⟩ rfl (Field.number 5) (Field.number 2)
    (Field.number 1) (Field.number 3)

/-! ## The tie-break of findNearestDataPoint -/

theorem nearestLoop_between (data : List QCPGraphData) (x : ℚ)
    (hs : (data.map QCPGraphData.key).Sorted (· ≤ ·)) (p : Nat)
    (hp0 : 0 < p) (hp : p < data.length)
    (hlow : keyD data (p - 1) < x) (hhigh : x < keyD data p) :
    ∀ (fuel lo hi1 : Nat), lo ≤ p → p ≤ hi1 → hi1 ≤ data.length → hi1 - lo + 1 ≤ fuel →
      nearestLoop data x fuel (lo : Int) ((hi1 : Int) - 1)
        = nearestAfterLoop data x (p : Int) ((p : Int) - 1) := by
  intro fuel
  induction fuel with
  | zero => intro lo hi1 _ _ _ hf; omega
  | succ fuel ih =>
    intro lo hi1 hlo hhi hn hf
    rw [nearestLoop]
    by_cases hc : (lo : Int) ≤ (hi1 : Int) - 1
    · rw [if_pos hc]
      have hnn : (0 : Int) ≤ (lo : Int) + ((hi1 : Int) - 1) := by omega
      have hmid : Int.tdiv ((lo : Int) + ((hi1 : Int) - 1)) 2
          = (((lo + hi1 - 1) / 2 : Nat) : Int) := by
        rw [Int.tdiv_eq_ediv hnn (by norm_num)]
        omega
      simp only [hmid]
      have hmlt : (lo + hi1 - 1) / 2 < data.length := by omega
      rw [keyAt_natCast data _ hmlt]
      simp only
      have hbelow : (lo + hi1 - 1) / 2 ≤ p - 1 → keyD data ((lo + hi1 - 1) / 2) < x :=
        fun h => lt_of_le_of_lt (keyD_mono data hs _ _ h (by omega)) hlow
      have habove : p ≤ (lo + hi1 - 1) / 2 → x < keyD data ((lo + hi1 - 1) / 2) :=
        fun h => lt_of_lt_of_le hhigh (keyD_mono data hs _ _ h hmlt)
      by_cases hx1 : x < keyD data ((lo + hi1 - 1) / 2)
      · rw [if_pos hx1]
        have hge : p ≤ (lo + hi1 - 1) / 2 := by
          by_contra hcon
          have := hbelow (by omega)
          linarith
        have h := ih lo ((lo + hi1 - 1) / 2) hlo hge (by omega) (by omega)
        exact h
      · rw [if_neg hx1]
        have hle : (lo + hi1 - 1) / 2 ≤ p - 1 := by
          by_contra hcon
          exact hx1 (habove (by omega))
        have hx2 : x > keyD data ((lo + hi1 - 1) / 2) := hbelow hle
        rw [if_pos hx2]
        have h := ih ((lo + hi1 - 1) / 2 + 1) hi1 (by omega) hhi hn (by omega)
        have hcast : (((lo + hi1 - 1) / 2 : Nat) : Int) + 1
            = (((lo + hi1 - 1) / 2 + 1 : Nat) : Int) := by push_cast; rfl
        rw [hcast]
        exact h
    · rw [if_neg hc]
      have h1 : lo = p := by omega
      have h2 : hi1 = p := by omega
      subst h1
      subst h2
      rfl

/-- C30: for a container with non-decreasing keys and a target strictly
between the keys at two adjacent indices `i` and `i + 1` and equally far from
both, `findNearestDataPoint` returns `i + 1`, the higher of the two
indices. -/
theorem findNearestDataPoint_tie_upper (data : List QCPGraphData) (xValue : ℚ) (i : Nat)
    (hsorted : (data.map QCPGraphData.key).Sorted (· ≤ ·))
    (hi : i + 1 < data.length)
    (hlow : keyD data i < xValue) (hhigh : xValue < keyD data (i + 1))
    (htie : xValue - keyD data i = keyD data (i + 1) - xValue) :
    findNearestDataPoint (some data) xValue = some ((i : Int) + 1) := by
  have h := nearestLoop_between data xValue hsorted (i + 1) (Nat.succ_pos _) hi
    (by simpa using hlow) hhigh (data.length + 1) 0 data.length (Nat.zero_le _)
    (by omega) le_rfl (by omega)
  simp only [findNearestDataPoint]
  rw [if_neg (by omega)]
  have h0 : ((0 : Nat) : Int) = 0 := rfl
  rw [h0] at h
  rw [h]
  unfold nearestAfterLoop
  have hc1 : ¬ (((i + 1 : Nat) : Int) - 1 < 0) := by omega
  have hc2 : ¬ (((i + 1 : Nat) : Int) ≥ (data.length : Int)) := by omega
  rw [if_neg hc1, if_neg hc2]
  have hc3 : ((i + 1 : Nat) : Int) - 1 = ((i : Nat) : Int) := by omega
  rw [hc3, keyAt_natCast data i (by omega), keyAt_natCast data (i + 1) hi]
  simp only
  have hnot : ¬ (|xValue - keyD data i| < |xValue - keyD data (i + 1)|) := by
    rw [abs_of_pos (by linarith), abs_of_neg (by linarith)]
    linarith
  rw [if_neg hnot]
  push_cast
  rfl

/-- Witness of C30: the keys 10, 20, 30 and the target 15, half way between
the keys at indices 0 and 1. -/
theorem findNearestDataPoint_tie_upper_witness :
    findNearestDataPoint (some [⟨10, 1⟩, ⟨20, 2⟩, ⟨30, 3⟩]) 15 = some (((0 : Nat) : Int) + 1) :=
  findNearestDataPoint_tie_upper [⟨10, 1⟩, ⟨20, 2⟩, ⟨30, 3⟩] 15 0
    (by norm_num [List.Sorted]) (by simp) (by norm_num [keyD]) (by norm_num [keyD])
    (by norm_num [keyD])

/-! ## Claims about compareFrequency -/

theorem scenario_load :
    runActions (initialWindow scenarioRange) [Action.load (some scenarioRange) scenarioFiles]
      = some scenarioLoaded := by
  norm_num [runActions, perform, on_btn_load_plot_clicked, scenarioFiles, scenarioRange,
    wellFormedFile, loadFiles, readFile, readLines, readLine, Field.toDouble,
    initialWindow, clearEverything, on_radioButton_Ls_clicked, setData,
    List.insertionSort, List.orderedInsert, scenarioLoaded, scenarioAveraged, scenarioLS]

/-- C23: when the plot has no graph named "Average LS" or "Average RS",
`compareFrequency` returns for every target frequency with the window as it
was: the recorded points and the two collections are unchanged. -/
theorem compareFrequency_no_average (w : MainWindow) (targetFrequency : ℚ)
    (hnone : ∀ graph ∈ w.graphs, isAverageGraph graph = false) :
    compareFrequency w targetFrequency = some w := by
  have hfind : w.graphs.find? isAverageGraph = none := by
    rw [List.find?_eq_none]
    intro g hg
    simp [hnone g hg]
  simp [compareFrequency, hfind]

/-- Witness of C23: the three scenario series are loaded and no average was
calculated. -/
theorem compareFrequency_no_average_witness :
    compareFrequency scenarioLoaded 20 = some scenarioLoaded :=
  compareFrequency_no_average scenarioLoaded 20 (by
    intro graph hg
    simp only [scenarioLoaded, List.mem_cons, List.mem_singleton, List.not_mem_nil,
      or_false] at hg
    rcases hg with rfl | rfl | rfl <;> decide)

/-! ## The precondition allSeriesSameLength -/

theorem includedSeries_subset (loaded : List Series) (onlyVisible : Bool) (s : Series)
    (h : s ∈ includedSeries loaded onlyVisible) : s ∈ loaded := by
  rw [includedSeries_eq_filter] at h
  exact (List.mem_filter.mp h).1

theorem sameLength_values_le (first : Series) (rest : List Series)
    (h : allSeriesSameLength (first :: rest)) :
    ∀ s ∈ first :: rest, s.values.length ≤ first.frequencies.length := by
  intro s hs
  rcases List.mem_cons.mp hs with hs | hs
  · rw [hs, h.1]
  · rw [h.1, h.2 s hs]

theorem sameLength_average (loaded : List Series) (h : allSeriesSameLength loaded)
    (onlyVisible : Bool) :
    ∃ avg, averageOfSeries loaded onlyVisible = some avg := by
  cases loaded with
  | nil => exact ⟨[], rfl⟩
  | cons first rest =>
    obtain ⟨avg, havg, _⟩ := averageOfSeries_spec first rest onlyVisible
      (fun s hs => sameLength_values_le first rest h s
        (includedSeries_subset _ _ s hs))
    exact ⟨avg, havg⟩

theorem sameLength_le_average (loaded : List Series) (h : allSeriesSameLength loaded)
    (avg : List ℚ) (havg : averageOfSeries loaded true = some avg) :
    ∀ s ∈ loaded, s.visible = true → s.values.length ≤ avg.length := by
  cases loaded with
  | nil => intro s hs; simp at hs
  | cons first rest =>
    intro s hs _
    rw [averageOfSeries_length first rest true avg havg]
    exact sameLength_values_le first rest h s hs

/-- C28: when every series of the collection has the sample count of the first
one (which holds as many frequencies as values, as every loaded series does),
`calculateAverageValues` returns an average for either value of
`onlyVisibleGraphs`, both loops of `calculateDistanceRatios` run to their end
on that average, and `calculateDistanceRatios` returns the ratios of a
non-empty collection, whatever the visibility flags. The precondition is
needed: on the collection `unequalLS`, whose second series is longer than the
first, `calculateAverageValues` and `calculateDistanceRatios` index the
accumulator out of range. -/
theorem sameLength_accesses_in_range (loadedCSVLS : List CSVInfo)
    (loadedCSVRS : List CSVInfo2) (useLsData : Bool)
    (hsame : allSeriesSameLength (seriesOfKind loadedCSVLS loadedCSVRS useLsData)) :
    (∀ onlyVisibleGraphs, ∃ averageValues,
      calculateAverageValues loadedCSVLS loadedCSVRS useLsData onlyVisibleGraphs
        = some averageValues) ∧
    (∀ averageValues,
      calculateAverageValues loadedCSVLS loadedCSVRS useLsData true = some averageValues →
      (∃ maxDistanceRatio, maxDistanceRatioLoop averageValues
          (seriesOfKind loadedCSVLS loadedCSVRS useLsData) 0 = some maxDistanceRatio) ∧
      (∀ maxDistanceRatio, ∃ ratios, distanceRatiosLoop averageValues maxDistanceRatio
          (seriesOfKind loadedCSVLS loadedCSVRS useLsData) = some ratios)) ∧
    (seriesOfKind loadedCSVLS loadedCSVRS useLsData ≠ [] →
      ∃ ratios, calculateDistanceRatios loadedCSVLS loadedCSVRS useLsData = some ratios) ∧
    (¬ allSeriesSameLength (seriesOfKind unequalLS [] true) ∧
      calculateAverageValues unequalLS [] true true = none ∧
      calculateAverageValues unequalLS [] true false = none ∧
      calculateDistanceRatios unequalLS [] true = none) := by
  refine ⟨?_, ?_, ?_, ?_⟩
  · intro onlyVisible
    rw [calculateAverageValues_eq]
    exact sameLength_average _ hsame onlyVisible
  · intro avg havg
    rw [calculateAverageValues_eq] at havg
    have hle := sameLength_le_average _ hsame avg havg
    exact ⟨⟨_, maxDistanceRatioLoop_spec avg _ 0 le_rfl hle⟩,
      fun m => ⟨_, distanceRatiosLoop_spec avg m
        (fun s => if s.visible then Dbl.div (meanAbsDev s.values avg) m else sentinelRatio)
        (fun _ => rfl) _ hle⟩⟩
  · intro hne
    obtain ⟨avg, havg⟩ := sameLength_average _ hsame true
    rw [calculateDistanceRatios_eq]
    exact ⟨_, distanceRatiosOfSeries_spec _ avg havg hne
      (sameLength_le_average _ hsame avg havg)⟩
  · refine ⟨?_, ?_, ?_, ?_⟩
    · simp [allSeriesSameLength, seriesOfKind, unequalLS, lsSeries]
    · simp [calculateAverageValues, averageOfSeries, sumSeries, addValues, unequalLS,
        lsSeries]
    · simp [calculateAverageValues, averageOfSeries, sumSeries, addValues, unequalLS,
        lsSeries]
    · simp [calculateDistanceRatios, distanceRatiosOfSeries, averageOfSeries, sumSeries,
        addValues, unequalLS, lsSeries]

/-- Witness of C28: the three series of the scenario, three samples each. -/
theorem sameLength_accesses_in_range_witness :
    allSeriesSameLength (seriesOfKind scenarioLS [] true) ∧
    (∃ averageValues, calculateAverageValues scenarioLS [] true true = some averageValues) ∧
    (∃ ratios, calculateDistanceRatios scenarioLS [] true = some ratios) :=
  have h : allSeriesSameLength (seriesOfKind scenarioLS [] true) := by
    simp [allSeriesSameLength, seriesOfKind, scenarioLS, lsSeries]
  ⟨h, (sameLength_accesses_in_range scenarioLS [] true h).1 true,
    (sameLength_accesses_in_range scenarioLS [] true h).2.2.1
      (by simp [seriesOfKind, scenarioLS])⟩

/-! ## Export of the average and its re-ingestion -/

theorem exportPairs_spec : ∀ (frequencies averageValues : List ℚ),
    frequencies.length ≤ averageValues.length →
    exportPairs frequencies averageValues = some (frequencies.zip averageValues)
  | [], _, _ => by simp [exportPairs]
  | _ :: _, [], h => by simp at h
  | f :: fs, a :: avg, h => by
    simp [exportPairs, exportPairs_spec fs avg (by simpa using h)]

theorem zipWith_ls_rows : ∀ (fs avg : List ℚ),
    (fs.zip avg).map (fun row => ((row.1, row.2, 0) : ℚ × ℚ × ℚ))
      = List.zipWith (fun f a => (f, a, 0)) fs avg
  | [], _ => by simp
  | _ :: _, [] => by simp
  | f :: fs, a :: avg => by simp [zipWith_ls_rows fs avg]

theorem zipWith_rs_rows : ∀ (fs avg : List ℚ),
    (fs.zip avg).map (fun row => ((row.1, 0, row.2) : ℚ × ℚ × ℚ))
      = List.zipWith (fun f a => (f, 0, a)) fs avg
  | [], _ => by simp
  | _ :: _, [] => by simp
  | f :: fs, a :: avg => by simp [zipWith_rs_rows fs avg]

theorem rowsInRange_all (lo hi : ℚ) (rows : List (ℚ × ℚ × ℚ))
    (h : ∀ row ∈ rows, lo ≤ row.1 ∧ row.1 ≤ hi) : rowsInRange lo hi rows = rows := by
  unfold rowsInRange
  rw [List.filter_eq_self]
  intro row hrow
  simpa using h row hrow

theorem zipWith_fst_mem {γ : Type} (g : ℚ → ℚ → γ) : ∀ (fs avg : List ℚ) (x : γ),
    x ∈ List.zipWith g fs avg → ∃ f ∈ fs, ∃ a ∈ avg, x = g f a
  | [], _, _, h => by simp at h
  | _ :: _, [], _, h => by simp at h
  | f :: fs, a :: avg, x, h => by
    simp only [List.zipWith_cons_cons, List.mem_cons] at h
    rcases h with h | h
    · exact ⟨f, List.mem_cons_self _ _, a, List.mem_cons_self _ _, h⟩
    · obtain ⟨f2, hf2, a2, ha2, hx⟩ := zipWith_fst_mem g fs avg x h
      exact ⟨f2, List.mem_cons_of_mem _ hf2, a2, List.mem_cons_of_mem _ ha2, hx⟩

theorem zipWith_map_left_eq {γ : Type} (g : ℚ → ℚ → γ) (p : γ → ℚ)
    (hp : ∀ f a, p (g f a) = f) : ∀ (fs avg : List ℚ), fs.length = avg.length →
    (List.zipWith g fs avg).map p = fs
  | [], _, _ => by simp
  | _ :: _, [], h => by simp at h
  | f :: fs, a :: avg, h => by
    simp [hp, zipWith_map_left_eq g p hp fs avg (by simpa using h)]

theorem zipWith_map_right_eq {γ : Type} (g : ℚ → ℚ → γ) (p : γ → ℚ)
    (hp : ∀ f a, p (g f a) = a) : ∀ (fs avg : List ℚ), fs.length = avg.length →
    (List.zipWith g fs avg).map p = avg
  | [], [], _ => by simp
  | [], _ :: _, h => by simp at h
  | _ :: _, [], h => by simp at h
  | f :: fs, a :: avg, h => by
    simp [hp, zipWith_map_right_eq g p hp fs avg (by simpa using h)]

/-- C26: when the export is made (the average graph is on the plot and the
average of the current mode is calculated), the rows written in Ls mode are
`(frequency_i, average_i, 0)` for every index `i` of the first Ls series, and
a reader whose Ls range covers every exported frequency reads from exactly
these rows an Ls entry with the frequencies of the first series and the
average as its values; in Rs mode the rows are `(frequency_i, 0, average_i)`
and the Rs entry read has the frequencies of the first Rs series and the
average as its values. -/
theorem export_reingest_roundtrip (w reader : MainWindow) (range : FrequencyRange)
    (baseName : String) (averageValues : List ℚ)
    (hgraph : w.graphs.any isAverageGraph = true)
    (havg : calculateAverageValues w.loadedCSVLS w.loadedCSVRS w.radioButton_Ls true
      = some averageValues) :
    (∀ first rest, w.radioButton_Ls = true → w.loadedCSVLS = first :: rest →
      (∀ f ∈ first.frequenciesLs, range.minFrequencyLS ≤ f ∧ f ≤ range.maxFrequencyLS) →
      on_btn_export_avg_clicked w
        = some (some (List.zipWith (fun f a => (f, a, 0)) first.frequenciesLs averageValues)) ∧
      (List.zipWith (fun f a => ((f, a, 0) : ℚ × ℚ × ℚ)) first.frequenciesLs
        averageValues).length = first.frequenciesLs.length ∧
      ∃ fileInfo fileInfo2RS,
        readFile (withRange reader range) (wellFormedFile baseName
          (List.zipWith (fun f a => (f, a, 0)) first.frequenciesLs averageValues))
          = some (fileInfo, fileInfo2RS) ∧
        fileInfo.frequenciesLs = first.frequenciesLs ∧
        fileInfo.lsValues = averageValues) ∧
    (∀ first rest, w.radioButton_Ls = false → w.loadedCSVRS = first :: rest →
      (∀ f ∈ first.frequenciesRs, range.minFrequencyRS ≤ f ∧ f ≤ range.maxFrequencyRS) →
      on_btn_export_avg_clicked w
        = some (some (List.zipWith (fun f a => (f, 0, a)) first.frequenciesRs averageValues)) ∧
      (List.zipWith (fun f a => ((f, 0, a) : ℚ × ℚ × ℚ)) first.frequenciesRs
        averageValues).length = first.frequenciesRs.length ∧
      ∃ fileInfo fileInfo2RS,
        readFile (withRange reader range) (wellFormedFile baseName
          (List.zipWith (fun f a => (f, 0, a)) first.frequenciesRs averageValues))
          = some (fileInfo, fileInfo2RS) ∧
        fileInfo2RS.frequenciesRs = first.frequenciesRs ∧
        fileInfo2RS.rsValues = averageValues) := by
  constructor
  · intro first rest hmode hstore hcover
    have hlen : averageValues.length = first.frequenciesLs.length := by
      rw [hmode, hstore] at havg
      simp only [calculateAverageValues, if_true, List.map_cons] at havg
      exact averageOfSeries_length (lsSeries first) (rest.map lsSeries) true _ havg
    refine ⟨?_, by simp [hlen], ?_⟩
    · have hne : (w.loadedCSVRS.isEmpty && w.loadedCSVLS.isEmpty) = false := by
        simp [hstore]
      have havg2 := havg
      rw [hmode, hstore] at havg2
      simp only [on_btn_export_avg_clicked, hne, hgraph, havg2, hmode, hstore,
        exportPairs_spec first.frequenciesLs averageValues (le_of_eq hlen.symm)]
      simp only [Bool.not_true, Bool.false_eq_true, if_false, if_true, Option.map_some',
        Option.some.injEq]
      rw [zipWith_ls_rows]
      simp
    · refine ⟨_, _, readFile_wellFormed (withRange reader range) range rfl rfl rfl rfl
        baseName _, ?_, ?_⟩
      · simp only [admittedLs]
        rw [rowsInRange_all]
        · exact zipWith_map_left_eq _ _ (fun _ _ => rfl) _ _ hlen.symm
        · intro row hrow
          obtain ⟨f, hf, a, _, rfl⟩ := zipWith_fst_mem _ _ _ row hrow
          exact hcover f hf
      · simp only [admittedLs]
        rw [rowsInRange_all]
        · exact zipWith_map_right_eq _ _ (fun _ _ => rfl) _ _ hlen.symm
        · intro row hrow
          obtain ⟨f, hf, a, _, rfl⟩ := zipWith_fst_mem _ _ _ row hrow
          exact hcover f hf
  · intro first rest hmode hstore hcover
    have hlen : averageValues.length = first.frequenciesRs.length := by
      rw [hmode, hstore] at havg
      simp only [calculateAverageValues, Bool.false_eq_true, if_false, List.map_cons] at havg
      exact averageOfSeries_length (rsSeries first) (rest.map rsSeries) true _ havg
    refine ⟨?_, by simp [hlen], ?_⟩
    · have hne : (w.loadedCSVRS.isEmpty && w.loadedCSVLS.isEmpty) = false := by
        simp [hstore]
      have havg2 := havg
      rw [hmode, hstore] at havg2
      simp only [on_btn_export_avg_clicked, hne, hgraph, havg2, hmode, hstore,
        exportPairs_spec first.frequenciesRs averageValues (le_of_eq hlen.symm)]
      simp only [Bool.not_true, Bool.false_eq_true, if_false, if_true, Option.map_some',
        Option.some.injEq]
      rw [zipWith_rs_rows]
      simp
    · refine ⟨_, _, readFile_wellFormed (withRange reader range) range rfl rfl rfl rfl
        baseName _, ?_, ?_⟩
      · simp only [admittedRs]
        rw [rowsInRange_all]
        · exact zipWith_map_left_eq _ _ (fun _ _ => rfl) _ _ hlen.symm
        · intro row hrow
          obtain ⟨f, hf, a, _, rfl⟩ := zipWith_fst_mem _ _ _ row hrow
          exact hcover f hf
      · simp only [admittedRs]
        rw [rowsInRange_all]
        · exact zipWith_map_right_eq _ _ (fun _ _ => rfl) _ _ hlen.symm
        · intro row hrow
          obtain ⟨f, hf, a, _, rfl⟩ := zipWith_fst_mem _ _ _ row hrow
          exact hcover f hf

theorem scenarioAveraged_average :
    calculateAverageValues scenarioAveraged.loadedCSVLS scenarioAveraged.loadedCSVRS
      scenarioAveraged.radioButton_Ls true = some [2, 2, 2] := by
  norm_num [calculateAverageValues, averageOfSeries, sumSeries, addValues, lsSeries,
    scenarioAveraged, scenarioLS]

theorem scenarioAveraged_has_average :
    scenarioAveraged.graphs.any isAverageGraph = true := by
  decide

/-- Witness of C26: the averaged scenario in Ls mode, read back with the range
0 to 100. -/
theorem export_reingest_roundtrip_witness :
    on_btn_export_avg_clicked scenarioAveraged
      = some (some [(10, 2, 0), (20, 2, 0), (30, 2, 0)]) ∧
    ∃ fileInfo fileInfo2RS,
      readFile (withRange scenarioAveraged scenarioRange)
        (wellFormedFile "average_data" [(10, 2, 0), (20, 2, 0), (30, 2, 0)])
        = some (fileInfo, fileInfo2RS) ∧
      fileInfo.frequenciesLs = [10, 20, 30] ∧ fileInfo.lsValues = [2, 2, 2] := by
  have h := (export_reingest_roundtrip scenarioAveraged scenarioAveraged scenarioRange
    "average_data" [2, 2, 2] scenarioAveraged_has_average scenarioAveraged_average).1
    ⟨"a", [1, 2, 3], [], [], [10, 20, 30], true⟩
    [⟨"b", [2, 2, 2], [], [], [10, 20, 30], true⟩,
     ⟨"c", [3, 2, 1], [], [], [10, 20, 30], true⟩] rfl rfl
    (by norm_num [scenarioRange])
  exact ⟨by simpa using h.1, by simpa using h.2.2⟩

/-! ## compareFrequency -/

theorem nearestPoint_cases (graph : QCPGraph) (x : ℚ) :
    (graph.data = [] ∧ findNearestDataPoint (some graph.data) x = some (-1)
      ∧ nearestPoint graph x = none) ∨
    (graph.data ≠ [] ∧ ∃ r point, findNearestDataPoint (some graph.data) x = some r
      ∧ r ≠ -1 ∧ pointAt graph.data r = some point
      ∧ nearestPoint graph x = some point) := by
  by_cases hd : graph.data = []
  · left
    have h : findNearestDataPoint (some graph.data) x = some (-1) := by
      simp [findNearestDataPoint, hd]
    refine ⟨hd, h, ?_⟩
    simp [nearestPoint, h, pointAt]
  · right
    obtain ⟨r, hr, h0, hlt⟩ := findNearestDataPoint_total graph.data x hd
    have hnat : r.toNat < graph.data.length := by omega
    have hp : pointAt graph.data r = some (graph.data.get ⟨r.toNat, hnat⟩) := by
      simp [pointAt, h0, List.get?_eq_getElem?, List.getElem?_eq_getElem hnat]
    refine ⟨hd, r, _, hr, by omega, hp, ?_⟩
    simp only [nearestPoint, hr]
    exact hp

theorem comparedGraphs_hidden (graph : QCPGraph) (rest : List QCPGraph) (x : ℚ)
    (hv : graph.visible = false) :
    comparedGraphs (graph :: rest) x = comparedGraphs rest x := by
  simp [comparedGraphs, List.filterMap_cons, hv]

theorem comparedGraphs_empty (graph : QCPGraph) (rest : List QCPGraph) (x : ℚ)
    (hn : nearestPoint graph x = none) :
    comparedGraphs (graph :: rest) x = comparedGraphs rest x := by
  by_cases hv : graph.visible = true <;> simp [comparedGraphs, List.filterMap_cons, hv, hn]

theorem comparedGraphs_point (graph : QCPGraph) (rest : List QCPGraph) (x : ℚ)
    (point : QCPGraphData) (hv : graph.visible = true)
    (hn : nearestPoint graph x = some point) :
    comparedGraphs (graph :: rest) x = (graph, point) :: comparedGraphs rest x := by
  simp [comparedGraphs, List.filterMap_cons, hv, hn]

theorem maxDifferenceLoop_spec (x avgY : ℚ) : ∀ (graphs : List QCPGraph) (m : ℚ),
    0 ≤ m →
    maxDifferenceLoop x avgY graphs m
      = some (max m (maxDifferenceOf avgY (comparedGraphs graphs x)))
  | [], m, h0 => by
    simp [maxDifferenceLoop, maxDifferenceOf, comparedGraphs, h0]
  | graph :: rest, m, h0 => by
    have ih := maxDifferenceLoop_spec x avgY rest
    by_cases hv : graph.visible = true
    · rcases nearestPoint_cases graph x with ⟨_, hf, hn⟩ | ⟨_, r, point, hf, hr, hp, hn⟩
      · rw [comparedGraphs_empty graph rest x hn]
        simp [maxDifferenceLoop, hv, hf, ih m h0]
      · rw [comparedGraphs_point graph rest x point hv hn]
        have hm : maxDifferenceOf avgY ((graph, point) :: comparedGraphs rest x)
            = max |point.value - avgY| (maxDifferenceOf avgY (comparedGraphs rest x)) := by
          simp [maxDifferenceOf]
        simp only [maxDifferenceLoop, hv, if_true, hf, hr, if_false, hp, hm]
        by_cases hgt : |point.value - avgY| > m
        · rw [if_pos hgt, ih _ (abs_nonneg _), ← max_assoc, max_eq_right (le_of_lt hgt)]
        · rw [if_neg hgt, ih m h0, ← max_assoc, max_eq_left (not_lt.mp hgt)]
    · have hv2 : graph.visible = false := by simpa using hv
      rw [comparedGraphs_hidden graph rest x hv2]
      simp [maxDifferenceLoop, hv2, ih m h0]

theorem maxDifferenceOf_nonneg (avgY : ℚ) (compared : List (QCPGraph × QCPGraphData)) :
    0 ≤ maxDifferenceOf avgY compared :=
  foldr_max_nonneg _

theorem recordLoop_spec (x avgY maxDifference : ℚ) : ∀ (graphs : List QCPGraph),
    recordLoop x avgY maxDifference graphs
      = some ((comparedGraphs graphs x).map (recordOf avgY maxDifference))
  | [] => by simp [recordLoop, comparedGraphs]
  | graph :: rest => by
    have ih := recordLoop_spec x avgY maxDifference rest
    by_cases hv : graph.visible = true
    · rcases nearestPoint_cases graph x with ⟨_, hf, hn⟩ | ⟨_, r, point, hf, hr, hp, hn⟩
      · rw [comparedGraphs_empty graph rest x hn]
        simp [recordLoop, hv, hf, ih]
      · rw [comparedGraphs_point graph rest x point hv hn]
        simp [recordLoop, hv, hf, hr, hp, ih, recordOf]
    · have hv2 : graph.visible = false := by simpa using hv
      rw [comparedGraphs_hidden graph rest x hv2]
      simp [recordLoop, hv2, ih]

theorem compareFrequency_spec (w : MainWindow) (x : ℚ) :
    compareFrequency w x
      = some { w with recordedPoints := w.recordedPoints ++ compareRows w.graphs x } := by
  unfold compareFrequency compareRows
  cases hfind : w.graphs.find? isAverageGraph with
  | none => simp
  | some averageGraph =>
    simp only
    rcases nearestPoint_cases averageGraph x with
      ⟨_, hf, hn⟩ | ⟨_, r, point, hf, hr, hp, hn⟩
    · simp [hf, hn]
    · simp only [hf, hr, if_false, hp, hn, maxDifferenceLoop_spec x point.value w.graphs 0
        le_rfl, recordLoop_spec, comparedRecords]
      rw [max_eq_right (maxDifferenceOf_nonneg _ _)]

theorem comparedGraphs_graphs (x : ℚ) : ∀ (graphs : List QCPGraph),
    (comparedGraphs graphs x).map Prod.fst
      = graphs.filter (fun graph => graph.visible && !graph.data.isEmpty)
  | [] => by simp [comparedGraphs]
  | graph :: rest => by
    have ih := comparedGraphs_graphs x rest
    by_cases hv : graph.visible = true
    · rcases nearestPoint_cases graph x with ⟨hd, _, hn⟩ | ⟨hd, r, point, _, _, _, hn⟩
      · rw [comparedGraphs_empty graph rest x hn, ih]
        simp [List.filter_cons, hd]
      · rw [comparedGraphs_point graph rest x point hv hn]
        have he : graph.data.isEmpty = false := by
          cases hdata : graph.data with
          | nil => exact absurd hdata hd
          | cons _ _ => rfl
        simp [List.filter_cons, hv, he, ih]
    · have hv2 : graph.visible = false := by simpa using hv
      rw [comparedGraphs_hidden graph rest x hv2, ih]
      simp [List.filter_cons, hv2]

theorem comparedGraphs_mem (x : ℚ) (graph : QCPGraph) (point : QCPGraphData) :
    ∀ (graphs : List QCPGraph), graph ∈ graphs → graph.visible = true →
      nearestPoint graph x = some point → (graph, point) ∈ comparedGraphs graphs x := by
  intro graphs hg hv hn
  simp only [comparedGraphs, List.mem_filterMap]
  exact ⟨graph, hg, by simp [hv, hn]⟩

theorem comparedGraphs_point_of_mem (x : ℚ) (gp : QCPGraph × QCPGraphData)
    (graphs : List QCPGraph) (h : gp ∈ comparedGraphs graphs x) :
    gp.1 ∈ graphs ∧ gp.1.visible = true ∧ nearestPoint gp.1 x = some gp.2 := by
  simp only [comparedGraphs, List.mem_filterMap] at h
  obtain ⟨graph, hg, hgp⟩ := h
  by_cases hv : graph.visible = true
  · simp only [hv, if_true, Option.map_eq_some'] at hgp
    obtain ⟨point, hn, rfl⟩ := hgp
    exact ⟨hg, hv, hn⟩
  · simp [hv] at hgp

theorem maxDifferenceOf_filter (avgY : ℚ) (keep : QCPGraph × QCPGraphData → Bool) :
    ∀ (compared : List (QCPGraph × QCPGraphData)),
      (∀ gp ∈ compared, keep gp = false → gp.2.value = avgY) →
      maxDifferenceOf avgY compared = maxDifferenceOf avgY (compared.filter keep)
  | [], _ => rfl
  | gp :: compared, h => by
    have ih := maxDifferenceOf_filter avgY keep compared
      (fun gp2 hgp2 => h gp2 (List.mem_cons_of_mem _ hgp2))
    have hcons : maxDifferenceOf avgY (gp :: compared)
        = max |gp.2.value - avgY| (maxDifferenceOf avgY compared) := by
      simp [maxDifferenceOf]
    by_cases hk : keep gp = true
    · rw [List.filter_cons_of_pos hk, hcons, ih]
      simp [maxDifferenceOf]
    · have hk2 : keep gp = false := by simpa using hk
      rw [List.filter_cons_of_neg hk, hcons, ← ih, h gp (List.mem_cons_self _ _) hk2,
        sub_self, abs_zero]
      exact max_eq_right (maxDifferenceOf_nonneg _ _)

theorem find_average_spec (graphs : List QCPGraph) (averageGraph : QCPGraph)
    (h : graphs.find? isAverageGraph = some averageGraph) :
    averageGraph ∈ graphs ∧ isAverageGraph averageGraph = true :=
  ⟨List.mem_of_find?_eq_some h, List.find?_some h⟩

/-- C21 (amended): when the plot has an average graph and that graph has a
data point, `avgY` being the value of its point nearest to the target,
`compareFrequency` appends, in plot order, one record for each visible graph
of the plot that has a data point, and nothing else: the record
`(key, graphY, name, distanceRatio, distanceToAverage)` taken at the point
the graph's own locator finds, with `distanceToAverage = |graphY - avgY|`,
`distanceRatio = distanceToAverage / maxDifference` if `maxDifference > 0`
and `0` otherwise, `maxDifference` being the maximum of `|graphY - avgY|`
over these graphs. Every visible graph with a data point has its record
among the appended ones, every appended record is the record of such a
graph, and when the average graph is the only graph named as one,
`maxDifference` is the maximum over the other visible graphs alone. -/
theorem compareFrequency_records (w : MainWindow) (targetFrequency : ℚ)
    (averageGraph : QCPGraph) (averagePoint : QCPGraphData)
    (hfind : w.graphs.find? isAverageGraph = some averageGraph)
    (hpoint : nearestPoint averageGraph targetFrequency = some averagePoint) :
    compareFrequency w targetFrequency
      = some { w with recordedPoints :=
          w.recordedPoints ++ comparedRecords w.graphs targetFrequency averagePoint.value } ∧
    (∀ graph ∈ w.graphs, graph.visible = true →
      ∀ point, nearestPoint graph targetFrequency = some point →
        ({ x := point.key, y := point.value, graphName := graph.name,
           distanceRatio :=
             if maxDifferenceOf averagePoint.value
                 (comparedGraphs w.graphs targetFrequency) > 0 then
               |point.value - averagePoint.value|
                 / maxDifferenceOf averagePoint.value
                     (comparedGraphs w.graphs targetFrequency)
             else 0,
           totalDistanceToAverage := |point.value - averagePoint.value| } : RecordedPoint)
          ∈ comparedRecords w.graphs targetFrequency averagePoint.value) ∧
    (∀ row ∈ comparedRecords w.graphs targetFrequency averagePoint.value,
      ∃ graph ∈ w.graphs, graph.visible = true ∧
        ∃ point, nearestPoint graph targetFrequency = some point ∧
          row.x = point.key ∧ row.y = point.value ∧ row.graphName = graph.name ∧
          row.totalDistanceToAverage = |point.value - averagePoint.value|) ∧
    ((∀ graph ∈ w.graphs, isAverageGraph graph = true → graph = averageGraph) →
      maxDifferenceOf averagePoint.value (comparedGraphs w.graphs targetFrequency)
        = maxDifferenceOf averagePoint.value
            ((comparedGraphs w.graphs targetFrequency).filter
              (fun gp => !isAverageGraph gp.1))) := by
  refine ⟨?_, ?_, ?_, ?_⟩
  · rw [compareFrequency_spec]
    simp [compareRows, hfind, hpoint]
  · intro graph hg hv point hn
    unfold comparedRecords
    exact List.mem_map.mpr ⟨(graph, point),
      comparedGraphs_mem targetFrequency graph point w.graphs hg hv hn, rfl⟩
  · intro row hrow
    unfold comparedRecords at hrow
    obtain ⟨gp, hgp, rfl⟩ := List.mem_map.mp hrow
    obtain ⟨hmem, hv, hn⟩ := comparedGraphs_point_of_mem targetFrequency gp w.graphs hgp
    exact ⟨gp.1, hmem, hv, gp.2, hn, rfl, rfl, rfl, rfl⟩
  · intro huniq
    apply maxDifferenceOf_filter
    intro gp hgp hkeep
    obtain ⟨hmem, _, hn⟩ := comparedGraphs_point_of_mem targetFrequency gp w.graphs hgp
    have havg : isAverageGraph gp.1 = true := by simpa using hkeep
    have heq := huniq gp.1 hmem havg
    rw [heq, hpoint] at hn
    cases hn
    rfl

/-- C24: one call of `compareFrequency` returns, for every window and target,
with `recordedPoints` followed by the new rows and nothing else changed; the
rows depend on the graphs and the target only, not on the points recorded
before, so a second call with the same target leaves the old points followed
by the same rows twice. -/
theorem compareFrequency_appends (w : MainWindow) (targetFrequency : ℚ) :
    compareFrequency w targetFrequency
      = some { w with recordedPoints :=
          w.recordedPoints ++ compareRows w.graphs targetFrequency } ∧
    (∀ points, compareFrequency { w with recordedPoints := points } targetFrequency
      = some { w with recordedPoints := points ++ compareRows w.graphs targetFrequency }) ∧
    (compareFrequency w targetFrequency).bind
        (fun w1 => compareFrequency w1 targetFrequency)
      = some { w with recordedPoints :=
          w.recordedPoints ++ compareRows w.graphs targetFrequency
            ++ compareRows w.graphs targetFrequency } := by
  refine ⟨compareFrequency_spec w targetFrequency, fun points => ?_, ?_⟩
  · rw [compareFrequency_spec]
  · rw [compareFrequency_spec, Option.some_bind, compareFrequency_spec]

/-- C22 (amended): one successful call of `compareFrequency` (the plot has an
average graph and that graph has a data point) appends exactly one record per
visible graph of the plot that has a data point, in plot order, and no other
row: the names of the appended rows are the names of these graphs in plot
order and their number is the number of these graphs. The average graph is a
graph of the plot like the others: when it is visible, one of the appended
rows is its own, with its name, its value and the distance 0. -/
theorem compareFrequency_row_per_visible_graph (w : MainWindow) (targetFrequency : ℚ)
    (averageGraph : QCPGraph) (averagePoint : QCPGraphData)
    (hfind : w.graphs.find? isAverageGraph = some averageGraph)
    (hpoint : nearestPoint averageGraph targetFrequency = some averagePoint) :
    ∃ rows, compareFrequency w targetFrequency
        = some { w with recordedPoints := w.recordedPoints ++ rows } ∧
      rows.map (fun row => row.graphName)
        = (w.graphs.filter (fun graph => graph.visible && !graph.data.isEmpty)).map
            (fun graph => graph.name) ∧
      rows.length
        = (w.graphs.filter (fun graph => graph.visible && !graph.data.isEmpty)).length ∧
      (averageGraph.visible = true →
        ∃ row ∈ rows, row.graphName = averageGraph.name ∧ row.y = averagePoint.value
          ∧ row.totalDistanceToAverage = 0) := by
  refine ⟨_, (by rw [compareFrequency_spec]), ?_, ?_, ?_⟩
  · simp only [compareRows, hfind, hpoint, comparedRecords, List.map_map]
    rw [← comparedGraphs_graphs targetFrequency w.graphs, List.map_map]
    rfl
  · simp only [compareRows, hfind, hpoint, comparedRecords, List.length_map]
    rw [← comparedGraphs_graphs targetFrequency w.graphs, List.length_map]
  · intro hv
    simp only [compareRows, hfind, hpoint, comparedRecords]
    refine ⟨_, List.mem_map.mpr ⟨(averageGraph, averagePoint),
      comparedGraphs_mem targetFrequency averageGraph averagePoint w.graphs
        (find_average_spec w.graphs averageGraph hfind).1 hv hpoint, rfl⟩, ?_⟩
    simp [recordOf]

theorem nearest_first_of_three (k0 k1 k2 v0 v1 v2 : ℚ) (h : k0 < k1) :
    findNearestDataPoint (some [⟨k0, v0⟩, ⟨k1, v1⟩, ⟨k2, v2⟩]) k0 = some 0 := by
  simp only [findNearestDataPoint, List.length_cons, List.length_nil]
  rw [if_neg (by omega)]
  rw [nearestLoop]
  have hmid : Int.tdiv ((0 : Int) + (((0 + 1 + 1 + 1 : Nat) : Int) - 1)) 2 = 1 := by decide
  simp only [hmid]
  have hkey : keyAt [(⟨k0, v0⟩ : QCPGraphData), ⟨k1, v1⟩, ⟨k2, v2⟩] 1 = some k1 := by
    simp [keyAt]
  rw [if_pos (by decide), hkey]
  simp only
  rw [if_pos h, nearestLoop]
  have hmid0 : Int.tdiv ((0 : Int) + ((1 : Int) - 1)) 2 = 0 := by decide
  simp only [hmid0]
  have hkey0 : keyAt [(⟨k0, v0⟩ : QCPGraphData), ⟨k1, v1⟩, ⟨k2, v2⟩] 0 = some k0 := by
    simp [keyAt]
  rw [if_pos (by decide), hkey0]
  simp

theorem nearestPoint_first_of_three (name : String) ( visible : Bool)
    (k0 k1 k2 v0 v1 v2 : ℚ) (h : k0 < k1) :
    nearestPoint ⟨name, visible, [⟨k0, v0⟩, ⟨k1, v1⟩, ⟨k2, v2⟩]⟩ k0 = some ⟨k0, v0⟩ := by
  simp [nearestPoint, nearest_first_of_three k0 k1 k2 v0 v1 v2 h, pointAt]

theorem scenarioAveraged_find :
    scenarioAveraged.graphs.find? isAverageGraph
      = some ⟨"Average LS", true, [⟨10, 2⟩, ⟨20, 2⟩, ⟨30, 2⟩]⟩ := by
  simp [scenarioAveraged, List.find?, isAverageGraph, scenario_names_not_average.2.2.2]

theorem scenarioAveraged_records :
    comparedRecords scenarioAveraged.graphs 10 2
      = [⟨10, 1, "a", 1, 1⟩, ⟨10, 2, "b", 0, 0⟩, ⟨10, 3, "c", 1, 1⟩,
         ⟨10, 2, "Average LS", 0, 0⟩] := by
  have hc : comparedGraphs scenarioAveraged.graphs 10
      = [(⟨"a", true, [⟨10, 1⟩, ⟨20, 2⟩, ⟨30, 3⟩]⟩, ⟨10, 1⟩),
         (⟨"b", true, [⟨10, 2⟩, ⟨20, 2⟩, ⟨30, 2⟩]⟩, ⟨10, 2⟩),
         (⟨"c", true, [⟨10, 3⟩, ⟨20, 2⟩, ⟨30, 1⟩]⟩, ⟨10, 3⟩),
         (⟨"Average LS", true, [⟨10, 2⟩, ⟨20, 2⟩, ⟨30, 2⟩]⟩, ⟨10, 2⟩)] := by
    have hlt : (10 : ℚ) < 20 := by norm_num
    simp [comparedGraphs, scenarioAveraged, List.filterMap_cons,
      nearestPoint_first_of_three _ _ 10 20 30 _ _ _ hlt]
  rw [comparedRecords, hc]
  norm_num [maxDifferenceOf, recordOf]

/-- Witness of C21 (amended): the averaged scenario compared at 10, where the
graphs of the series hold 1, 2, 3 and the average graph 2. -/
theorem compareFrequency_records_witness :
    compareFrequency scenarioAveraged 10
      = some { scenarioAveraged with
          recordedPoints := [⟨10, 1, "a", 1, 1⟩, ⟨10, 2, "b", 0, 0⟩, ⟨10, 3, "c", 1, 1⟩,
            ⟨10, 2, "Average LS", 0, 0⟩] } :=
  (compareFrequency_records scenarioAveraged 10 _ ⟨10, 2⟩ scenarioAveraged_find
    (nearestPoint_first_of_three _ _ 10 20 30 2 2 2 (by norm_num))).1.trans (by
      rw [scenarioAveraged_records]
      rfl)

theorem scenarioPartial_reached :
    runActions (initialWindow scenarioRange)
        [Action.load (some scenarioRange)
          [wellFormedFile "b" [(10, 2, 5), (20, 2, 5), (30, 2, 5)], shortLineFile],
         Action.calculateAverage]
      = some scenarioPartial := by
  norm_num [runActions, perform, on_btn_load_plot_clicked, scenarioRange,
    wellFormedFile, shortLineFile, loadFiles, readFile, readLines, readLine,
    Field.toDouble, initialWindow, clearEverything, setData,
    on_btn_avg_clicked, calculateAverageValues, averageOfSeries, sumSeries, addValues,
    lsSeries, rsSeries, addAverageGraph, MainWindow.calculateDistanceRatios,
    calculateDistanceRatios, distanceRatiosOfSeries, maxDistanceRatioLoop,
    distanceRatiosLoop, averageDifference, sumDifferences, Dbl.div,
    isAverageGraph, List.eraseP, List.insertionSort, List.orderedInsert,
    scenarioPartial]

/-- C21 (counterexample): the well-formed file `b` and a file with a two-field
line are loaded in one batch, then the average is calculated. The load
returns at the rejected file before the plot is rebuilt, so the store holds
the visible series `b` while the plot holds the average graph only; a call of
`compareFrequency` appends the row of the average graph and no row for the
visible series `b`. -/
theorem compareFrequency_series_without_graph :
    runActions (initialWindow scenarioRange)
        [Action.load (some scenarioRange)
          [wellFormedFile "b" [(10, 2, 5), (20, 2, 5), (30, 2, 5)], shortLineFile],
         Action.calculateAverage]
      = some scenarioPartial ∧
    scenarioPartial.loadedCSVLS.map (fun fileInfo => (fileInfo.fileName, fileInfo.visible))
      = [("b", true)] ∧
    scenarioPartial.graphs.map (fun graph => graph.name) = ["Average LS"] ∧
    compareFrequency scenarioPartial 10
      = some { scenarioPartial with recordedPoints := [⟨10, 2, "Average LS", 0, 0⟩] } := by
  refine ⟨scenarioPartial_reached, by simp [scenarioPartial], by simp [scenarioPartial], ?_⟩
  have hfind : scenarioPartial.graphs.find? isAverageGraph
      = some ⟨"Average LS", true, [⟨10, 2⟩, ⟨20, 2⟩, ⟨30, 2⟩]⟩ := by
    simp [scenarioPartial, List.find?, isAverageGraph]
  have hpoint := nearestPoint_first_of_three "Average LS" true 10 20 30 2 2 2
    (by norm_num)
  have hc : comparedGraphs scenarioPartial.graphs 10
      = [(⟨"Average LS", true, [⟨10, 2⟩, ⟨20, 2⟩, ⟨30, 2⟩]⟩, ⟨10, 2⟩)] := by
    simp [comparedGraphs, scenarioPartial, List.filterMap_cons, hpoint]
  rw [compareFrequency_spec]
  simp only [compareRows, hfind, hpoint, comparedRecords, hc]
  norm_num [maxDifferenceOf, recordOf, scenarioPartial]

/-- C22 (counterexample): in the averaged scenario the three loaded Ls series
are visible, and one call of `compareFrequency` appends four rows: the fourth
one is the row of the average graph itself. -/
theorem compareFrequency_average_graph_row :
    (scenarioAveraged.loadedCSVLS.filter (fun fileInfo => fileInfo.visible)).length = 3 ∧
    (compareFrequency scenarioAveraged 10).map
        (fun w => w.recordedPoints.map (fun row => row.graphName))
      = some ["a", "b", "c", "Average LS"] := by
  constructor
  · simp [scenarioAveraged, scenarioLS]
  · rw [compareFrequency_spec]
    simp [compareRows, scenarioAveraged_find,
      nearestPoint_first_of_three _ _ 10 20 30 2 2 2 (by norm_num),
      scenarioAveraged_records]
    simp [scenarioAveraged]

/-- Witness of C22 (amended): the averaged scenario compared at 10 gets four
rows, one for each of its four visible graphs. -/
theorem compareFrequency_row_per_visible_graph_witness :
    ∃ rows, compareFrequency scenarioAveraged 10
        = some { scenarioAveraged with
            recordedPoints := scenarioAveraged.recordedPoints ++ rows } ∧
      rows.length = 4 := by
  obtain ⟨rows, h1, _, h3, _⟩ := compareFrequency_row_per_visible_graph scenarioAveraged 10 _
    ⟨10, 2⟩ scenarioAveraged_find
    (nearestPoint_first_of_three _ _ 10 20 30 2 2 2 (by norm_num))
  refine ⟨rows, h1, ?_⟩
  rw [h3]
  simp [scenarioAveraged]

/-! ## The counting invariant -/

theorem loadFiles_lengths : ∀ (files : List CsvFile) (w : MainWindow),
    w.loadedCSVLS.length = w.loadedCSVRS.length →
    (loadFiles w files).1.loadedCSVLS.length = (loadFiles w files).1.loadedCSVRS.length
  | [], w, h => by simpa [loadFiles] using h
  | file :: rest, w, h => by
    simp only [loadFiles]
    cases hread : readFile w file with
    | none => simpa using h
    | some e =>
      obtain ⟨fileInfo, fileInfo2RS⟩ := e
      exact loadFiles_lengths rest _ (by simp [h])

theorem on_btn_load_plot_clicked_counted (w : MainWindow)
    (settings : Option FrequencyRange) (files : List CsvFile) :
    (on_btn_load_plot_clicked w settings files).loadedCSVLS.length
      = (on_btn_load_plot_clicked w settings files).loadedCSVRS.length ∧
    (on_btn_load_plot_clicked w settings files).avg = false := by
  cases settings with
  | none => exact ⟨rfl, rfl⟩
  | some range =>
    have hlen := loadFiles_lengths files (withRange (clearEverything w) range) rfl
    have havg := (loadFiles_range files (withRange (clearEverything w) range)).2.2.2.2.2.1
    have havg2 : (loadFiles (withRange (clearEverything w) range) files).1.avg = false := by
      rw [havg]
      rfl
    show (match loadFiles (withRange (clearEverything w) range) files with
      | (w2, false) => w2
      | (w2, true) =>
        if w2.radioButton_Ls then on_radioButton_Ls_clicked w2
        else on_radioButton_Rs_clicked w2).loadedCSVLS.length
      = (match loadFiles (withRange (clearEverything w) range) files with
      | (w2, false) => w2
      | (w2, true) =>
        if w2.radioButton_Ls then on_radioButton_Ls_clicked w2
        else on_radioButton_Rs_clicked w2).loadedCSVRS.length ∧
      (match loadFiles (withRange (clearEverything w) range) files with
      | (w2, false) => w2
      | (w2, true) =>
        if w2.radioButton_Ls then on_radioButton_Ls_clicked w2
        else on_radioButton_Rs_clicked w2).avg = false
    cases hres : loadFiles (withRange (clearEverything w) range) files with
    | mk w2 flag =>
      rw [hres] at hlen havg2
      cases flag with
      | false => exact ⟨hlen, havg2⟩
      | true =>
        simp only
        split
        · exact ⟨by simpa [on_radioButton_Ls_clicked] using hlen, havg2⟩
        · exact ⟨by simpa [on_radioButton_Rs_clicked] using hlen, havg2⟩

theorem hideSelectedGraph_flags (w : MainWindow) (selected : Nat → Bool) :
    (hideSelectedGraph w selected).avg = w.avg ∧
    (hideSelectedGraph w selected).distanceRatios = w.distanceRatios := by
  unfold hideSelectedGraph
  generalize List.range w.graphs.length = indices
  induction indices generalizing w with
  | nil => exact ⟨rfl, rfl⟩
  | cons i rest ih =>
    simp only [List.foldl_cons]
    by_cases hsel : selected i = true
    · simp only [hsel, if_true]
      exact ih _
    · simp only [hsel, Bool.false_eq_true, if_false]
      exact ih w

theorem hideUnselectedGraphs_flags (w : MainWindow) (selected : Nat → Bool) :
    (hideUnselectedGraphs w selected).avg = w.avg ∧
    (hideUnselectedGraphs w selected).distanceRatios = w.distanceRatios := by
  unfold hideUnselectedGraphs
  generalize List.range w.graphs.length = indices
  induction indices generalizing w with
  | nil => exact ⟨rfl, rfl⟩
  | cons i rest ih =>
    simp only [List.foldl_cons]
    by_cases hsel : selected i = true
    · simp only [hsel, Bool.not_true, Bool.false_eq_true, if_false]
      exact ih w
    · simp only [hsel, Bool.not_false, if_true]
      exact ih _

theorem highlight_flags (w w2 : MainWindow) (value : ℚ)
    (h : on_btn_HighlightGraphs_clicked w value = some w2) :
    w2.avg = w.avg ∧ w2.distanceRatios = w.distanceRatios := by
  unfold on_btn_HighlightGraphs_clicked at h
  split at h
  · cases h; exact ⟨rfl, rfl⟩
  · split at h
    · cases h; exact ⟨rfl, rfl⟩
    · split at h
      · cases h; exact ⟨rfl, rfl⟩
      · simp only at h
        split at h
        · simp only [Option.map_eq_some'] at h
          obtain ⟨loaded, _, rfl⟩ := h
          exact ⟨rfl, rfl⟩
        · simp only [Option.map_eq_some'] at h
          obtain ⟨loaded, _, rfl⟩ := h
          exact ⟨rfl, rfl⟩

theorem storeCounted_of_data (w w2 : MainWindow)
    (hls : w2.loadedCSVLS.map lsData = w.loadedCSVLS.map lsData)
    (hrs : w2.loadedCSVRS.map rsData = w.loadedCSVRS.map rsData)
    (havg : w2.avg = w.avg) (hratios : w2.distanceRatios = w.distanceRatios)
    (h : StoreCounted w) : StoreCounted w2 := by
  have h1 : w2.loadedCSVLS.length = w.loadedCSVLS.length := by
    simpa using congrArg List.length hls
  have h2 : w2.loadedCSVRS.length = w.loadedCSVRS.length := by
    simpa using congrArg List.length hrs
  refine ⟨by rw [h1, h2]; exact h.1, fun ha => ?_⟩
  rw [hratios, h1]
  exact h.2 (by rw [← havg]; exact ha)

theorem seriesOfKind_length (ls : List CSVInfo) (rs : List CSVInfo2) (useLs : Bool)
    (h : ls.length = rs.length) : (seriesOfKind ls rs useLs).length = ls.length := by
  cases useLs <;> simp [seriesOfKind, h]

theorem on_btn_avg_clicked_counted (w w2 : MainWindow) (h : StoreCounted w)
    (hp : on_btn_avg_clicked w = some w2) : StoreCounted w2 := by
  obtain ⟨h1, h2, _, hcase⟩ := on_btn_avg_clicked_frame w w2 hp
  rcases hcase with ⟨hrs, hls⟩ | ⟨_, hfresh⟩
  · have hw : w2 = w := by
      simp only [on_btn_avg_clicked, hrs, hls, List.isEmpty_nil, Bool.and_self, if_true,
        Option.some.injEq] at hp
      exact hp.symm
    rw [hw]
    exact h
  · have hlen : w2.loadedCSVLS.length = w2.loadedCSVRS.length := by
      rw [h1, h2]
      exact h.1
    refine ⟨hlen, fun _ => ?_⟩
    rw [calculateDistanceRatios_eq] at hfresh
    rw [(distanceRatiosOfSeries_invisible _ _ hfresh).1, seriesOfKind_length _ _ _ hlen]

theorem perform_counted (w w2 : MainWindow) (a : Action) (h : StoreCounted w)
    (hp : perform w a = some w2) : StoreCounted w2 := by
  cases a with
  | load settings files =>
    simp only [perform, Option.some.injEq] at hp
    subst hp
    obtain ⟨hlen, havg⟩ := on_btn_load_plot_clicked_counted w settings files
    exact ⟨hlen, fun ha => by rw [havg] at ha; cases ha⟩
  | clear =>
    simp only [perform, Option.some.injEq] at hp
    subst hp
    exact ⟨rfl, fun ha => by cases ha⟩
  | calculateAverage => exact on_btn_avg_clicked_counted w w2 h hp
  | hideSelected selected =>
    simp only [perform, Option.some.injEq] at hp
    subst hp
    exact storeCounted_of_data w _ (hideSelectedGraph_data w selected).1
      (hideSelectedGraph_data w selected).2 (hideSelectedGraph_flags w selected).1
      (hideSelectedGraph_flags w selected).2 h
  | hideUnselected selected =>
    simp only [perform, Option.some.injEq] at hp
    subst hp
    exact storeCounted_of_data w _ (hideUnselectedGraphs_data w selected).1
      (hideUnselectedGraphs_data w selected).2 (hideUnselectedGraphs_flags w selected).1
      (hideUnselectedGraphs_flags w selected).2 h
  | toggleGraph graph checked averageAction =>
    obtain ⟨h1, h2, _, h4, h5⟩ := onGraphVisibilityChanged_frame w w2 graph checked
      averageAction hp
    exact storeCounted_of_data w w2 h1 h2 h4 h5 h
  | highlight value =>
    obtain ⟨h1, h2⟩ := highlight_data w w2 value hp
    obtain ⟨h3, h4⟩ := highlight_flags w w2 value hp
    exact storeCounted_of_data w w2 h1 h2 h3 h4 h
  | selectLs =>
    simp only [perform, Option.some.injEq] at hp
    subst hp
    exact ⟨by simpa [on_radioButton_Ls_clicked] using h.1,
      fun ha => by simpa [on_radioButton_Ls_clicked] using h.2 ha⟩
  | selectRs =>
    simp only [perform, Option.some.injEq] at hp
    subst hp
    exact ⟨by simpa [on_radioButton_Rs_clicked] using h.1,
      fun ha => by simpa [on_radioButton_Rs_clicked] using h.2 ha⟩

theorem runActions_counted : ∀ (actions : List Action) (w w2 : MainWindow),
    StoreCounted w → runActions w actions = some w2 → StoreCounted w2
  | [], w, w2, h, hr => by
    simp only [runActions, Option.some.injEq] at hr
    subst hr
    exact h
  | a :: rest, w, w2, h, hr => by
    simp only [runActions] at hr
    cases hp : perform w a with
    | none => simp [hp] at hr
    | some w1 =>
      simp only [hp] at hr
      exact runActions_counted rest w1 w2 (perform_counted w w1 a h hp) hr

theorem highlight_returns_of_counted (w : MainWindow) (h : StoreCounted w) (value : ℚ) :
    ∃ w2, on_btn_HighlightGraphs_clicked w value = some w2 := by
  by_cases hl : w.loadedCSVRS = [] ∧ w.loadedCSVLS = []
  · exact ⟨w, by simp [on_btn_HighlightGraphs_clicked, hl.1, hl.2]⟩
  · by_cases ha : w.avg = true
    · by_cases hg : ∃ graph ∈ w.graphs, isAverageGraph graph = true
      · exact highlight_completes w value hl ha hg
          (by rw [seriesOfKind_length _ _ _ h.1, h.2 ha])
      · refine ⟨w, ?_⟩
        have hany : w.graphs.any isAverageGraph = false := by
          rw [Bool.eq_false_iff]
          intro hc
          exact hg (by simpa using hc)
        simp [on_btn_HighlightGraphs_clicked, hany]
    · refine ⟨w, ?_⟩
      have ha2 : w.avg = false := by simpa using ha
      simp [on_btn_HighlightGraphs_clicked, ha2]

/-- C29: in every state reached from the initial window by loading, clearing,
calculating the average, hiding the selected or the unselected graphs,
toggling a graph, switching the mode and filtering, the Ls and the Rs
collection have the same number of entries and, when `avg` is set,
`distanceRatios` has one entry per loaded series; so the filter finds every
`distanceRatios[i]` it reads and returns. -/
theorem reachable_store_counted (range : FrequencyRange) (actions : List Action)
    (w : MainWindow) (hrun : runActions (initialWindow range) actions = some w) :
    w.loadedCSVLS.length = w.loadedCSVRS.length ∧
    (w.avg = true → w.distanceRatios.length = w.loadedCSVLS.length ∧
      w.distanceRatios.length = w.loadedCSVRS.length) ∧
    ∀ value, ∃ w2, on_btn_HighlightGraphs_clicked w value = some w2 := by
  have h : StoreCounted w :=
    runActions_counted actions (initialWindow range) w ⟨rfl, fun ha => by cases ha⟩ hrun
  exact ⟨h.1, fun ha => ⟨h.2 ha, by rw [h.2 ha, h.1]⟩,
    highlight_returns_of_counted w h⟩

/-- Witness of C29: the scenario files are loaded and the average is
calculated, which leaves three entries in each collection and three ratios. -/
theorem reachable_store_counted_witness :
    scenarioAveraged.loadedCSVLS.length = scenarioAveraged.loadedCSVRS.length ∧
    (scenarioAveraged.avg = true →
      scenarioAveraged.distanceRatios.length = scenarioAveraged.loadedCSVLS.length ∧
      scenarioAveraged.distanceRatios.length = scenarioAveraged.loadedCSVRS.length) ∧
    ∀ value, ∃ w2, on_btn_HighlightGraphs_clicked scenarioAveraged value = some w2 :=
  reachable_store_counted scenarioRange
    [Action.load (some scenarioRange) scenarioFiles, Action.calculateAverage]
    scenarioAveraged scenario_load_then_average

end QtDataVis
